import Mathlib

/-!
# MTH9815 bond trading system: order-book distillation and execution decision

A shallow embedding of `Final_Project/MarketDataService.hpp`,
`final project/AlgoExecutionService.hpp`, `Final_Project/StreamingService.hpp`,
`Final_Project/AlgoStreamingService.hpp`, `Final_Project/InquiryService.hpp` and, in the
namespace `HW2`, of `HW2/Problem2&3/products.hpp` and `HW2/Problem2&3/productservice.hpp`,
followed by theorems about it.

Conventions of the embedding.

* A `double` is represented by the rational number it holds (`ℚ`): the comparisons
  `<`, `>` and `==` of the source are the ones of `ℚ`. Not-a-number and the infinities
  are not represented. The subtraction in the spread test of `ExecuteOrder` is the one of
  `double`: the exact difference rounded to the nearest `double` (`roundDouble`). The two
  prices that `PublishPrice` computes reach no member (the constructor drops them) and
  are written exactly.
* A `long` is represented by the integer it holds (`ℤ`). The additions of the
  accumulation of `AggregateDepth` are those of a 64-bit `long`: a result outside the
  range wraps around in two's complement (`wrapLong`).
* The `int` counter of the execution service is represented by the integer it holds
  (`ℤ`); `++counter` is the increment of a 32-bit `int`, which wraps around in two's
  complement (`wrapInt`).
* A `const V&` that a call returns is a `Reference`: live when it refers to an object
  that outlives the call, dangling when it refers to a temporary of the call.
* A `std::map<string, V>` is a partial function `String → Option V`; its key set is the
  set of strings mapped to `some _`.
* A member function is a function from the service state (and its arguments) to the
  new service state and the outcome of the call.
* A member that a constructor does not write keeps the value its storage held before
  the construction; that value is an argument of the embedded constructor.
-/

namespace MTH9815

/-! ## Outcomes of a call -/

/-- How a call of a member function ends: it returns a value, it throws
`std::runtime_error(what)`, or it runs into undefined behaviour (here: `operator[]` of a
`std::vector` applied to an index that is out of range, or a read through a reference
whose object has been destroyed). -/
inductive Outcome (α : Type) where
  | returned (a : α)
  | runtime_error (what : String)
  | undefined
  deriving DecidableEq, Repr

/-! ## References handed back by a call -/

/-- A `const V&` that a call hands back to its caller. It refers either to an object that
outlives the call, or to a local object or temporary of the call; such an object is
destroyed when the call returns, before the caller can use the reference. In the second
case the record keeps the value the object held when it was destroyed. -/
inductive Reference (V : Type) where
  | live (object : V)
  | dangling (destroyed : V)
  deriving DecidableEq, Repr

/-- Reading through a reference: the object it refers to while that object lives, and
undefined behaviour once the object has been destroyed. -/
def Reference.read {V : Type} : Reference V → Outcome V
  | Reference.live object => Outcome.returned object
  | Reference.dangling _ => Outcome.undefined

/-! ## `std::map<string, V>` -/

/-- A `std::map<string, V>`. -/
abbrev StringMap (V : Type) := String → Option V

/-- The empty map. -/
def StringMap.empty {V : Type} : StringMap V := fun _ => none

/-- The test `m.find(k) != m.end()`. -/
def StringMap.contains {V : Type} (m : StringMap V) (k : String) : Bool :=
  (m k).isSome

/-- The assignment `m[k] = v`. -/
def StringMap.assign {V : Type} (m : StringMap V) (k : String) (v : V) : StringMap V :=
  fun k' => if k' = k then some v else m k'

/-- The expression `m[k]` read as a value: when `k` is not a key, a value-initialised `V`
is inserted under `k` first. Returns the map afterwards and the element. -/
def StringMap.index {V : Type} [Inhabited V] (m : StringMap V) (k : String) :
    StringMap V × V :=
  match m k with
  | some v => (m, v)
  | none => (m.assign k default, default)

/-! ## Products (`utils/Products.hpp`) -/

/-- The enum `ProductType { IRSWAP, BOND }`. -/
inductive ProductType where
  | IRSWAP
  | BOND
  deriving DecidableEq, Repr

/-- The class `Product`. -/
structure Product where
  productId : String
  productType : ProductType
  deriving DecidableEq, Repr

/-- The value-initialised product `Product()`: empty identifier, first enumerator. -/
instance : Inhabited Product := ⟨⟨"", ProductType.IRSWAP⟩⟩

/-- What the service templates require of their product parameter `T`: the member
`GetProductId()`. -/
class HasProductId (T : Type) where
  GetProductId : T → String

instance : HasProductId Product := ⟨Product.productId⟩

/-! ## Entities of `MarketDataService.hpp` -/

/-- The enum `PricingSide { BID, OFFER }`. -/
inductive PricingSide where
  | BID
  | OFFER
  deriving DecidableEq, Repr

/-- The class `Order`. -/
structure Order where
  price : ℚ
  quantity : ℤ
  side : PricingSide
  deriving DecidableEq, Repr

/-- The value-initialised order `Order()`: price 0, quantity 0, first enumerator. -/
instance : Inhabited Order := ⟨⟨0, 0, PricingSide.BID⟩⟩

/-- The class `BidOffer`. -/
structure BidOffer where
  bidOrder : Order
  offerOrder : Order
  deriving DecidableEq, Repr

/-- The class template `OrderBook<T>`. -/
structure OrderBook (T : Type) where
  product : T
  bidStack : List Order
  offerStack : List Order
  deriving DecidableEq, Repr

/-- The value-initialised book `OrderBook<T>()`: default product, empty stacks. -/
instance {T : Type} [Inhabited T] : Inhabited (OrderBook T) := ⟨⟨default, [], []⟩⟩

/-! ## The `Service` base class -/

/-- Modelled from the spec: the base class `Service<K, V>` of `SOA.hpp` is not part of the
sources; its `Notify(value)` hands `value` to every registered listener, synchronously.
One call of `Notify` is recorded as the payload together with the keyed store of the
notifying service as the listeners find it during that call. -/
structure Notification (V : Type) where
  payload : V
  store : StringMap V

/-- Modelled from the spec: `Service<K, V>::Notify(data)`, appending one record to the
log of notifications of the service. -/
def Service.Notify {V : Type} (log : List (Notification V)) (store : StringMap V)
    (data : V) : List (Notification V) :=
  log ++ [⟨data, store⟩]

/-! ## `MarketDataService<T>` -/

/-- The class template `MarketDataService<T>`: the member `orderbooks` and the
notifications issued so far through the base class. -/
structure MarketDataService (T : Type) where
  orderbooks : StringMap (OrderBook T)
  notified : List (Notification (OrderBook T))

namespace MarketDataService

variable {T : Type}

/-- The constructor `MarketDataService()`. -/
def new : MarketDataService T := ⟨StringMap.empty, []⟩

/-- The member `GetData(key)`: `return orderbooks[key];`. -/
def GetData [Inhabited T] (s : MarketDataService T) (key : String) :
    MarketDataService T × OrderBook T :=
  let r := s.orderbooks.index key
  ({ s with orderbooks := r.1 }, r.2)

/-- The member `OnMessage(data)`: store under the product identifier, then notify. -/
def OnMessage [HasProductId T] (s : MarketDataService T) (data : OrderBook T) :
    MarketDataService T :=
  let orderbooks := s.orderbooks.assign (HasProductId.GetProductId data.product) data
  { orderbooks := orderbooks, notified := Service.Notify s.notified orderbooks data }

/-- The loop `for (auto& e : bid_stack) if (e.GetPrice() > best_bid.GetPrice()) best_bid = e;`
started from `best_bid`. -/
def scanBid (bid_stack : List Order) (best_bid : Order) : Order :=
  bid_stack.foldl (fun best e => if e.price > best.price then e else best) best_bid

/-- The loop `for (auto& e : offer_stack) if (e.GetPrice() < best_offer.GetPrice()) best_offer = e;`
started from `best_offer`. -/
def scanOffer (offer_stack : List Order) (best_offer : Order) : Order :=
  offer_stack.foldl (fun best e => if e.price < best.price then e else best) best_offer

/-- The member `GetBestBidOffer(productId)`, statement by statement:
`orderbooks[productId]` is evaluated first (inserting a default book for an unknown id),
then the `find` test, then element 0 of each stack is read, then the emptiness test, then
the two scans. The return type is `const BidOffer&` and the operand of the `return` of
line 241 is the temporary `BidOffer(best_bid, best_offer)`, which is destroyed when the
call returns: the caller gets a dangling reference. -/
def GetBestBidOffer [Inhabited T] (s : MarketDataService T) (productId : String) :
    MarketDataService T × Outcome (Reference BidOffer) :=
  let r := s.orderbooks.index productId
  let s1 : MarketDataService T := { s with orderbooks := r.1 }
  let orderbook := r.2
  if !(s1.orderbooks.contains productId) then
    (s1, Outcome.runtime_error "Product ID not found in orderbooks")
  else
    let bid_stack := orderbook.bidStack
    match bid_stack[0]? with
    | none => (s1, Outcome.undefined)
    | some best_bid =>
      let offer_stack := orderbook.offerStack
      match offer_stack[0]? with
      | none => (s1, Outcome.undefined)
      | some best_offer =>
        if bid_stack.isEmpty || offer_stack.isEmpty then
          (s1, Outcome.runtime_error "Bid or offer stack is empty")
        else
          (s1, Outcome.returned (Reference.dangling
            ⟨scanBid bid_stack best_bid, scanOffer offer_stack best_offer⟩))

end MarketDataService

/-! ## `std::unordered_map<double, long>` -/

/-- A `std::unordered_map<double, long>`: its entries, in the order the keys were first
inserted. -/
abbrev PriceMap := List (ℚ × ℤ)

/-- The value a 64-bit `long` holds after an arithmetic operation whose exact result is
`x`: the two's-complement reduction of `x`, the integer between -2^63 and 2^63 - 1 that is
congruent to `x` modulo 2^64. The language leaves an overflow of a signed type undefined;
the embedding gives it the wrap-around of two's-complement hardware. -/
def wrapLong (x : ℤ) : ℤ :=
  (x + 9223372036854775808) % 18446744073709551616 - 9223372036854775808

/-- The statement `m[price] += quantity`: when `price` is not a key, the entry
`(price, 0)` is inserted first (at the end). The addition is the one of `long`. -/
def PriceMap.addAt : PriceMap → ℚ → ℤ → PriceMap
  | [], price, quantity => [(price, wrapLong (0 + quantity))]
  | (k, v) :: rest, price, quantity =>
    if k = price then (k, wrapLong (v + quantity)) :: rest
    else (k, v) :: PriceMap.addAt rest price quantity

/-- The order in which a range-based `for` visits the entries of an `unordered_map`. The
language leaves it unspecified, so it is a parameter of the embedding: any rearrangement
of the entries. -/
structure BucketOrder where
  visit : PriceMap → PriceMap
  perm : ∀ m : PriceMap, (visit m).Perm m

/-- The traversal that visits the entries in the order of insertion. -/
def BucketOrder.insertion : BucketOrder := ⟨id, fun _ => List.Perm.refl _⟩

/-- The traversal that visits the entries in the reverse order of insertion. -/
def BucketOrder.reversed : BucketOrder := ⟨List.reverse, fun m => List.reverse_perm m⟩

namespace MarketDataService

variable {T : Type}

/-- The loop `for (auto& e : stack) m[e.GetPrice()] += e.GetQuantity();` on an empty
map. -/
def accumulate (stack : List Order) : PriceMap :=
  stack.foldl (fun m e => m.addAt e.price e.quantity) []

/-- The loop `for (auto& e : m) { Order o(e.first, e.second, side); agg.push_back(o); }`. -/
def collect (order : BucketOrder) (m : PriceMap) (side : PricingSide) : List Order :=
  (order.visit m).map (fun e => ⟨e.1, e.2, side⟩)

/-- The member `AggregateDepth(productId)`, statement by statement: the `find` test
first, then three evaluations of `orderbooks[productId]`, the two accumulation loops and
the two loops building the aggregated stacks. -/
def AggregateDepth [Inhabited T] (order : BucketOrder) (s : MarketDataService T)
    (productId : String) : MarketDataService T × Outcome (OrderBook T) :=
  if !(s.orderbooks.contains productId) then
    (s, Outcome.runtime_error "Product ID not found in orderbooks")
  else
    let r1 := s.orderbooks.index productId
    let product := r1.2.product
    let r2 := r1.1.index productId
    let bid_stack := r2.2.bidStack
    let r3 := r2.1.index productId
    let offer_stack := r3.2.offerStack
    let bid_map := accumulate bid_stack
    let offer_map := accumulate offer_stack
    let agg_bid_stack := collect order bid_map PricingSide.BID
    let agg_offer_stack := collect order offer_map PricingSide.OFFER
    ({ s with orderbooks := r3.1 },
      Outcome.returned ⟨product, agg_bid_stack, agg_offer_stack⟩)

end MarketDataService

/-! ## Entities of `ExecutionService.hpp` -/

/-- Modelled from the spec: the enum `OrderType` of `ExecutionService.hpp` is not part of
the sources; `MARKET` is the member the execution decision uses. -/
inductive OrderType where
  | MARKET
  deriving DecidableEq, Repr

/-- Modelled from the spec: the class template `ExecutionOrder<T>` of
`ExecutionService.hpp` is not part of the sources. Its fields are those the spec lists,
in the order of the constructor call in `ExecuteOrder`; price and the two quantities
hold the `double` values that `ExecuteOrder` passes. -/
structure ExecutionOrder (T : Type) where
  product : T
  side : PricingSide
  orderId : String
  orderType : OrderType
  price : ℚ
  visibleQuantity : ℚ
  hiddenQuantity : ℚ
  parentOrderId : String
  isChildOrder : Bool
  deriving DecidableEq, Repr

/-! ## Conversion of a `long` to a `double` -/

/-- The value of `(double) n` for a `long` `n`: `n` itself when it has at most 53
significant bits, and otherwise `n` rounded to 53 significant bits, to nearest, ties to
the even significand. -/
def longToDouble (n : ℤ) : ℚ :=
  let a := n.natAbs
  let bits := Nat.size a
  if bits ≤ 53 then (n : ℚ)
  else
    let e := bits - 53
    let q := a / 2 ^ e
    let r := a % 2 ^ e
    let half := 2 ^ (e - 1)
    let q1 := if half < r ∨ (r = half ∧ q % 2 = 1) then q + 1 else q
    ((Int.sign n * ((q1 * 2 ^ e : ℕ) : ℤ) : ℤ) : ℚ)

/-! ## Arithmetic of `double` and of `int` -/

/-- The integer nearest to `y`, and the even one of the two when `y` lies half-way
between two integers. -/
def roundHalfEven (y : ℚ) : ℤ :=
  let f := ⌊y⌋
  let d := y - f
  if d < 1 / 2 then f else if 1 / 2 < d then f + 1 else if f % 2 = 0 then f else f + 1

/-- The `double` nearest to the rational `x`, with ties going to the even significand:
`x` is rounded to a multiple of `2 ^ (e - 52)`, where `e` is the binary exponent of `x`
and at least -1022 (53 significant bits, and multiples of `2 ^ (-1074)` below
`2 ^ (-1022)`). A result beyond the largest finite `double` stands for the infinity of
its sign. -/
def roundDouble (x : ℚ) : ℚ :=
  if x = 0 then 0
  else
    let e := max (Int.log 2 |x|) (-1022)
    let quantum : ℚ := 2 ^ (e - 52)
    roundHalfEven (x / quantum) * quantum

/-- The value of `a - b` for two `double`s `a` and `b`: the exact difference, rounded to
the nearest `double`. -/
def doubleSub (a b : ℚ) : ℚ :=
  roundDouble (a - b)

/-- The value a 32-bit `int` holds after an arithmetic operation whose exact result is
`x`: the two's-complement reduction of `x`, the integer between -2^31 and 2^31 - 1 that is
congruent to `x` modulo 2^32. The language leaves an overflow of a signed type undefined;
the embedding gives it the wrap-around of two's-complement hardware. -/
def wrapInt (x : ℤ) : ℤ :=
  (x + 2147483648) % 4294967296 - 2147483648

/-! ## `AlgoExecutionService<T>` -/

/-- The class template `AlgoExecutionService<T>`: the members `execution_orders`,
`counter` and `spread_tol`, and the notifications issued through the base class so
far. -/
structure AlgoExecutionService (T : Type) where
  execution_orders : StringMap (ExecutionOrder T)
  counter : ℤ
  spread_tol : ℚ
  notified : List (Notification (ExecutionOrder T))

namespace AlgoExecutionService

variable {T : Type}

/-- The constructor: `counter(0), spread_tol(1.0 / 128)` and an empty map. -/
def new : AlgoExecutionService T := ⟨StringMap.empty, 0, 1 / 128, []⟩

/-- The initialisation `bid_stack.empty() ? Order() : bid_stack[0]`. -/
def first (stack : List Order) : Order :=
  if stack.isEmpty then default else stack.headD default

/-- The best bid of `ExecuteOrder`: lines 84 and 87 to 91. -/
def bestBid (bid_stack : List Order) : Order :=
  bid_stack.foldl (fun best e => if e.price > best.price then e else best) (first bid_stack)

/-- The best offer of `ExecuteOrder`: lines 85 and 92 to 96. -/
def bestOffer (offer_stack : List Order) : Order :=
  offer_stack.foldl (fun best e => if e.price < best.price then e else best)
    (first offer_stack)

/-- The member `ExecuteOrder(data)`. The test of line 100 subtracts two `double`s; the
remainder `counter % 2` is the truncating one of `int`; `to_string(counter)` is the decimal
representation of the `int`, with a leading minus sign when it is negative; `++counter`
is the increment of a 32-bit `int`. -/
def ExecuteOrder (s : AlgoExecutionService T) (data : OrderBook T) :
    AlgoExecutionService T :=
  let product := data.product
  let bid_stack := data.bidStack
  let offer_stack := data.offerStack
  let best_bid := bestBid bid_stack
  let best_offer := bestOffer offer_stack
  if !bid_stack.isEmpty && !offer_stack.isEmpty
      && decide (doubleSub best_offer.price best_bid.price > s.spread_tol) then
    let pqs : ℚ × ℚ × PricingSide :=
      if Int.tmod s.counter 2 = 0 then
        (best_bid.price, longToDouble best_bid.quantity, PricingSide.BID)
      else
        (best_offer.price, longToDouble best_offer.quantity, PricingSide.OFFER)
    let price := pqs.1
    let quantity := pqs.2.1
    let side := pqs.2.2
    let tradeID := "TRADEID_" ++ toString s.counter
    let execu_order : ExecutionOrder T :=
      ⟨product, side, tradeID, OrderType.MARKET, price, quantity, 2 * quantity, "", false⟩
    let execution_orders := s.execution_orders.assign execu_order.orderId execu_order
    { execution_orders := execution_orders
      counter := wrapInt (s.counter + 1)
      spread_tol := s.spread_tol
      notified := Service.Notify s.notified execution_orders execu_order }
  else s

end AlgoExecutionService

namespace AlgoExecutionService

variable {T : Type}

/-- The `ExecutionOrder` that lines 102 to 116 of `ExecuteOrder` build once the test of
line 100 has passed: the counter parity picks the best bid or the best offer, the
quantity goes through the local `double quantity`, the hidden quantity is
`2 * quantity`. -/
def builtOrder (s : AlgoExecutionService T) (data : OrderBook T) : ExecutionOrder T :=
  if Int.tmod s.counter 2 = 0 then
    ⟨data.product, PricingSide.BID, "TRADEID_" ++ toString s.counter, OrderType.MARKET,
      (bestBid data.bidStack).price, longToDouble (bestBid data.bidStack).quantity,
      2 * longToDouble (bestBid data.bidStack).quantity, "", false⟩
  else
    ⟨data.product, PricingSide.OFFER, "TRADEID_" ++ toString s.counter, OrderType.MARKET,
      (bestOffer data.offerStack).price, longToDouble (bestOffer data.offerStack).quantity,
      2 * longToDouble (bestOffer data.offerStack).quantity, "", false⟩

/-- A sequence of calls of `ExecuteOrder`, one for each book, in order. -/
def run (s : AlgoExecutionService T) (books : List (OrderBook T)) :
    AlgoExecutionService T :=
  books.foldl ExecuteOrder s

end AlgoExecutionService

/-! ## Entities of `StreamingService.hpp` and `PricingService.hpp` -/

/-- The class `PriceStreamOrder`. -/
structure PriceStreamOrder where
  price : ℚ
  visibleQuantity : ℤ
  hiddenQuantity : ℤ
  side : PricingSide
  deriving DecidableEq, Repr

/-- The value-initialised `PriceStreamOrder()`: every member zero. -/
instance : Inhabited PriceStreamOrder := ⟨⟨0, 0, 0, PricingSide.BID⟩⟩

/-- The constructor `PriceStreamOrder(price, visibleQuantity, hiddenQuantity, side)` of
lines 131 to 137, run on an object whose members hold `storage`. Inside the body the four
names denote the parameters, which hide the members of the same name, so each of the
statements `price = price; visibleQuantity = visibleQuantity;
hiddenQuantity = hiddenQuantity; side = side;` assigns a parameter to itself. The locals
are threaded through as written; no member is written, and the object is `storage`. -/
def PriceStreamOrder.ctor (storage : PriceStreamOrder) (price : ℚ)
    (visibleQuantity hiddenQuantity : ℤ) (side : PricingSide) : PriceStreamOrder :=
  let price := price
  let visibleQuantity := visibleQuantity
  let hiddenQuantity := hiddenQuantity
  let side := side
  let _parameters := (price, visibleQuantity, hiddenQuantity, side)
  storage

/-- The member `GetPrice()`. -/
def PriceStreamOrder.GetPrice (o : PriceStreamOrder) : ℚ := o.price

/-- The member `GetVisibleQuantity()`. -/
def PriceStreamOrder.GetVisibleQuantity (o : PriceStreamOrder) : ℤ := o.visibleQuantity

/-- The member `GetHiddenQuantity()`. -/
def PriceStreamOrder.GetHiddenQuantity (o : PriceStreamOrder) : ℤ := o.hiddenQuantity

/-- The member `GetSide()`. -/
def PriceStreamOrder.GetSide (o : PriceStreamOrder) : PricingSide := o.side

/-- The class template `PriceStream<T>`; its constructor initialises the three members
from its three arguments. -/
structure PriceStream (T : Type) where
  product : T
  bidOrder : PriceStreamOrder
  offerOrder : PriceStreamOrder
  deriving DecidableEq, Repr

/-- The value-initialised `PriceStream<T>()`. -/
instance {T : Type} [Inhabited T] : Inhabited (PriceStream T) :=
  ⟨⟨default, default, default⟩⟩

/-- The member `GetBidOrder()`. -/
def PriceStream.GetBidOrder {T : Type} (p : PriceStream T) : PriceStreamOrder := p.bidOrder

/-- The member `GetOfferOrder()`. -/
def PriceStream.GetOfferOrder {T : Type} (p : PriceStream T) : PriceStreamOrder :=
  p.offerOrder

/-- Modelled from the spec: the class template `Price<T>` of `PricingService.hpp` is not
part of the sources. It carries the product, the mid price (`GetMid()`) and the bid-offer
spread width (`GetBidOfferSpread()`). -/
structure Price (T : Type) where
  product : T
  mid : ℚ
  bidOfferSpread : ℚ
  deriving DecidableEq, Repr

/-- A value returned by `distribution(generator)` for
`uniform_int_distribution<long> distribution(1000000, 1999999)`: an integer of that closed
range. Which one depends on the state of the random engine, seeded from
`random_device`; it is an argument of the embedded `PublishPrice`. -/
structure Draw where
  value : ℤ
  lower : 1000000 ≤ value
  upper : value ≤ 1999999

/-! ## `AlgoStreamingService<V>` -/

/-- The class template `AlgoStreamingService<V>`: the member `pricestreams` and the
notifications issued through the base class so far. -/
structure AlgoStreamingService (V : Type) where
  pricestreams : StringMap (PriceStream V)
  notified : List (Notification (PriceStream V))

namespace AlgoStreamingService

variable {V : Type}

/-- The implicit constructor: an empty map. -/
def new : AlgoStreamingService V := ⟨StringMap.empty, []⟩

/-- The member `GetData(key)`: `return pricestreams[key];`. -/
def GetData [Inhabited V] (s : AlgoStreamingService V) (key : String) :
    AlgoStreamingService V × PriceStream V :=
  let r := s.pricestreams.index key
  ({ s with pricestreams := r.1 }, r.2)

/-- The member `OnMessage(data)`: store under the product identifier. -/
def OnMessage [HasProductId V] (s : AlgoStreamingService V) (data : PriceStream V) :
    AlgoStreamingService V :=
  { s with
    pricestreams := s.pricestreams.assign (HasProductId.GetProductId data.product) data }

/-- The member `PublishPrice(data)`. Besides the service and the price it takes the value
drawn from the generator on line 68 and the values that the storage of the locals
`bid_order` and `ask_order` holds before their construction. -/
def PublishPrice [HasProductId V] (s : AlgoStreamingService V) (data : Price V)
    (draw : Draw) (bidStorage askStorage : PriceStreamOrder) : AlgoStreamingService V :=
  let bid_price := data.mid - data.bidOfferSpread / 2
  let ask_price := data.mid + data.bidOfferSpread / 2
  let visible_size := draw.value
  let bid_order :=
    PriceStreamOrder.ctor bidStorage bid_price visible_size (2 * visible_size)
      PricingSide.BID
  let ask_order :=
    PriceStreamOrder.ctor askStorage ask_price visible_size (2 * visible_size)
      PricingSide.OFFER
  let price_stream : PriceStream V := ⟨data.product, bid_order, ask_order⟩
  let pricestreams :=
    s.pricestreams.assign (HasProductId.GetProductId price_stream.product) price_stream
  { pricestreams := pricestreams
    notified := Service.Notify s.notified pricestreams price_stream }

end AlgoStreamingService

/-! ## Entities of `InquiryService.hpp` -/

/-- The enum `InquiryState`. -/
inductive InquiryState where
  | RECEIVED
  | QUOTED
  | DONE
  | REJECTED
  | CUSTOMER_REJECTED
  deriving DecidableEq, Repr

/-- Modelled from the spec: the enum `Side` of `TradeBookingService.hpp` is not part of
the sources; the side of an inquiry is buy or sell. -/
inductive Side where
  | BUY
  | SELL
  deriving DecidableEq, Repr

/-- The class template `Inquiry<T>`. -/
structure Inquiry (T : Type) where
  inquiryId : String
  product : T
  side : Side
  quantity : ℤ
  price : ℚ
  state : InquiryState
  deriving DecidableEq, Repr

/-- The value-initialised `Inquiry<T>()`: empty identifier, default product, every other
member zero. -/
instance {T : Type} [Inhabited T] : Inhabited (Inquiry T) :=
  ⟨⟨"", default, Side.BUY, 0, 0, InquiryState.RECEIVED⟩⟩

/-- The member `SetState(_state)`. -/
def Inquiry.SetState {T : Type} (q : Inquiry T) (state : InquiryState) : Inquiry T :=
  { q with state := state }

/-- The member `SetPrice(_price)`. -/
def Inquiry.SetPrice {T : Type} (q : Inquiry T) (price : ℚ) : Inquiry T :=
  { q with price := price }

/-! ## `InquiryService<T>` -/

/-- The class template `InquiryService<T>`: the member `inquiries` and the notifications
issued through the base class so far. -/
structure InquiryService (T : Type) where
  inquiries : StringMap (Inquiry T)
  notified : List (Notification (Inquiry T))

namespace InquiryService

variable {T : Type}

/-- The implicit constructor: an empty map. -/
def new : InquiryService T := ⟨StringMap.empty, []⟩

/-- The member `GetData(key)`: `return inquiries[key];`. -/
def GetData [Inhabited T] (s : InquiryService T) (key : String) :
    InquiryService T × Inquiry T :=
  let r := s.inquiries.index key
  ({ s with inquiries := r.1 }, r.2)

/-- The member `SendQuote(inquiryId, price)`: `inquiries[inquiryId].SetPrice(price);`,
the setter acting on the element of the map. -/
def SendQuote [Inhabited T] (s : InquiryService T) (inquiryId : String) (price : ℚ) :
    InquiryService T :=
  let r := s.inquiries.index inquiryId
  { s with inquiries := r.1.assign inquiryId (r.2.SetPrice price) }

/-- The member `RejectInquiry(inquiryId)`: `inquiries[inquiryId].SetState(REJECTED);`,
the setter acting on the element of the map. -/
def RejectInquiry [Inhabited T] (s : InquiryService T) (inquiryId : String) :
    InquiryService T :=
  let r := s.inquiries.index inquiryId
  { s with inquiries := r.1.assign inquiryId (r.2.SetState InquiryState.REJECTED) }

/-- The member `OnMessage(data)`. The argument is passed by reference and the `QUOTED`
branch writes to it, so the call returns the service and the argument afterwards. -/
def OnMessage [Inhabited T] (s : InquiryService T) (data : Inquiry T) :
    InquiryService T × Inquiry T :=
  let s1 : InquiryService T :=
    { s with inquiries := s.inquiries.assign data.inquiryId data }
  if data.state = InquiryState.RECEIVED then
    let inquiryId := data.inquiryId
    let s2 := SendQuote s1 inquiryId 100
    ({ s2 with notified := Service.Notify s2.notified s2.inquiries data }, data)
  else if data.state = InquiryState.QUOTED then
    let data1 := data.SetState InquiryState.DONE
    ({ s1 with notified := Service.Notify s1.notified s1.inquiries data1 }, data1)
  else
    (s1, data)

end InquiryService

/-! ## The product services of `HW2/Problem2&3` -/

namespace HW2

/-! ### `std::map<string, V>` with traversal -/

/-- A `std::map<string, V>` that the code traverses: its entries in the order of the
traversal, the ascending order of the keys. -/
abbrev EntryMap (V : Type) := List (String × V)

/-- The element stored under `k`, when `k` is a key. -/
def EntryMap.find {V : Type} (m : EntryMap V) (k : String) : Option V :=
  (List.find? (fun e => decide (e.1 = k)) m).map Prod.snd

/-- The position of a new key `k` among the entries: before the first key greater than
`k`. -/
def EntryMap.place {V : Type} : EntryMap V → String → V → EntryMap V
  | [], k, v => [(k, v)]
  | (k', v') :: rest, k, v =>
    if k < k' then (k, v) :: (k', v') :: rest
    else (k', v') :: EntryMap.place rest k v

/-- The call `m.insert(pair<string, V>(k, v))`: the pair is inserted when `k` is not a key,
and the map is left as it is when `k` is a key. -/
def EntryMap.insert {V : Type} (m : EntryMap V) (k : String) (v : V) : EntryMap V :=
  if (m.find k).isSome then m else m.place k v

/-- The loop `for (const auto& pair : m) { if (test(pair.second)) result.push_back(pair.second); }`
on an empty `result`. -/
def EntryMap.select {V : Type} (m : EntryMap V) (test : V → Bool) : List V :=
  m.foldl (fun result pair => if test pair.2 then result ++ [pair.2] else result) []

/-- The expression `m[k]` of the `GetData` members. When `k` is not a key the element is
value-initialised by the default constructor of the product class; each of these passes
the integer `0` to the `string` parameter of `Product`, that is it builds a `string` from a
null pointer, which is undefined behaviour. -/
def EntryMap.index {V : Type} (m : EntryMap V) (k : String) : Outcome V :=
  match m.find k with
  | some v => Outcome.returned v
  | none => Outcome.undefined

/-! ### `products.hpp` -/

/-- The enum `ProductType { IRSWAP, BOND, FUTURE }`. -/
inductive ProductType where
  | IRSWAP
  | BOND
  | FUTURE
  deriving DecidableEq, Repr

/-- The class `Product`. -/
structure Product where
  productId : String
  productType : ProductType
  deriving DecidableEq, Repr

/-- The member `GetProductId()`. -/
def Product.GetProductId (p : Product) : String := p.productId

/-- The member `GetProductType()`. -/
def Product.GetProductType (p : Product) : ProductType := p.productType

/-- A `boost::gregorian::date` given by year, month and day. -/
structure Date where
  year : ℕ
  month : ℕ
  day : ℕ
  deriving DecidableEq, Repr

/-- The enum `BondIdType { CUSIP, ISIN }`. -/
inductive BondIdType where
  | CUSIP
  | ISIN
  deriving DecidableEq, Repr

/-- The class `Bond : public Product`. Its own member `string productId`, which hides the
one of `Product` and is written by no constructor (it stays the empty string), is the
field `ownProductId`; a `float` is represented by the rational number it holds. -/
structure Bond extends Product where
  ownProductId : String
  bondIdType : BondIdType
  ticker : String
  coupon : ℚ
  maturityDate : Date
  deriving DecidableEq, Repr

/-- The constructor `Bond(_productId, _bondIdType, _ticker, _coupon, _maturityDate)`. -/
def Bond.ctor (productId : String) (bondIdType : BondIdType) (ticker : String)
    (coupon : ℚ) (maturityDate : Date) : Bond :=
  { productId := productId
    productType := ProductType.BOND
    ownProductId := ""
    bondIdType := bondIdType
    ticker := ticker
    coupon := coupon
    maturityDate := maturityDate }

/-- The enum `DayCountConvention`. -/
inductive DayCountConvention where
  | THIRTY_THREE_SIXTY
  | ACT_THREE_SIXTY
  | ACT_THREE_SIXTY_FIVE
  deriving DecidableEq, Repr

/-- The enum `PaymentFrequency`. -/
inductive PaymentFrequency where
  | QUARTERLY
  | SEMI_ANNUAL
  | ANNUAL
  deriving DecidableEq, Repr

/-- The enum `FloatingIndex`. -/
inductive FloatingIndex where
  | LIBOR
  | EURIBOR
  deriving DecidableEq, Repr

/-- The enum `FloatingIndexTenor`. -/
inductive FloatingIndexTenor where
  | TENOR_1M
  | TENOR_3M
  | TENOR_6M
  | TENOR_12M
  deriving DecidableEq, Repr

/-- The enum `Currency`. -/
inductive Currency where
  | USD
  | EUR
  | GBP
  deriving DecidableEq, Repr

/-- The enum `SwapType`. -/
inductive SwapType where
  | SPOT
  | FORWARD
  | IMM
  | MAC
  | BASIS
  deriving DecidableEq, Repr

/-- The enum `SwapLegType`. -/
inductive SwapLegType where
  | OUTRIGHT
  | CURVE
  | FLY
  deriving DecidableEq, Repr

/-- The class `IRSwap : public Product`; the `int` term is an integer. -/
structure IRSwap extends Product where
  fixedLegDayCountConvention : DayCountConvention
  floatingLegDayCountConvention : DayCountConvention
  fixedLegPaymentFrequency : PaymentFrequency
  floatingIndex : FloatingIndex
  floatingIndexTenor : FloatingIndexTenor
  effectiveDate : Date
  terminationDate : Date
  currency : Currency
  termYears : ℤ
  swapType : SwapType
  swapLegType : SwapLegType
  deriving DecidableEq, Repr

/-- The twelve-argument constructor of `IRSwap`. -/
def IRSwap.ctor (productId : String) (fixedLegDayCountConvention : DayCountConvention)
    (floatingLegDayCountConvention : DayCountConvention)
    (fixedLegPaymentFrequency : PaymentFrequency) (floatingIndex : FloatingIndex)
    (floatingIndexTenor : FloatingIndexTenor) (effectiveDate terminationDate : Date)
    (currency : Currency) (termYears : ℤ) (swapType : SwapType)
    (swapLegType : SwapLegType) : IRSwap :=
  { productId := productId
    productType := ProductType.IRSWAP
    fixedLegDayCountConvention := fixedLegDayCountConvention
    floatingLegDayCountConvention := floatingLegDayCountConvention
    fixedLegPaymentFrequency := fixedLegPaymentFrequency
    floatingIndex := floatingIndex
    floatingIndexTenor := floatingIndexTenor
    effectiveDate := effectiveDate
    terminationDate := terminationDate
    currency := currency
    termYears := termYears
    swapType := swapType
    swapLegType := swapLegType }

/-- The member `GetFixedLegDayCountConvention()`. -/
def IRSwap.GetFixedLegDayCountConvention (x : IRSwap) : DayCountConvention :=
  x.fixedLegDayCountConvention

/-- The member `GetFixedLegPaymentFrequency()`. -/
def IRSwap.GetFixedLegPaymentFrequency (x : IRSwap) : PaymentFrequency :=
  x.fixedLegPaymentFrequency

/-- The member `GetFloatingIndex()`. -/
def IRSwap.GetFloatingIndex (x : IRSwap) : FloatingIndex := x.floatingIndex

/-- The member `GetTermYears()`. -/
def IRSwap.GetTermYears (x : IRSwap) : ℤ := x.termYears

/-- The member `GetSwapType()`. -/
def IRSwap.GetSwapType (x : IRSwap) : SwapType := x.swapType

/-- The member `GetSwapLegType()`. -/
def IRSwap.GetSwapLegType (x : IRSwap) : SwapLegType := x.swapLegType

/-- The class `Future : public Product`. -/
structure Future extends Product where
  underlying : String
  contractSize : ℚ
  expirationDate : Date
  deliveryMethod : String
  price : ℚ
  currency : Currency
  deriving DecidableEq, Repr

/-- The seven-argument constructor of `Future`. -/
def Future.ctor (productId underlying : String) (contractSize : ℚ) (expirationDate : Date)
    (deliveryMethod : String) (price : ℚ) (currency : Currency) : Future :=
  { productId := productId
    productType := ProductType.FUTURE
    underlying := underlying
    contractSize := contractSize
    expirationDate := expirationDate
    deliveryMethod := deliveryMethod
    price := price
    currency := currency }

/-- The class `EuroDollarFuture : public Future`. -/
structure EuroDollarFuture extends Future where
  floatingIndexTenor : FloatingIndexTenor
  floatingIndex : FloatingIndex
  deriving DecidableEq, Repr

/-- The nine-argument constructor of `EuroDollarFuture`, which runs the one of
`Future`. -/
def EuroDollarFuture.ctor (productId underlying : String) (contractSize : ℚ)
    (expirationDate : Date) (deliveryMethod : String) (price : ℚ) (currency : Currency)
    (floatingIndexTenor : FloatingIndexTenor) (floatingIndex : FloatingIndex) :
    EuroDollarFuture :=
  { toFuture :=
      Future.ctor productId underlying contractSize expirationDate deliveryMethod price
        currency
    floatingIndexTenor := floatingIndexTenor
    floatingIndex := floatingIndex }

/-- The class `BondFuture : public Future`. -/
structure BondFuture extends Future where
  bondTicker : String
  bondIdType : BondIdType
  coupon : ℚ
  maturityDate : Date
  deriving DecidableEq, Repr

/-- The eleven-argument constructor of `BondFuture`, which runs the one of `Future`. -/
def BondFuture.ctor (productId underlying : String) (contractSize : ℚ)
    (expirationDate : Date) (deliveryMethod : String) (price : ℚ) (currency : Currency)
    (bondTicker : String) (bondIdType : BondIdType) (coupon : ℚ) (maturityDate : Date) :
    BondFuture :=
  { toFuture :=
      Future.ctor productId underlying contractSize expirationDate deliveryMethod price
        currency
    bondTicker := bondTicker
    bondIdType := bondIdType
    coupon := coupon
    maturityDate := maturityDate }

/-- The member `IRSwap::ToString(DayCountConvention)`, lines 315 to 322: two `case` labels
and `default: return "";`. -/
def IRSwap.ToString_DayCountConvention : DayCountConvention → String
  | DayCountConvention.THIRTY_THREE_SIXTY => "30/360"
  | DayCountConvention.ACT_THREE_SIXTY => "Act/360"
  | _ => ""

/-- The member `IRSwap::ToString(PaymentFrequency)`, lines 324 to 332; its `default`
label is reached by no enumerator. -/
def IRSwap.ToString_PaymentFrequency : PaymentFrequency → String
  | PaymentFrequency.QUARTERLY => "Quarterly"
  | PaymentFrequency.SEMI_ANNUAL => "Semi-Annual"
  | PaymentFrequency.ANNUAL => "Annual"

/-- The member `IRSwap::ToString(FloatingIndex)`, lines 334 to 341; its `default` label
is reached by no enumerator. -/
def IRSwap.ToString_FloatingIndex : FloatingIndex → String
  | FloatingIndex.LIBOR => "LIBOR"
  | FloatingIndex.EURIBOR => "EURIBOR"

/-- The member `IRSwap::ToString(FloatingIndexTenor)`, lines 343 to 352; its `default`
label is reached by no enumerator. -/
def IRSwap.ToString_FloatingIndexTenor : FloatingIndexTenor → String
  | FloatingIndexTenor.TENOR_1M => "1m"
  | FloatingIndexTenor.TENOR_3M => "3m"
  | FloatingIndexTenor.TENOR_6M => "6m"
  | FloatingIndexTenor.TENOR_12M => "12m"

/-- The member `IRSwap::ToString(Currency)`, lines 354 to 362; its `default` label is
reached by no enumerator. -/
def IRSwap.ToString_Currency : Currency → String
  | Currency.USD => "USD"
  | Currency.EUR => "EUR"
  | Currency.GBP => "GBP"

/-- The member `IRSwap::ToString(SwapType)`, lines 364 to 374; its `default` label is
reached by no enumerator. -/
def IRSwap.ToString_SwapType : SwapType → String
  | SwapType.SPOT => "Standard"
  | SwapType.FORWARD => "Forward"
  | SwapType.IMM => "IMM"
  | SwapType.MAC => "MAC"
  | SwapType.BASIS => "Basis"

/-- The member `IRSwap::ToString(SwapLegType)`, lines 376 to 384; its `default` label is
reached by no enumerator. -/
def IRSwap.ToString_SwapLegType : SwapLegType → String
  | SwapLegType.OUTRIGHT => "Outright"
  | SwapLegType.CURVE => "Curve"
  | SwapLegType.FLY => "Fly"

/-! ### `productservice.hpp` -/

/-- The class `BondProductService`: the member `bondMap`. -/
structure BondProductService where
  bondMap : EntryMap Bond
  deriving DecidableEq, Repr

/-- The constructor `BondProductService()`: an empty map. -/
def BondProductService.new : BondProductService := ⟨[]⟩

/-- The member `GetData(productId)`: `return bondMap[productId];`. -/
def BondProductService.GetData (s : BondProductService) (productId : String) :
    BondProductService × Outcome Bond :=
  (s, s.bondMap.index productId)

/-- The member `Add(bond)`:
`bondMap.insert(pair<string,Bond>(bond.GetProductId(), bond));`. -/
def BondProductService.Add (s : BondProductService) (bond : Bond) : BondProductService :=
  ⟨s.bondMap.insert bond.toProduct.GetProductId bond⟩

/-- The class `IRSwapProductService`: the member `swapMap`. -/
structure IRSwapProductService where
  swapMap : EntryMap IRSwap
  deriving DecidableEq, Repr

/-- The constructor `IRSwapProductService()`: an empty map. -/
def IRSwapProductService.new : IRSwapProductService := ⟨[]⟩

/-- The member `GetData(productId)`: `return swapMap[productId];`. -/
def IRSwapProductService.GetData (s : IRSwapProductService) (productId : String) :
    IRSwapProductService × Outcome IRSwap :=
  (s, s.swapMap.index productId)

/-- The member `Add(swap)`:
`swapMap.insert(pair<string,IRSwap>(swap.GetProductId(), swap));`. -/
def IRSwapProductService.Add (s : IRSwapProductService) (swap : IRSwap) :
    IRSwapProductService :=
  ⟨s.swapMap.insert swap.toProduct.GetProductId swap⟩

/-- The member `GetSwaps(DayCountConvention)`, lines 85 to 93. -/
def IRSwapProductService.GetSwaps_DayCountConvention (s : IRSwapProductService)
    (fixedLegDayCountConvention : DayCountConvention) :
    IRSwapProductService × List IRSwap :=
  (s, s.swapMap.select
    (fun x => decide (x.GetFixedLegDayCountConvention = fixedLegDayCountConvention)))

/-- The member `GetSwaps(PaymentFrequency)`, lines 95 to 103. -/
def IRSwapProductService.GetSwaps_PaymentFrequency (s : IRSwapProductService)
    (fixedLegPaymentFrequency : PaymentFrequency) : IRSwapProductService × List IRSwap :=
  (s, s.swapMap.select
    (fun x => decide (x.GetFixedLegPaymentFrequency = fixedLegPaymentFrequency)))

/-- The member `GetSwaps(FloatingIndex)`, lines 105 to 113. -/
def IRSwapProductService.GetSwaps_FloatingIndex (s : IRSwapProductService)
    (floatingIndex : FloatingIndex) : IRSwapProductService × List IRSwap :=
  (s, s.swapMap.select (fun x => decide (x.GetFloatingIndex = floatingIndex)))

/-- The member `GetSwapsGreaterThan(_termYears)`, lines 115 to 123. -/
def IRSwapProductService.GetSwapsGreaterThan (s : IRSwapProductService) (termYears : ℤ) :
    IRSwapProductService × List IRSwap :=
  (s, s.swapMap.select (fun x => decide (x.GetTermYears > termYears)))

/-- The member `GetSwapsLessThan(_termYears)`, lines 125 to 133. -/
def IRSwapProductService.GetSwapsLessThan (s : IRSwapProductService) (termYears : ℤ) :
    IRSwapProductService × List IRSwap :=
  (s, s.swapMap.select (fun x => decide (x.GetTermYears < termYears)))

/-- The member `GetSwaps(SwapType)`, lines 135 to 143. -/
def IRSwapProductService.GetSwaps_SwapType (s : IRSwapProductService)
    (swapType : SwapType) : IRSwapProductService × List IRSwap :=
  (s, s.swapMap.select (fun x => decide (x.GetSwapType = swapType)))

/-- The member `GetSwaps(SwapLegType)`, lines 145 to 153. -/
def IRSwapProductService.GetSwaps_SwapLegType (s : IRSwapProductService)
    (swapLegType : SwapLegType) : IRSwapProductService × List IRSwap :=
  (s, s.swapMap.select (fun x => decide (x.GetSwapLegType = swapLegType)))

/-- The swaps stored in the service, in the order of traversal. -/
def IRSwapProductService.stored (s : IRSwapProductService) : List IRSwap :=
  s.swapMap.map Prod.snd

/-- The class `FutureProductService`: the member `futureMap`. -/
structure FutureProductService where
  futureMap : EntryMap Future
  deriving DecidableEq, Repr

/-- The constructor `FutureProductService()`: an empty map. -/
def FutureProductService.new : FutureProductService := ⟨[]⟩

/-- The member `GetData(productId)`: `return futureMap[productId];`. -/
def FutureProductService.GetData (s : FutureProductService) (productId : String) :
    FutureProductService × Outcome Future :=
  (s, s.futureMap.index productId)

/-- The member `add(future)`:
`futureMap.insert(pair<string, Future>(future.GetProductId(), future));`. -/
def FutureProductService.add (s : FutureProductService) (future : Future) :
    FutureProductService :=
  ⟨s.futureMap.insert future.toProduct.GetProductId future⟩

/-- The class `EDFutureProductService`: the member `edFutureMap`. -/
structure EDFutureProductService where
  edFutureMap : EntryMap EuroDollarFuture
  deriving DecidableEq, Repr

/-- The constructor `EDFutureProductService()`: an empty map. -/
def EDFutureProductService.new : EDFutureProductService := ⟨[]⟩

/-- The member `GetData(productId)`: `return edFutureMap[productId];`. -/
def EDFutureProductService.GetData (s : EDFutureProductService) (productId : String) :
    EDFutureProductService × Outcome EuroDollarFuture :=
  (s, s.edFutureMap.index productId)

/-- The member `add(euroDollarFuture)`: `edFutureMap.insert(...)` under
`euroDollarFuture.GetProductId()`. -/
def EDFutureProductService.add (s : EDFutureProductService)
    (euroDollarFuture : EuroDollarFuture) : EDFutureProductService :=
  ⟨s.edFutureMap.insert euroDollarFuture.toProduct.GetProductId euroDollarFuture⟩

/-- The class `BondFutureProductService`: the member `bondFutureMap`. -/
structure BondFutureProductService where
  bondFutureMap : EntryMap BondFuture
  deriving DecidableEq, Repr

/-- The constructor `BondFutureProductService()`: an empty map. -/
def BondFutureProductService.new : BondFutureProductService := ⟨[]⟩

/-- The member `GetData(productId)`: `return bondFutureMap[productId];`. -/
def BondFutureProductService.GetData (s : BondFutureProductService) (productId : String) :
    BondFutureProductService × Outcome BondFuture :=
  (s, s.bondFutureMap.index productId)

/-- The member `add(bondFuture)`: `bondFutureMap.insert(...)` under
`bondFuture.GetProductId()`. -/
def BondFutureProductService.add (s : BondFutureProductService)
    (bondFuture : BondFuture) : BondFutureProductService :=
  ⟨s.bondFutureMap.insert bondFuture.toProduct.GetProductId bondFuture⟩

/-! ### Reference notion and sample data of `test_products.cpp` -/

/-- The list `result` holds exactly the elements of `stored` that satisfy `p`: every
element of `result` satisfies `p`, and every value that satisfies `p` occurs in `result` as
often as it occurs in `stored`. -/
def ExactlyThose {V : Type} [DecidableEq V] (stored result : List V) (p : V → Prop) :
    Prop :=
  (∀ x ∈ result, p x) ∧ (∀ x : V, p x → result.count x = stored.count x)

/-- The 10Y treasury note of the test program. -/
def treasuryBond : Bond :=
  Bond.ctor "912828M56" BondIdType.CUSIP "T" (9 / 4) ⟨2025, 11, 16⟩

/-- The 2Y treasury note of the test program. -/
def treasuryBond2 : Bond :=
  Bond.ctor "912828TW0" BondIdType.CUSIP "T" (3 / 4) ⟨2017, 11, 5⟩

/-- A bond with the identifier of the 10Y note and the coupon of the 2Y note. -/
def otherBond : Bond :=
  Bond.ctor "912828M56" BondIdType.CUSIP "T" (3 / 4) ⟨2017, 11, 5⟩

/-- The spot 10Y outright swap of the test program. -/
def outright10YSwap : IRSwap :=
  IRSwap.ctor "Spot-Outright-10Y" DayCountConvention.THIRTY_THREE_SIXTY
    DayCountConvention.THIRTY_THREE_SIXTY PaymentFrequency.SEMI_ANNUAL FloatingIndex.LIBOR
    FloatingIndexTenor.TENOR_3M ⟨2015, 11, 16⟩ ⟨2025, 11, 16⟩ Currency.USD 10 SwapType.SPOT
    SwapLegType.OUTRIGHT

/-- The IMM 2Y outright swap of the test program. -/
def imm2YSwap : IRSwap :=
  IRSwap.ctor "IMM-Outright-2Y" DayCountConvention.THIRTY_THREE_SIXTY
    DayCountConvention.THIRTY_THREE_SIXTY PaymentFrequency.SEMI_ANNUAL FloatingIndex.LIBOR
    FloatingIndexTenor.TENOR_3M ⟨2015, 12, 20⟩ ⟨2017, 12, 20⟩ Currency.USD 2 SwapType.IMM
    SwapLegType.OUTRIGHT

/-- The swap service of the test program after its two calls of `Add`. -/
def sampleSwapService : IRSwapProductService :=
  (IRSwapProductService.new.Add outright10YSwap).Add imm2YSwap

/-- The future of the test program. -/
def sampleFuture : Future :=
  Future.ctor "FUT001" "Bond" 1000000 ⟨2024, 12, 15⟩ "Physical" (201 / 2) Currency.USD

/-- The eurodollar future of the test program. -/
def sampleEuroDollarFuture : EuroDollarFuture :=
  EuroDollarFuture.ctor "EDF001" "EuroDollar" 1500000 ⟨2025, 1, 15⟩ "Cash" 99 Currency.USD
    FloatingIndexTenor.TENOR_3M FloatingIndex.LIBOR

/-- The bond future of the test program. -/
def sampleBondFuture : BondFuture :=
  BondFuture.ctor "BF001" "Bond" 750000 ⟨2025, 2, 25⟩ "Physical" 101 Currency.USD
    "US912828U816" BondIdType.CUSIP 5 ⟨2030, 12, 31⟩

end HW2

/-! ## Reference notions for the aggregation -/

/-- The sum of the quantities of the orders of `stack` priced exactly `p`. -/
def quantityAt (stack : List Order) (p : ℚ) : ℤ :=
  ((stack.filter (fun e => e.price = p)).map Order.quantity).sum

/-- The entries an accumulation map must hold at price `p` once the loop has consumed
`stack`: one entry with the summed quantity when the stack has an order at that price, and
none otherwise. -/
def entriesAt (stack : List Order) (p : ℚ) : PriceMap :=
  if p ∈ stack.map Order.price then [(p, quantityAt stack p)] else []

/-- The step of an accumulation that adds in the integers, without the bound of `long`:
the entry at `price` grows by `quantity`, and a new entry `(price, quantity)` is appended
when `price` is not a key. -/
def PriceMap.addExact : PriceMap → ℚ → ℤ → PriceMap
  | [], price, quantity => [(price, quantity)]
  | (k, v) :: rest, price, quantity =>
    if k = price then (k, v + quantity) :: rest
    else (k, v) :: PriceMap.addExact rest price quantity

/-- The accumulation of a stack in the integers, without the bound of `long`. -/
def accumulateExact (stack : List Order) : PriceMap :=
  stack.foldl (fun m e => m.addExact e.price e.quantity) []

/-- The entries of a map with each quantity reduced to the range of `long`. -/
def PriceMap.wrapped (m : PriceMap) : PriceMap :=
  m.map (fun e => (e.1, wrapLong e.2))

/-- The orders of `stack` that attain the maximum price of the stack. -/
def attainingMax (stack : List Order) : List Order :=
  stack.filter (fun e => stack.all (fun e' => decide (e'.price ≤ e.price)))

/-- The orders of `stack` that attain the minimum price of the stack. -/
def attainingMin (stack : List Order) : List Order :=
  stack.filter (fun e => stack.all (fun e' => decide (e.price ≤ e'.price)))

/-- Reads a list of decimal digit characters as a number, most significant digit
first. -/
def decodeDecimal (digits : List Char) (start : ℕ) : ℕ :=
  digits.foldl (fun acc c => 10 * acc + (c.toNat - 48)) start

/-! ## Sample data -/

/-- A book for product "X": three bids, two of them at the best price, and two offers. -/
def sampleBook : OrderBook Product :=
  ⟨⟨"X", ProductType.BOND⟩,
    [⟨99, 100, PricingSide.BID⟩, ⟨98, 5, PricingSide.BID⟩, ⟨99, 7, PricingSide.BID⟩],
    [⟨102, 30, PricingSide.OFFER⟩, ⟨101, 100, PricingSide.OFFER⟩]⟩

/-- A book for product "Y" without bids. -/
def sampleBookNoBids : OrderBook Product :=
  ⟨⟨"Y", ProductType.BOND⟩, [], [⟨101, 100, PricingSide.OFFER⟩]⟩

/-- A market data service that has ingested `sampleBook` and `sampleBookNoBids`. -/
def sampleService : MarketDataService Product :=
  (MarketDataService.new.OnMessage sampleBook).OnMessage sampleBookNoBids

/-- A book for product "W" whose best offer lies exactly 1/128 above its best bid. -/
def sampleBookTight : OrderBook Product :=
  ⟨⟨"W", ProductType.BOND⟩,
    [⟨99, 10, PricingSide.BID⟩, ⟨100, 20, PricingSide.BID⟩],
    [⟨100 + 1 / 128, 30, PricingSide.OFFER⟩, ⟨101, 40, PricingSide.OFFER⟩]⟩

/-- The book of the end-to-end scenario: product "X", one bid at 99 for 100 and one
offer at 101 for 100. -/
def scenarioBook : OrderBook Product :=
  ⟨⟨"X", ProductType.BOND⟩, [⟨99, 100, PricingSide.BID⟩], [⟨101, 100, PricingSide.OFFER⟩]⟩

/-- A book for product "X" whose only bid has the quantity 2^53 + 1. -/
def bigQuantityBook : OrderBook Product :=
  ⟨⟨"X", ProductType.BOND⟩, [⟨99, 9007199254740993, PricingSide.BID⟩],
    [⟨101, 100, PricingSide.OFFER⟩]⟩

/-- A book for product "X" with two bids at the price 99 whose quantities, 2^63 - 1 and
1, add up to 2^63. -/
def overflowBook : OrderBook Product :=
  ⟨⟨"X", ProductType.BOND⟩,
    [⟨99, 9223372036854775807, PricingSide.BID⟩, ⟨99, 1, PricingSide.BID⟩],
    [⟨101, 100, PricingSide.OFFER⟩]⟩

/-- A book for product "X" whose only bid is priced 3 * 2^(-61) and whose only offer is
priced 2^(-7) + 2^(-59), both of them values of `double`: the exact difference of the two
prices is 2^(-7) + 2^(-61). -/
def roundingBook : OrderBook Product :=
  ⟨⟨"X", ProductType.BOND⟩, [⟨3 / 2 ^ 61, 100, PricingSide.BID⟩],
    [⟨1 / 128 + 1 / 2 ^ 59, 100, PricingSide.OFFER⟩]⟩

/-- A price for product "X": mid 100, bid-offer spread 2. -/
def samplePrice : Price Product := ⟨⟨"X", ProductType.BOND⟩, 100, 2⟩

/-- The drawn visible size 1500000. -/
def sampleDraw : Draw := ⟨1500000, by decide, by decide⟩

/-- An inquiry in state `RECEIVED`, with the price 0 it arrives with. -/
def sampleInquiry : Inquiry Product :=
  ⟨"INQ1", ⟨"X", ProductType.BOND⟩, Side.BUY, 1000000, 0, InquiryState.RECEIVED⟩

/-- Values left in the storage of a local `PriceStreamOrder` before its construction. -/
def staleStorage : PriceStreamOrder := ⟨42, 7, 5, PricingSide.BID⟩

/-- An inquiry in state `QUOTED`. -/
def sampleQuotedInquiry : Inquiry Product :=
  ⟨"INQ2", ⟨"X", ProductType.BOND⟩, Side.SELL, 2000000, 100, InquiryState.QUOTED⟩

/-- An inquiry with the id "INQ1" in state `DONE`. -/
def sampleDoneInquiry : Inquiry Product :=
  ⟨"INQ1", ⟨"X", ProductType.BOND⟩, Side.BUY, 1000000, 100, InquiryState.DONE⟩

/-- The sample book with each stack in another order. -/
def sampleBookShuffled : OrderBook Product :=
  ⟨⟨"X", ProductType.BOND⟩,
    [⟨98, 5, PricingSide.BID⟩, ⟨99, 100, PricingSide.BID⟩, ⟨97, 7, PricingSide.BID⟩],
    [⟨101, 100, PricingSide.OFFER⟩, ⟨102, 30, PricingSide.OFFER⟩]⟩

/-- A book for product "X" with one bid at the best price 99 and the stacks of
`sampleBookShuffled` in another order. -/
def sampleBookUnique : OrderBook Product :=
  ⟨⟨"X", ProductType.BOND⟩,
    [⟨99, 100, PricingSide.BID⟩, ⟨98, 5, PricingSide.BID⟩, ⟨97, 7, PricingSide.BID⟩],
    [⟨102, 30, PricingSide.OFFER⟩, ⟨101, 100, PricingSide.OFFER⟩]⟩

/-- An inquiry with the id "INQ3" for the product of `sampleInquiry`, in state
`CUSTOMER_REJECTED`. -/
def sampleOtherInquiry : Inquiry Product :=
  ⟨"INQ3", ⟨"X", ProductType.BOND⟩, Side.SELL, 3000000, 99,
    InquiryState.CUSTOMER_REJECTED⟩

end MTH9815

/-! # Theorems -/

namespace MTH9815

/-! ## The map operations -/

theorem StringMap.assign_same {V : Type} (m : StringMap V) (k : String) (v : V) :
    m.assign k v k = some v := by
  simp [StringMap.assign]

theorem StringMap.assign_other {V : Type} (m : StringMap V) (k k' : String) (v : V)
    (h : k' ≠ k) : m.assign k v k' = m k' := by
  simp [StringMap.assign, h]

theorem StringMap.index_of_some {V : Type} [Inhabited V] (m : StringMap V) (k : String)
    (v : V) (h : m k = some v) : m.index k = (m, v) := by
  simp [StringMap.index, h]

theorem StringMap.index_of_none {V : Type} [Inhabited V] (m : StringMap V) (k : String)
    (h : m k = none) : m.index k = (m.assign k default, default) := by
  simp [StringMap.index, h]

/-! ## The two scans -/

namespace MarketDataService

theorem scanBid_mem (l : List Order) (b : Order) : scanBid l b = b ∨ scanBid l b ∈ l := by
  induction l generalizing b with
  | nil => exact Or.inl rfl
  | cons e l ih =>
    have h : scanBid (e :: l) b = scanBid l (if e.price > b.price then e else b) := rfl
    rw [h]
    rcases ih (if e.price > b.price then e else b) with h1 | h1
    · rw [h1]
      by_cases hc : e.price > b.price
      · simp [hc]
      · simp [hc]
    · exact Or.inr (List.mem_cons_of_mem _ h1)

theorem scanBid_init_le (l : List Order) (b : Order) : b.price ≤ (scanBid l b).price := by
  induction l generalizing b with
  | nil => exact le_refl _
  | cons e l ih =>
    have h : scanBid (e :: l) b = scanBid l (if e.price > b.price then e else b) := rfl
    rw [h]
    refine le_trans ?_ (ih _)
    by_cases hc : e.price > b.price
    · simp only [hc, if_true]
      exact le_of_lt hc
    · simp [hc]

theorem scanBid_le (l : List Order) (b : Order) :
    ∀ o ∈ l, o.price ≤ (scanBid l b).price := by
  induction l generalizing b with
  | nil => intro o ho; cases ho
  | cons e l ih =>
    intro o ho
    have h : scanBid (e :: l) b = scanBid l (if e.price > b.price then e else b) := rfl
    rw [h]
    rcases List.mem_cons.mp ho with rfl | ho
    · refine le_trans ?_ (scanBid_init_le l _)
      by_cases hc : o.price > b.price
      · simp [hc]
      · simp only [hc, if_false]
        exact not_lt.mp hc
    · exact ih _ o ho

theorem scanOffer_mem (l : List Order) (b : Order) :
    scanOffer l b = b ∨ scanOffer l b ∈ l := by
  induction l generalizing b with
  | nil => exact Or.inl rfl
  | cons e l ih =>
    have h : scanOffer (e :: l) b = scanOffer l (if e.price < b.price then e else b) := rfl
    rw [h]
    rcases ih (if e.price < b.price then e else b) with h1 | h1
    · rw [h1]
      by_cases hc : e.price < b.price
      · simp [hc]
      · simp [hc]
    · exact Or.inr (List.mem_cons_of_mem _ h1)

theorem scanOffer_le_init (l : List Order) (b : Order) :
    (scanOffer l b).price ≤ b.price := by
  induction l generalizing b with
  | nil => exact le_refl _
  | cons e l ih =>
    have h : scanOffer (e :: l) b = scanOffer l (if e.price < b.price then e else b) := rfl
    rw [h]
    refine le_trans (ih _) ?_
    by_cases hc : e.price < b.price
    · simp only [hc, if_true]
      exact le_of_lt hc
    · simp [hc]

theorem scanOffer_le (l : List Order) (b : Order) :
    ∀ o ∈ l, (scanOffer l b).price ≤ o.price := by
  induction l generalizing b with
  | nil => intro o ho; cases ho
  | cons e l ih =>
    intro o ho
    have h : scanOffer (e :: l) b = scanOffer l (if e.price < b.price then e else b) := rfl
    rw [h]
    rcases List.mem_cons.mp ho with rfl | ho
    · refine le_trans (scanOffer_le_init l _) ?_
      by_cases hc : o.price < b.price
      · simp [hc]
      · simp only [hc, if_false]
        exact not_lt.mp hc
    · exact ih _ o ho

/-- What `GetBestBidOffer` does on a stored book whose two stacks are non-empty. -/
theorem GetBestBidOffer_of_cons {T : Type} [Inhabited T] (s : MarketDataService T)
    (productId : String) (book : OrderBook T) (b : Order) (bs : List Order) (o : Order)
    (os : List Order) (hs : s.orderbooks productId = some book)
    (hb : book.bidStack = b :: bs) (ho : book.offerStack = o :: os) :
    GetBestBidOffer s productId
      = (s, Outcome.returned
          (Reference.dangling ⟨scanBid (b :: bs) b, scanOffer (o :: os) o⟩)) := by
  simp [GetBestBidOffer, StringMap.index_of_some _ _ _ hs, StringMap.contains, hs, hb, ho]

/-- What `GetBestBidOffer` does on an identifier that is not a key. -/
theorem GetBestBidOffer_of_none {T : Type} [Inhabited T] (s : MarketDataService T)
    (productId : String) (hs : s.orderbooks productId = none) :
    GetBestBidOffer s productId
      = ({ s with orderbooks := s.orderbooks.assign productId default },
          Outcome.undefined) := by
  have hd : (default : OrderBook T).bidStack = [] := rfl
  simp [GetBestBidOffer, StringMap.index_of_none _ _ hs, StringMap.contains,
    StringMap.assign_same, hd]

end MarketDataService

/-! ## Facts about the sample data -/

theorem sampleService_X : sampleService.orderbooks "X" = some sampleBook := by
  simp [sampleService, MarketDataService.OnMessage, StringMap.assign, HasProductId.GetProductId,
    sampleBook, sampleBookNoBids]

theorem sampleService_Y : sampleService.orderbooks "Y" = some sampleBookNoBids := by
  simp [sampleService, MarketDataService.OnMessage, StringMap.assign, HasProductId.GetProductId,
    sampleBookNoBids]

theorem sampleService_Z : sampleService.orderbooks "Z" = none := by
  simp [sampleService, MarketDataService.OnMessage, StringMap.assign, HasProductId.GetProductId,
    sampleBook, sampleBookNoBids, MarketDataService.new, StringMap.empty]

/-! ## Best bid and offer -/

namespace MarketDataService

/-- C1: the code does not do what the claim says. For a stored book with a non-empty bid
stack and a non-empty offer stack, `GetBestBidOffer` builds a `BidOffer` whose bid order is
an element of the bid stack with a price at least the price of every bid, and whose offer
order is an element of the offer stack with a price at most the price of every offer; but
that object is the temporary of the `return` statement, and the call hands back a
reference to it after it has been destroyed. No live `BidOffer` is returned, and reading
the result is undefined behaviour. -/
theorem C1_GetBestBidOffer_dangling {T : Type} [Inhabited T] (s : MarketDataService T)
    (productId : String) (book : OrderBook T) (hs : s.orderbooks productId = some book)
    (hb : book.bidStack ≠ []) (ho : book.offerStack ≠ []) :
    ∃ r : BidOffer,
      (GetBestBidOffer s productId).2 = Outcome.returned (Reference.dangling r) ∧
      (Reference.dangling r).read = Outcome.undefined ∧
      (∀ v : BidOffer,
        (GetBestBidOffer s productId).2 ≠ Outcome.returned (Reference.live v)) ∧
      r.bidOrder ∈ book.bidStack ∧ (∀ e ∈ book.bidStack, e.price ≤ r.bidOrder.price) ∧
      r.offerOrder ∈ book.offerStack ∧
      (∀ e ∈ book.offerStack, r.offerOrder.price ≤ e.price) := by
  obtain ⟨b, bs, hbs⟩ := List.exists_cons_of_ne_nil hb
  obtain ⟨o, os, hos⟩ := List.exists_cons_of_ne_nil ho
  refine ⟨⟨scanBid (b :: bs) b, scanOffer (o :: os) o⟩, ?_, rfl, ?_, ?_, ?_, ?_, ?_⟩
  · rw [GetBestBidOffer_of_cons s productId book b bs o os hs hbs hos]
  · intro v h
    rw [GetBestBidOffer_of_cons s productId book b bs o os hs hbs hos] at h
    cases h
  · rw [hbs]
    rcases scanBid_mem (b :: bs) b with h | h
    · rw [h]; exact List.mem_cons_self _ _
    · exact h
  · rw [hbs]
    exact scanBid_le (b :: bs) b
  · rw [hos]
    rcases scanOffer_mem (o :: os) o with h | h
    · rw [h]; exact List.mem_cons_self _ _
    · exact h
  · rw [hos]
    exact scanOffer_le (o :: os) o

/-- C1 at the sample service and product "X". -/
theorem C1_GetBestBidOffer_dangling_witness :
    sampleService.orderbooks "X" = some sampleBook ∧ sampleBook.bidStack ≠ [] ∧
    sampleBook.offerStack ≠ [] ∧
    ∃ r : BidOffer,
      (GetBestBidOffer sampleService "X").2 = Outcome.returned (Reference.dangling r) ∧
      (Reference.dangling r).read = Outcome.undefined ∧
      (∀ v : BidOffer,
        (GetBestBidOffer sampleService "X").2 ≠ Outcome.returned (Reference.live v)) ∧
      r.bidOrder ∈ sampleBook.bidStack ∧
      (∀ e ∈ sampleBook.bidStack, e.price ≤ r.bidOrder.price) ∧
      r.offerOrder ∈ sampleBook.offerStack ∧
      (∀ e ∈ sampleBook.offerStack, r.offerOrder.price ≤ e.price) :=
  ⟨sampleService_X, by simp [sampleBook], by simp [sampleBook],
    C1_GetBestBidOffer_dangling sampleService "X" sampleBook sampleService_X
      (by simp [sampleBook]) (by simp [sampleBook])⟩

/-- C2: the code does not do what the claim says. For a product id that is not a key of
the store, `GetBestBidOffer` does not throw "Product ID not found in orderbooks": the
evaluation of `orderbooks[productId]` registers the id with a default book before the
`find` test, and the call then reads element 0 of the empty bid stack, which is undefined
behaviour. -/
theorem C2_GetBestBidOffer_unknown_id {T : Type} [Inhabited T] (s : MarketDataService T)
    (productId : String) (hs : s.orderbooks productId = none) :
    (GetBestBidOffer s productId).2 = Outcome.undefined ∧
    (GetBestBidOffer s productId).2
      ≠ Outcome.runtime_error "Product ID not found in orderbooks" ∧
    (GetBestBidOffer s productId).1.orderbooks productId = some default := by
  rw [GetBestBidOffer_of_none s productId hs]
  refine ⟨rfl, ?_, ?_⟩
  · intro h; cases h
  · exact StringMap.assign_same _ _ _

/-- C2 at a freshly constructed service and product "X". -/
theorem C2_GetBestBidOffer_unknown_id_witness :
    (new : MarketDataService Product).orderbooks "X" = none ∧
    (GetBestBidOffer (new : MarketDataService Product) "X").2 = Outcome.undefined ∧
    (GetBestBidOffer (new : MarketDataService Product) "X").2
      ≠ Outcome.runtime_error "Product ID not found in orderbooks" ∧
    (GetBestBidOffer (new : MarketDataService Product) "X").1.orderbooks "X"
      = some default :=
  ⟨rfl, C2_GetBestBidOffer_unknown_id new "X" rfl⟩

/-- C3: the code does not do what the claim says. For a stored book with an empty bid
stack or an empty offer stack, `GetBestBidOffer` reads element 0 of the empty stack before
it reaches the emptiness test: the call ends in undefined behaviour, not in the error
"Bid or offer stack is empty". -/
theorem C3_GetBestBidOffer_empty_stack {T : Type} [Inhabited T] (s : MarketDataService T)
    (productId : String) (book : OrderBook T) (hs : s.orderbooks productId = some book)
    (he : book.bidStack = [] ∨ book.offerStack = []) :
    (GetBestBidOffer s productId).2 = Outcome.undefined ∧
    (GetBestBidOffer s productId).2
      ≠ Outcome.runtime_error "Bid or offer stack is empty" := by
  have h : (GetBestBidOffer s productId).2 = Outcome.undefined := by
    rcases he with he | he
    · simp [GetBestBidOffer, StringMap.index_of_some _ _ _ hs, StringMap.contains, hs, he]
    · cases hb : book.bidStack with
      | nil =>
        simp [GetBestBidOffer, StringMap.index_of_some _ _ _ hs, StringMap.contains, hs, hb]
      | cons b bs =>
        simp [GetBestBidOffer, StringMap.index_of_some _ _ _ hs, StringMap.contains, hs, hb,
          he]
  refine ⟨h, ?_⟩
  rw [h]
  intro h'; cases h'

/-- C3 at the sample service and product "Y", whose book has no bids. -/
theorem C3_GetBestBidOffer_empty_stack_witness :
    sampleService.orderbooks "Y" = some sampleBookNoBids ∧
    (sampleBookNoBids.bidStack = [] ∨ sampleBookNoBids.offerStack = []) ∧
    (GetBestBidOffer sampleService "Y").2 = Outcome.undefined ∧
    (GetBestBidOffer sampleService "Y").2
      ≠ Outcome.runtime_error "Bid or offer stack is empty" :=
  ⟨sampleService_Y, Or.inl rfl,
    C3_GetBestBidOffer_empty_stack sampleService "Y" sampleBookNoBids sampleService_Y
      (Or.inl rfl)⟩

end MarketDataService

/-! ## Depth aggregation: the accumulation in the integers -/

theorem PriceMap.addExact_filter_ne (m : PriceMap) (k p : ℚ) (q : ℤ) (h : k ≠ p) :
    (PriceMap.addExact m k q).filter (fun e => e.1 = p) = m.filter (fun e => e.1 = p) := by
  induction m with
  | nil => simp [PriceMap.addExact, h]
  | cons x m ih =>
    obtain ⟨k', v⟩ := x
    by_cases hk : k' = k
    · subst hk
      simp [PriceMap.addExact, h]
    · simp only [PriceMap.addExact, hk, if_false, List.filter_cons, ih]

theorem PriceMap.addExact_filter_nil (m : PriceMap) (k : ℚ) (q : ℤ)
    (h : m.filter (fun e => e.1 = k) = []) :
    (PriceMap.addExact m k q).filter (fun e => e.1 = k) = [(k, q)] := by
  induction m with
  | nil => simp [PriceMap.addExact]
  | cons x m ih =>
    obtain ⟨k', v⟩ := x
    by_cases hk : k' = k
    · subst hk
      simp at h
    · have hm : m.filter (fun e => e.1 = k) = [] := by
        simpa [List.filter_cons, hk] using h
      simp [PriceMap.addExact, hk, List.filter_cons, ih hm]

theorem PriceMap.addExact_filter_single (m : PriceMap) (k : ℚ) (v q : ℤ)
    (h : m.filter (fun e => e.1 = k) = [(k, v)]) :
    (PriceMap.addExact m k q).filter (fun e => e.1 = k) = [(k, v + q)] := by
  induction m with
  | nil => simp at h
  | cons x m ih =>
    obtain ⟨k', v'⟩ := x
    by_cases hk : k' = k
    · subst hk
      simp only [List.filter_cons, decide_True, if_true, List.cons.injEq, Prod.mk.injEq,
        true_and] at h
      obtain ⟨hv, hm⟩ := h
      subst hv
      simp [PriceMap.addExact, List.filter_cons, hm]
    · have hm : m.filter (fun e => e.1 = k) = [(k, v)] := by
        simpa [List.filter_cons, hk] using h
      simp [PriceMap.addExact, hk, List.filter_cons, ih hm]

theorem quantityAt_append_single (stack : List Order) (e : Order) (p : ℚ) :
    quantityAt (stack ++ [e]) p
      = quantityAt stack p + (if e.price = p then e.quantity else 0) := by
  by_cases h : e.price = p
  · simp [quantityAt, List.filter_append, List.filter_cons, h]
  · simp [quantityAt, List.filter_append, List.filter_cons, h]

theorem quantityAt_of_not_mem (stack : List Order) (p : ℚ)
    (h : p ∉ stack.map Order.price) : quantityAt stack p = 0 := by
  have : stack.filter (fun e => e.price = p) = [] := by
    rw [List.filter_eq_nil_iff]
    intro e he hp
    exact h (List.mem_map.mpr ⟨e, he, by simpa using hp⟩)
  simp [quantityAt, this]

theorem addExact_entriesAt (m : PriceMap) (stack : List Order) (e : Order)
    (h : ∀ p, m.filter (fun x => x.1 = p) = entriesAt stack p) :
    ∀ p, (PriceMap.addExact m e.price e.quantity).filter (fun x => x.1 = p)
      = entriesAt (stack ++ [e]) p := by
  intro p
  by_cases hp : e.price = p
  · subst hp
    have hmem : e.price ∈ (stack ++ [e]).map Order.price := by simp
    by_cases hin : e.price ∈ stack.map Order.price
    · have h1 := h e.price
      simp only [entriesAt, hin, if_true] at h1
      rw [PriceMap.addExact_filter_single m e.price _ e.quantity h1]
      simp only [entriesAt, hmem, if_true, quantityAt_append_single]
    · have h1 := h e.price
      simp only [entriesAt, hin, if_false] at h1
      rw [PriceMap.addExact_filter_nil m e.price e.quantity h1]
      simp only [entriesAt, hmem, if_true, quantityAt_append_single,
        quantityAt_of_not_mem stack e.price hin, zero_add]
  · rw [PriceMap.addExact_filter_ne m e.price p e.quantity hp, h p]
    have hiff : p ∈ (stack ++ [e]).map Order.price ↔ p ∈ stack.map Order.price := by
      simp only [List.map_append, List.mem_append, List.map_cons, List.map_nil,
        List.mem_singleton]
      constructor
      · rintro (h1 | h1)
        · exact h1
        · exact absurd h1.symm hp
      · exact Or.inl
    simp only [entriesAt, hiff, quantityAt_append_single, hp, if_false, add_zero]

theorem foldl_addExact_entriesAt (rest : List Order) :
    ∀ (m : PriceMap) (stack : List Order),
      (∀ p, m.filter (fun x => x.1 = p) = entriesAt stack p) →
      ∀ p, (rest.foldl (fun m e => PriceMap.addExact m e.price e.quantity) m).filter
          (fun x => x.1 = p) = entriesAt (stack ++ rest) p := by
  induction rest with
  | nil => intro m stack h p; simpa using h p
  | cons e rest ih =>
    intro m stack h p
    have := ih (PriceMap.addExact m e.price e.quantity) (stack ++ [e])
      (addExact_entriesAt m stack e h) p
    simpa using this

/-- The accumulation map of a stack holds, at every price, one entry with the summed
quantity when the stack has an order at that price, and no entry otherwise. -/
theorem accumulateExact_filter (stack : List Order) (p : ℚ) :
    (accumulateExact stack).filter (fun x => x.1 = p) = entriesAt stack p := by
  have := foldl_addExact_entriesAt stack [] [] (fun p => by simp [entriesAt]) p
  simpa [accumulateExact] using this

theorem PriceMap.addExact_sum (m : PriceMap) (k : ℚ) (q : ℤ) :
    ((PriceMap.addExact m k q).map Prod.snd).sum = (m.map Prod.snd).sum + q := by
  induction m with
  | nil => simp [PriceMap.addExact]
  | cons x m ih =>
    obtain ⟨k', v⟩ := x
    by_cases hk : k' = k
    · simp [PriceMap.addExact, hk]; ring
    · simp [PriceMap.addExact, hk, ih]; ring

theorem foldl_addExact_sum (stack : List Order) :
    ∀ m : PriceMap,
      ((stack.foldl (fun m e => PriceMap.addExact m e.price e.quantity) m).map Prod.snd).sum
        = (m.map Prod.snd).sum + (stack.map Order.quantity).sum := by
  induction stack with
  | nil => intro m; simp
  | cons e stack ih =>
    intro m
    simp only [List.foldl_cons, ih, PriceMap.addExact_sum, List.map_cons, List.sum_cons]
    ring

/-- The quantities held by the accumulation map add up to those of the stack. -/
theorem accumulateExact_sum (stack : List Order) :
    ((accumulateExact stack).map Prod.snd).sum
      = (stack.map Order.quantity).sum := by
  simpa [accumulateExact] using foldl_addExact_sum stack []

/-- The keys of the accumulation map are distinct. -/
theorem accumulateExact_nodup (stack : List Order) :
    ((accumulateExact stack).map Prod.fst).Nodup := by
  rw [List.nodup_iff_count_le_one]
  intro p
  have h := accumulateExact_filter stack p
  have hc : List.count p ((accumulateExact stack).map Prod.fst)
      = ((accumulateExact stack).filter (fun x => x.1 = p)).length := by
    rw [List.count, List.countP_map, List.countP_eq_length_filter]
    congr 1
  rw [hc, h]
  unfold entriesAt
  split <;> simp

/-- The keys of the accumulation map are the prices of the stack. -/
theorem accumulateExact_mem (stack : List Order) (p : ℚ) :
    p ∈ (accumulateExact stack).map Prod.fst ↔ p ∈ stack.map Order.price := by
  have h := accumulateExact_filter stack p
  constructor
  · intro hp
    by_contra hn
    obtain ⟨x, hx, hxp⟩ := List.mem_map.mp hp
    have hx' : x ∈ (accumulateExact stack).filter (fun x => x.1 = p) :=
      List.mem_filter.mpr ⟨hx, by simpa using hxp⟩
    rw [h] at hx'
    simp [entriesAt, hn] at hx'
  · intro hp
    have hx : (p, quantityAt stack p)
        ∈ (accumulateExact stack).filter (fun x => x.1 = p) := by
      rw [h]; simp [entriesAt, hp]
    exact List.mem_map.mpr ⟨_, (List.mem_filter.mp hx).1, rfl⟩

/-! ## Depth aggregation: the accumulation map -/

theorem wrapLong_of_range (x : ℤ) (h1 : -9223372036854775808 ≤ x)
    (h2 : x < 9223372036854775808) : wrapLong x = x := by
  unfold wrapLong
  omega

theorem wrapLong_range (x : ℤ) :
    -9223372036854775808 ≤ wrapLong x ∧ wrapLong x < 9223372036854775808 := by
  unfold wrapLong
  omega

theorem wrapLong_wrapLong (x : ℤ) : wrapLong (wrapLong x) = wrapLong x :=
  wrapLong_of_range _ (wrapLong_range x).1 (wrapLong_range x).2

theorem wrapLong_add_left (v q : ℤ) : wrapLong (wrapLong v + q) = wrapLong (v + q) := by
  unfold wrapLong
  omega

theorem wrapLong_emod (x : ℤ) :
    wrapLong x % 18446744073709551616 = x % 18446744073709551616 := by
  unfold wrapLong
  omega

theorem PriceMap.wrapped_map_fst (m : PriceMap) : (PriceMap.wrapped m).map Prod.fst = m.map Prod.fst := by
  simp [PriceMap.wrapped, List.map_map, Function.comp_def]

theorem PriceMap.wrapped_filter (m : PriceMap) (p : ℚ) :
    (PriceMap.wrapped m).filter (fun e => e.1 = p)
      = PriceMap.wrapped (m.filter (fun e => e.1 = p)) := by
  simp only [PriceMap.wrapped, List.filter_map]
  rfl

/-- One step of the accumulation in `long` follows one step of the accumulation in the
integers. -/
theorem PriceMap.addAt_wrapped (m : PriceMap) (k : ℚ) (q : ℤ) :
    PriceMap.addAt (PriceMap.wrapped m) k q = PriceMap.wrapped (PriceMap.addExact m k q) := by
  induction m with
  | nil => simp [PriceMap.wrapped, PriceMap.addAt, PriceMap.addExact]
  | cons x m ih =>
    obtain ⟨k', v⟩ := x
    have hc : PriceMap.wrapped ((k', v) :: m) = (k', wrapLong v) :: PriceMap.wrapped m := rfl
    by_cases hk : k' = k
    · simp [hc, PriceMap.addAt, PriceMap.addExact, hk, PriceMap.wrapped, wrapLong_add_left]
    · rw [hc]
      simp only [PriceMap.addAt, PriceMap.addExact, hk, if_false, ih]
      rfl

theorem foldl_addAt_wrapped (stack : List Order) :
    ∀ m : PriceMap,
      stack.foldl (fun m e => PriceMap.addAt m e.price e.quantity) (PriceMap.wrapped m)
        = PriceMap.wrapped
            (stack.foldl (fun m e => PriceMap.addExact m e.price e.quantity) m) := by
  induction stack with
  | nil => intro m; rfl
  | cons e stack ih =>
    intro m
    simp only [List.foldl_cons, PriceMap.addAt_wrapped, ih]

/-- The accumulation map of a stack holds the entries of the accumulation in the
integers, each quantity reduced to the range of `long`. -/
theorem MarketDataService.accumulate_eq_wrapped (stack : List Order) :
    MarketDataService.accumulate stack = PriceMap.wrapped (accumulateExact stack) :=
  foldl_addAt_wrapped stack []

/-- The accumulation map of a stack holds, at every price, one entry with the summed
quantity, reduced to the range of `long`, when the stack has an order at that price, and
no entry otherwise. -/
theorem MarketDataService.accumulate_filter (stack : List Order) (p : ℚ) :
    (MarketDataService.accumulate stack).filter (fun x => x.1 = p)
      = PriceMap.wrapped (entriesAt stack p) := by
  rw [MarketDataService.accumulate_eq_wrapped, PriceMap.wrapped_filter,
    accumulateExact_filter]

/-- The keys of the accumulation map are distinct. -/
theorem MarketDataService.accumulate_nodup (stack : List Order) :
    ((MarketDataService.accumulate stack).map Prod.fst).Nodup := by
  rw [MarketDataService.accumulate_eq_wrapped, PriceMap.wrapped_map_fst]
  exact accumulateExact_nodup stack

/-- The keys of the accumulation map are the prices of the stack. -/
theorem MarketDataService.accumulate_mem (stack : List Order) (p : ℚ) :
    p ∈ (MarketDataService.accumulate stack).map Prod.fst ↔ p ∈ stack.map Order.price := by
  rw [MarketDataService.accumulate_eq_wrapped, PriceMap.wrapped_map_fst]
  exact accumulateExact_mem stack p

/-- The quantities of the accumulation map lie in the range of `long`. -/
theorem MarketDataService.accumulate_in_range (stack : List Order) :
    ∀ x ∈ MarketDataService.accumulate stack, wrapLong x.2 = x.2 := by
  intro x hx
  rw [MarketDataService.accumulate_eq_wrapped] at hx
  obtain ⟨y, _, rfl⟩ := List.mem_map.mp hx
  exact wrapLong_wrapLong y.2

theorem sum_map_wrapLong_emod (l : List ℤ) :
    (l.map wrapLong).sum % 18446744073709551616 = l.sum % 18446744073709551616 := by
  induction l with
  | nil => rfl
  | cons x l ih =>
    have hx := wrapLong_emod x
    simp only [List.map_cons, List.sum_cons]
    omega

/-- The quantities held by the accumulation map add up to those of the stack, modulo
2^64. -/
theorem MarketDataService.accumulate_sum_emod (stack : List Order) :
    ((MarketDataService.accumulate stack).map Prod.snd).sum % 18446744073709551616
      = (stack.map Order.quantity).sum % 18446744073709551616 := by
  have h : (MarketDataService.accumulate stack).map Prod.snd
      = ((accumulateExact stack).map Prod.snd).map wrapLong := by
    rw [MarketDataService.accumulate_eq_wrapped]
    simp [PriceMap.wrapped, List.map_map, Function.comp_def]
  rw [h, sum_map_wrapLong_emod, accumulateExact_sum]

/-- Every entry of the accumulation in the integers holds the sum of the quantities at
its price. -/
theorem accumulateExact_entry (stack : List Order) :
    ∀ x ∈ accumulateExact stack, x.2 = quantityAt stack x.1 := by
  intro x hx
  have hf : x ∈ (accumulateExact stack).filter (fun e => e.1 = x.1) :=
    List.mem_filter.mpr ⟨hx, by simp⟩
  rw [accumulateExact_filter] at hf
  unfold entriesAt at hf
  split at hf
  · rw [List.mem_singleton] at hf
    rw [hf]
  · exact absurd hf (List.not_mem_nil x)

/-- The quantities held by the accumulation map add up to those of the stack when the
sum at every price lies in the range of `long`. -/
theorem MarketDataService.accumulate_sum_of_range (stack : List Order)
    (h : ∀ p : ℚ, -9223372036854775808 ≤ quantityAt stack p ∧
      quantityAt stack p < 9223372036854775808) :
    ((MarketDataService.accumulate stack).map Prod.snd).sum
      = (stack.map Order.quantity).sum := by
  have hw : PriceMap.wrapped (accumulateExact stack) = accumulateExact stack := by
    unfold PriceMap.wrapped
    conv_rhs => rw [← List.map_id (accumulateExact stack)]
    apply List.map_congr_left
    intro x hx
    have hq := accumulateExact_entry stack x hx
    have hr := h x.1
    rw [← hq] at hr
    rw [wrapLong_of_range x.2 hr.1 hr.2]
    rfl
  rw [MarketDataService.accumulate_eq_wrapped, hw, accumulateExact_sum]

/-! ## Depth aggregation: the aggregated stacks -/

namespace MarketDataService

theorem collect_filter (order : BucketOrder) (m : PriceMap) (side : PricingSide) (p : ℚ) :
    (collect order m side).filter (fun e => e.price = p)
      = ((order.visit m).filter (fun x => x.1 = p)).map (fun x => ⟨x.1, x.2, side⟩) := by
  simp only [collect, List.filter_map]
  rfl

theorem collect_accumulate_quantities (order : BucketOrder) (stack : List Order)
    (side : PricingSide) (p : ℚ) :
    ((collect order (accumulate stack) side).filter (fun e => e.price = p)).map
      Order.quantity
      = if p ∈ stack.map Order.price then [wrapLong (quantityAt stack p)] else [] := by
  have hperm : ((order.visit (accumulate stack)).filter (fun x => x.1 = p)).Perm
      (PriceMap.wrapped (entriesAt stack p)) := by
    rw [← accumulate_filter stack p]
    exact (order.perm (accumulate stack)).filter _
  by_cases h : p ∈ stack.map Order.price
  · have hw : PriceMap.wrapped (entriesAt stack p) = [(p, wrapLong (quantityAt stack p))] := by
      simp [entriesAt, h, PriceMap.wrapped]
    rw [hw] at hperm
    rw [collect_filter, List.perm_singleton.mp hperm]
    simp [h]
  · have hw : PriceMap.wrapped (entriesAt stack p) = [] := by
      simp [entriesAt, h, PriceMap.wrapped]
    rw [hw] at hperm
    rw [collect_filter, List.perm_nil.mp hperm]
    simp [h]

theorem collect_prices (order : BucketOrder) (m : PriceMap) (side : PricingSide) :
    ((collect order m side).map Order.price).Perm (m.map Prod.fst) := by
  have h : (collect order m side).map Order.price = (order.visit m).map Prod.fst := by
    simp [collect, List.map_map, Function.comp_def]
  rw [h]
  exact (order.perm m).map _

theorem collect_sum (order : BucketOrder) (m : PriceMap) (side : PricingSide) :
    ((collect order m side).map Order.quantity).sum = (m.map Prod.snd).sum := by
  have h : (collect order m side).map Order.quantity = (order.visit m).map Prod.snd := by
    simp [collect, List.map_map, Function.comp_def]
  rw [h]
  exact ((order.perm m).map _).sum_eq

theorem collect_side (order : BucketOrder) (m : PriceMap) (side : PricingSide) :
    ∀ e ∈ collect order m side, e.side = side := by
  intro e he
  obtain ⟨x, _, rfl⟩ := List.mem_map.mp he
  rfl

/-- What `AggregateDepth` does on a product id that is a key of the store. -/
theorem AggregateDepth_of_some {T : Type} [Inhabited T] (order : BucketOrder)
    (s : MarketDataService T) (productId : String) (book : OrderBook T)
    (hs : s.orderbooks productId = some book) :
    AggregateDepth order s productId
      = (s, Outcome.returned ⟨book.product,
          collect order (accumulate book.bidStack) PricingSide.BID,
          collect order (accumulate book.offerStack) PricingSide.OFFER⟩) := by
  simp [AggregateDepth, StringMap.index_of_some _ _ _ hs, StringMap.contains, hs]

/-- What `AggregateDepth` does on a product id that is not a key of the store. -/
theorem AggregateDepth_of_none {T : Type} [Inhabited T] (order : BucketOrder)
    (s : MarketDataService T) (productId : String) (hs : s.orderbooks productId = none) :
    AggregateDepth order s productId
      = (s, Outcome.runtime_error "Product ID not found in orderbooks") := by
  simp [AggregateDepth, StringMap.contains, hs]

end MarketDataService

/-! ## Depth aggregation: the claims -/

namespace MarketDataService

/-- C4: for a product id that is not a key of the store, `AggregateDepth` fails with the
error "Product ID not found in orderbooks" and leaves the service unchanged; for a
product id that is a key it does not raise that error. -/
theorem C4_AggregateDepth_NotFound {T : Type} [Inhabited T] (order : BucketOrder)
    (s : MarketDataService T) (productId : String) :
    (s.orderbooks productId = none →
      AggregateDepth order s productId
        = (s, Outcome.runtime_error "Product ID not found in orderbooks")) ∧
    (s.orderbooks productId ≠ none →
      (AggregateDepth order s productId).2
        ≠ Outcome.runtime_error "Product ID not found in orderbooks") := by
  constructor
  · exact AggregateDepth_of_none order s productId
  · intro h
    cases hs : s.orderbooks productId with
    | none => exact absurd hs h
    | some book =>
      rw [AggregateDepth_of_some order s productId book hs]
      intro h'; cases h'

/-- C4 at the sample service: "Z" is not a key, "X" is. -/
theorem C4_AggregateDepth_NotFound_witness :
    sampleService.orderbooks "Z" = none ∧
    AggregateDepth BucketOrder.insertion sampleService "Z"
      = (sampleService, Outcome.runtime_error "Product ID not found in orderbooks") ∧
    sampleService.orderbooks "X" ≠ none ∧
    (AggregateDepth BucketOrder.insertion sampleService "X").2
      ≠ Outcome.runtime_error "Product ID not found in orderbooks" :=
  ⟨sampleService_Z,
    (C4_AggregateDepth_NotFound BucketOrder.insertion sampleService "Z").1 sampleService_Z,
    by rw [sampleService_X]; simp,
    (C4_AggregateDepth_NotFound BucketOrder.insertion sampleService "X").2
      (by rw [sampleService_X]; simp)⟩

/-- C5, as stated, fails: the book stored under "Y" has an empty bid stack, and
`AggregateDepth` returns a book for it (with an empty bid stack) instead of failing with
"Bid or offer stack is empty". -/
theorem C5_AggregateDepth_empty_stack_counterexample :
    sampleService.orderbooks "Y" = some sampleBookNoBids ∧
    sampleBookNoBids.bidStack = [] ∧
    (AggregateDepth BucketOrder.insertion sampleService "Y").2
      = Outcome.returned
          ⟨⟨"Y", ProductType.BOND⟩, [], [⟨101, 100, PricingSide.OFFER⟩]⟩ ∧
    (AggregateDepth BucketOrder.insertion sampleService "Y").2
      ≠ Outcome.runtime_error "Bid or offer stack is empty" := by
  have h := AggregateDepth_of_some BucketOrder.insertion sampleService "Y" sampleBookNoBids
    sampleService_Y
  refine ⟨sampleService_Y, rfl, ?_, ?_⟩
  · rw [h]
    simp [sampleBookNoBids, collect, accumulate, BucketOrder.insertion, PriceMap.addAt,
      wrapLong]
  · rw [h]
    intro h'; cases h'

/-- C5, amended: for a stored book with an empty bid stack or an empty offer stack,
`AggregateDepth` does not fail. It returns a book for the same product, leaves the service
unchanged, and the returned bid (offer) stack is empty when the stored bid (offer) stack
is empty. -/
theorem C5_AggregateDepth_empty_stack {T : Type} [Inhabited T] (order : BucketOrder)
    (s : MarketDataService T) (productId : String) (book : OrderBook T)
    (hs : s.orderbooks productId = some book)
    (_he : book.bidStack = [] ∨ book.offerStack = []) :
    ∃ agg : OrderBook T,
      AggregateDepth order s productId = (s, Outcome.returned agg) ∧
      agg.product = book.product ∧
      (book.bidStack = [] → agg.bidStack = []) ∧
      (book.offerStack = [] → agg.offerStack = []) := by
  refine ⟨_, AggregateDepth_of_some order s productId book hs, rfl, ?_, ?_⟩
  · intro h
    have hp := collect_prices order (accumulate book.bidStack) PricingSide.BID
    rw [h] at hp ⊢
    simpa [accumulate] using hp
  · intro h
    have hp := collect_prices order (accumulate book.offerStack) PricingSide.OFFER
    rw [h] at hp ⊢
    simpa [accumulate] using hp

/-- C5, amended, at the sample service and product "Y". -/
theorem C5_AggregateDepth_empty_stack_witness :
    sampleService.orderbooks "Y" = some sampleBookNoBids ∧
    (sampleBookNoBids.bidStack = [] ∨ sampleBookNoBids.offerStack = []) ∧
    ∃ agg : OrderBook Product,
      AggregateDepth BucketOrder.reversed sampleService "Y"
        = (sampleService, Outcome.returned agg) ∧
      agg.product = sampleBookNoBids.product ∧
      (sampleBookNoBids.bidStack = [] → agg.bidStack = []) ∧
      (sampleBookNoBids.offerStack = [] → agg.offerStack = []) :=
  ⟨sampleService_Y, Or.inl rfl,
    C5_AggregateDepth_empty_stack BucketOrder.reversed sampleService "Y" sampleBookNoBids
      sampleService_Y (Or.inl rfl)⟩

/-- What `AggregateDepth` returns for the book with two bids at the price 99 whose
quantities are 2^63 - 1 and 1. -/
theorem AggregateDepth_overflowBook (order : BucketOrder) :
    (AggregateDepth order (new.OnMessage overflowBook) "X").2
      = Outcome.returned ⟨⟨"X", ProductType.BOND⟩,
          [⟨99, -9223372036854775808, PricingSide.BID⟩],
          [⟨101, 100, PricingSide.OFFER⟩]⟩ := by
  have hs : (new.OnMessage overflowBook).orderbooks "X" = some overflowBook :=
    StringMap.assign_same new.orderbooks "X" overflowBook
  rw [AggregateDepth_of_some order _ "X" overflowBook hs]
  have hb : accumulate overflowBook.bidStack = [(99, -9223372036854775808)] := by
    simp [overflowBook, accumulate, PriceMap.addAt, wrapLong]
  have ho : accumulate overflowBook.offerStack = [(101, 100)] := by
    simp [overflowBook, accumulate, PriceMap.addAt, wrapLong]
  have hv : ∀ x : ℚ × ℤ, order.visit [x] = [x] := fun x =>
    List.perm_singleton.mp (order.perm [x])
  rw [hb, ho]
  simp [collect, hv, overflowBook]

/-- C6, as stated, fails: the stored book has the bids (99, 2^63 - 1) and (99, 1), whose
quantities add up to 2^63, and the bid that `AggregateDepth` returns at the price 99 has
the quantity -2^63, whatever the traversal order. -/
theorem C6_AggregateDepth_level_sum_counterexample :
    (new.OnMessage overflowBook).orderbooks "X" = some overflowBook ∧
    quantityAt overflowBook.bidStack 99 = 9223372036854775808 ∧
    ∀ order : BucketOrder,
      (AggregateDepth order (new.OnMessage overflowBook) "X").2
        = Outcome.returned ⟨⟨"X", ProductType.BOND⟩,
            [⟨99, -9223372036854775808, PricingSide.BID⟩],
            [⟨101, 100, PricingSide.OFFER⟩]⟩ := by
  refine ⟨StringMap.assign_same new.orderbooks "X" overflowBook, ?_,
    AggregateDepth_overflowBook⟩
  simp [quantityAt, overflowBook]

/-- C6, amended: for every stored book and every price `p`, the orders at price `p` in
the bid stack returned by `AggregateDepth` are: exactly one order, whose quantity is the
sum of the quantities of the input bids priced exactly `p` reduced to the range of a
64-bit `long`, when some input bid has price `p`, and none otherwise; that quantity is
the sum itself whenever the sum lies between -2^63 and 2^63 - 1. The same holds for the
offer stack. -/
theorem C6_AggregateDepth_level_sum_wrapped {T : Type} [Inhabited T] (order : BucketOrder)
    (s : MarketDataService T) (productId : String) (book : OrderBook T)
    (hs : s.orderbooks productId = some book) :
    ∃ agg : OrderBook T,
      (AggregateDepth order s productId).2 = Outcome.returned agg ∧
      ∀ p : ℚ,
        ((agg.bidStack.filter (fun e => e.price = p)).map Order.quantity
          = if p ∈ book.bidStack.map Order.price
            then [wrapLong (quantityAt book.bidStack p)] else []) ∧
        ((agg.offerStack.filter (fun e => e.price = p)).map Order.quantity
          = if p ∈ book.offerStack.map Order.price
            then [wrapLong (quantityAt book.offerStack p)] else []) ∧
        (-9223372036854775808 ≤ quantityAt book.bidStack p →
          quantityAt book.bidStack p < 9223372036854775808 →
          (agg.bidStack.filter (fun e => e.price = p)).map Order.quantity
            = if p ∈ book.bidStack.map Order.price then [quantityAt book.bidStack p]
              else []) ∧
        (-9223372036854775808 ≤ quantityAt book.offerStack p →
          quantityAt book.offerStack p < 9223372036854775808 →
          (agg.offerStack.filter (fun e => e.price = p)).map Order.quantity
            = if p ∈ book.offerStack.map Order.price then [quantityAt book.offerStack p]
              else []) := by
  refine ⟨_, by rw [AggregateDepth_of_some order s productId book hs], ?_⟩
  intro p
  have hb := collect_accumulate_quantities order book.bidStack PricingSide.BID p
  have ho := collect_accumulate_quantities order book.offerStack PricingSide.OFFER p
  refine ⟨hb, ho, ?_, ?_⟩
  · intro h1 h2
    rw [wrapLong_of_range _ h1 h2] at hb
    exact hb
  · intro h1 h2
    rw [wrapLong_of_range _ h1 h2] at ho
    exact ho

/-- C6, amended, at the sample service, product "X" and the price 99, at which the book
has the bids with the quantities 100 and 7: the returned stack has one bid at 99, with the
quantity 107. -/
theorem C6_AggregateDepth_level_sum_wrapped_witness :
    sampleService.orderbooks "X" = some sampleBook ∧
    quantityAt sampleBook.bidStack 99 = 107 ∧
    ∃ agg : OrderBook Product,
      (AggregateDepth BucketOrder.reversed sampleService "X").2 = Outcome.returned agg ∧
      (agg.bidStack.filter (fun e => e.price = 99)).map Order.quantity = [107] ∧
      ∀ p : ℚ,
        ((agg.bidStack.filter (fun e => e.price = p)).map Order.quantity
          = if p ∈ sampleBook.bidStack.map Order.price
            then [wrapLong (quantityAt sampleBook.bidStack p)] else []) ∧
        ((agg.offerStack.filter (fun e => e.price = p)).map Order.quantity
          = if p ∈ sampleBook.offerStack.map Order.price
            then [wrapLong (quantityAt sampleBook.offerStack p)] else []) ∧
        (-9223372036854775808 ≤ quantityAt sampleBook.bidStack p →
          quantityAt sampleBook.bidStack p < 9223372036854775808 →
          (agg.bidStack.filter (fun e => e.price = p)).map Order.quantity
            = if p ∈ sampleBook.bidStack.map Order.price
              then [quantityAt sampleBook.bidStack p] else []) ∧
        (-9223372036854775808 ≤ quantityAt sampleBook.offerStack p →
          quantityAt sampleBook.offerStack p < 9223372036854775808 →
          (agg.offerStack.filter (fun e => e.price = p)).map Order.quantity
            = if p ∈ sampleBook.offerStack.map Order.price
              then [quantityAt sampleBook.offerStack p] else []) :=
  have hq : quantityAt sampleBook.bidStack 99 = 107 := by
    norm_num [quantityAt, sampleBook, List.filter_cons]
  have hm : (99 : ℚ) ∈ sampleBook.bidStack.map Order.price := by
    simp [sampleBook]
  ⟨sampleService_X, hq,
    (C6_AggregateDepth_level_sum_wrapped BucketOrder.reversed sampleService "X" sampleBook
      sampleService_X).elim
      (fun agg h => ⟨agg, h.1, by
        have h99 := (h.2 99).2.2.1 (by rw [hq]; norm_num) (by rw [hq]; norm_num)
        rw [if_pos hm, hq] at h99
        exact h99, h.2⟩)⟩

/-- C7, as stated, fails: the stored book has the bids (99, 2^63 - 1) and (99, 1), whose
quantities add up to 2^63, and the quantities of the bid stack that `AggregateDepth`
returns add up to -2^63. -/
theorem C7_AggregateDepth_total_sum_counterexample :
    (new.OnMessage overflowBook).orderbooks "X" = some overflowBook ∧
    (overflowBook.bidStack.map Order.quantity).sum = 9223372036854775808 ∧
    ∃ agg : OrderBook Product,
      (AggregateDepth BucketOrder.insertion (new.OnMessage overflowBook) "X").2
        = Outcome.returned agg ∧
      (agg.bidStack.map Order.quantity).sum = -9223372036854775808 := by
  refine ⟨StringMap.assign_same new.orderbooks "X" overflowBook, ?_, _,
    AggregateDepth_overflowBook BucketOrder.insertion, ?_⟩
  · simp [overflowBook]
  · simp

/-- C7, amended: for every stored book, the quantities of the bid stack returned by
`AggregateDepth` add up to the sum of the quantities of the input bid stack whenever, at
every price, the sum of the input bid quantities lies between -2^63 and 2^63 - 1, and in
any case the two sums are congruent modulo 2^64; the same holds for the offer stack. -/
theorem C7_AggregateDepth_total_sum_in_range {T : Type} [Inhabited T] (order : BucketOrder)
    (s : MarketDataService T) (productId : String) (book : OrderBook T)
    (hs : s.orderbooks productId = some book) :
    ∃ agg : OrderBook T,
      (AggregateDepth order s productId).2 = Outcome.returned agg ∧
      ((∀ p : ℚ, -9223372036854775808 ≤ quantityAt book.bidStack p ∧
          quantityAt book.bidStack p < 9223372036854775808) →
        (agg.bidStack.map Order.quantity).sum = (book.bidStack.map Order.quantity).sum) ∧
      ((∀ p : ℚ, -9223372036854775808 ≤ quantityAt book.offerStack p ∧
          quantityAt book.offerStack p < 9223372036854775808) →
        (agg.offerStack.map Order.quantity).sum
          = (book.offerStack.map Order.quantity).sum) ∧
      (agg.bidStack.map Order.quantity).sum % 18446744073709551616
        = (book.bidStack.map Order.quantity).sum % 18446744073709551616 ∧
      (agg.offerStack.map Order.quantity).sum % 18446744073709551616
        = (book.offerStack.map Order.quantity).sum % 18446744073709551616 := by
  refine ⟨_, by rw [AggregateDepth_of_some order s productId book hs], ?_, ?_, ?_, ?_⟩
  · intro h
    exact (collect_sum order _ _).trans (accumulate_sum_of_range book.bidStack h)
  · intro h
    exact (collect_sum order _ _).trans (accumulate_sum_of_range book.offerStack h)
  · show ((collect order (accumulate book.bidStack) PricingSide.BID).map
        Order.quantity).sum % 18446744073709551616 = _
    rw [collect_sum, accumulate_sum_emod]
  · show ((collect order (accumulate book.offerStack) PricingSide.OFFER).map
        Order.quantity).sum % 18446744073709551616 = _
    rw [collect_sum, accumulate_sum_emod]

/-- C7, amended, at the sample service and product "X", where the sums at every price lie
in the range: the returned bids add up to the sum of the input bids and the returned
offers to the sum of the input offers. -/
theorem C7_AggregateDepth_total_sum_in_range_witness :
    sampleService.orderbooks "X" = some sampleBook ∧
    (∀ p : ℚ, -9223372036854775808 ≤ quantityAt sampleBook.bidStack p ∧
      quantityAt sampleBook.bidStack p < 9223372036854775808) ∧
    (∀ p : ℚ, -9223372036854775808 ≤ quantityAt sampleBook.offerStack p ∧
      quantityAt sampleBook.offerStack p < 9223372036854775808) ∧
    ∃ agg : OrderBook Product,
      (AggregateDepth BucketOrder.insertion sampleService "X").2 = Outcome.returned agg ∧
      (agg.bidStack.map Order.quantity).sum
        = (sampleBook.bidStack.map Order.quantity).sum ∧
      (agg.offerStack.map Order.quantity).sum
        = (sampleBook.offerStack.map Order.quantity).sum ∧
      (agg.bidStack.map Order.quantity).sum % 18446744073709551616
        = (sampleBook.bidStack.map Order.quantity).sum % 18446744073709551616 ∧
      (agg.offerStack.map Order.quantity).sum % 18446744073709551616
        = (sampleBook.offerStack.map Order.quantity).sum % 18446744073709551616 :=
  have hb : ∀ p : ℚ, -9223372036854775808 ≤ quantityAt sampleBook.bidStack p ∧
      quantityAt sampleBook.bidStack p < 9223372036854775808 := by
    intro p
    simp only [quantityAt, sampleBook, List.filter_cons, List.filter_nil]
    split_ifs <;> simp
  have ho : ∀ p : ℚ, -9223372036854775808 ≤ quantityAt sampleBook.offerStack p ∧
      quantityAt sampleBook.offerStack p < 9223372036854775808 := by
    intro p
    simp only [quantityAt, sampleBook, List.filter_cons, List.filter_nil]
    split_ifs <;> simp
  ⟨sampleService_X, hb, ho,
    (C7_AggregateDepth_total_sum_in_range BucketOrder.insertion sampleService "X" sampleBook
      sampleService_X).elim
      (fun agg h => ⟨agg, h.1, h.2.1 hb, h.2.2.1 ho, h.2.2.2.1, h.2.2.2.2⟩)⟩

/-- C8: for every stored book, the book returned by `AggregateDepth` has pairwise distinct
prices within its bid stack and within its offer stack, the prices of each returned stack
are exactly the prices of the corresponding input stack, every returned bid has side `BID`
and every returned offer side `OFFER`, and the product is the one of the stored book. -/
theorem C8_AggregateDepth_levels {T : Type} [Inhabited T] (order : BucketOrder)
    (s : MarketDataService T) (productId : String) (book : OrderBook T)
    (hs : s.orderbooks productId = some book) :
    ∃ agg : OrderBook T,
      (AggregateDepth order s productId).2 = Outcome.returned agg ∧
      (agg.bidStack.map Order.price).Nodup ∧
      (agg.offerStack.map Order.price).Nodup ∧
      (∀ p : ℚ, p ∈ agg.bidStack.map Order.price ↔ p ∈ book.bidStack.map Order.price) ∧
      (∀ p : ℚ,
        p ∈ agg.offerStack.map Order.price ↔ p ∈ book.offerStack.map Order.price) ∧
      (∀ e ∈ agg.bidStack, e.side = PricingSide.BID) ∧
      (∀ e ∈ agg.offerStack, e.side = PricingSide.OFFER) ∧
      agg.product = book.product := by
  refine ⟨⟨book.product, collect order (accumulate book.bidStack) PricingSide.BID,
      collect order (accumulate book.offerStack) PricingSide.OFFER⟩,
    by rw [AggregateDepth_of_some order s productId book hs], ?_, ?_, ?_, ?_, ?_, ?_, rfl⟩
  · exact (collect_prices order _ _).nodup_iff.mpr (accumulate_nodup book.bidStack)
  · exact (collect_prices order _ _).nodup_iff.mpr (accumulate_nodup book.offerStack)
  · intro p
    exact ((collect_prices order _ _).mem_iff).trans (accumulate_mem book.bidStack p)
  · intro p
    exact ((collect_prices order _ _).mem_iff).trans (accumulate_mem book.offerStack p)
  · exact collect_side order _ _
  · exact collect_side order _ _

/-- C8 at the sample service and product "X". -/
theorem C8_AggregateDepth_levels_witness :
    sampleService.orderbooks "X" = some sampleBook ∧
    ∃ agg : OrderBook Product,
      (AggregateDepth BucketOrder.reversed sampleService "X").2 = Outcome.returned agg ∧
      (agg.bidStack.map Order.price).Nodup ∧
      (agg.offerStack.map Order.price).Nodup ∧
      (∀ p : ℚ,
        p ∈ agg.bidStack.map Order.price ↔ p ∈ sampleBook.bidStack.map Order.price) ∧
      (∀ p : ℚ,
        p ∈ agg.offerStack.map Order.price ↔ p ∈ sampleBook.offerStack.map Order.price) ∧
      (∀ e ∈ agg.bidStack, e.side = PricingSide.BID) ∧
      (∀ e ∈ agg.offerStack, e.side = PricingSide.OFFER) ∧
      agg.product = sampleBook.product :=
  ⟨sampleService_X,
    C8_AggregateDepth_levels BucketOrder.reversed sampleService "X" sampleBook
      sampleService_X⟩

/-! ## Ingestion -/

/-- C9: after `OnMessage(b)` the value stored under the product id of `b` is exactly `b`,
the values stored under every other id are unchanged, and exactly one notification has
been added to the log: it carries `b` and the listeners find the updated store. -/
theorem C9_OnMessage_replaces_and_notifies {T : Type} [HasProductId T]
    (s : MarketDataService T) (b : OrderBook T) :
    (OnMessage s b).orderbooks (HasProductId.GetProductId b.product) = some b ∧
    (∀ k : String, k ≠ HasProductId.GetProductId b.product →
      (OnMessage s b).orderbooks k = s.orderbooks k) ∧
    (OnMessage s b).notified = s.notified ++ [⟨b, (OnMessage s b).orderbooks⟩] := by
  refine ⟨StringMap.assign_same _ _ _, ?_, rfl⟩
  intro k hk
  exact StringMap.assign_other _ _ _ _ hk

/-- C9 at the sample service, ingesting a book for "Y" that replaces the stored one. -/
theorem C9_OnMessage_replaces_and_notifies_witness :
    (OnMessage sampleService ⟨⟨"Y", ProductType.BOND⟩, [⟨97, 1, PricingSide.BID⟩], []⟩).orderbooks
        "Y" = some ⟨⟨"Y", ProductType.BOND⟩, [⟨97, 1, PricingSide.BID⟩], []⟩ ∧
    (OnMessage sampleService ⟨⟨"Y", ProductType.BOND⟩, [⟨97, 1, PricingSide.BID⟩], []⟩).orderbooks
        "X" = sampleService.orderbooks "X" ∧
    (OnMessage sampleService ⟨⟨"Y", ProductType.BOND⟩, [⟨97, 1, PricingSide.BID⟩], []⟩).notified
      = sampleService.notified ++
          [⟨⟨⟨"Y", ProductType.BOND⟩, [⟨97, 1, PricingSide.BID⟩], []⟩,
            (OnMessage sampleService
              ⟨⟨"Y", ProductType.BOND⟩, [⟨97, 1, PricingSide.BID⟩], []⟩).orderbooks⟩] :=
  ⟨(C9_OnMessage_replaces_and_notifies sampleService
      ⟨⟨"Y", ProductType.BOND⟩, [⟨97, 1, PricingSide.BID⟩], []⟩).1,
    (C9_OnMessage_replaces_and_notifies sampleService
      ⟨⟨"Y", ProductType.BOND⟩, [⟨97, 1, PricingSide.BID⟩], []⟩).2.1 "X" (by decide),
    (C9_OnMessage_replaces_and_notifies sampleService
      ⟨⟨"Y", ProductType.BOND⟩, [⟨97, 1, PricingSide.BID⟩], []⟩).2.2⟩

end MarketDataService

/-! ## Rounding to a `double`, and the 32-bit counter -/

theorem roundHalfEven_of_lt_half (y : ℚ) (n : ℤ) (h1 : (n : ℚ) ≤ y) (h2 : y - n < 1 / 2) :
    roundHalfEven y = n := by
  have hf : ⌊y⌋ = n := by
    rw [Int.floor_eq_iff]
    constructor
    · exact h1
    · linarith
  simp only [roundHalfEven, hf]
  rw [if_pos h2]

/-- Rounding to the nearest integer does not pass an integer bound. -/
theorem roundHalfEven_le (y : ℚ) (n : ℤ) (h : y ≤ n) : roundHalfEven y ≤ n := by
  have hf : ⌊y⌋ ≤ n := Int.floor_le_iff.mpr (by linarith)
  rcases lt_or_eq_of_le hf with hlt | heq
  · have : roundHalfEven y ≤ ⌊y⌋ + 1 := by
      simp only [roundHalfEven]
      split_ifs <;> omega
    omega
  · have hy : y = n := le_antisymm h (by rw [← heq]; exact Int.floor_le y)
    rw [roundHalfEven_of_lt_half y n (by rw [hy]) (by rw [hy]; norm_num)]

/-- The rounding of a positive number of binary exponent `e`, in the normal range. -/
theorem roundDouble_pos_eq (x : ℚ) (e : ℤ) (h1 : (2 : ℚ) ^ e ≤ x)
    (h2 : x < (2 : ℚ) ^ (e + 1)) (he : -1022 ≤ e) :
    roundDouble x = roundHalfEven (x / 2 ^ (e - 52)) * 2 ^ (e - 52) := by
  have hx : 0 < x := lt_of_lt_of_le (by positivity) h1
  have hlog : Int.log 2 x = e := by
    apply le_antisymm
    · have hlt := (Int.lt_zpow_iff_log_lt (b := 2) (by norm_num) hx (x := e + 1)).mp
        (by exact_mod_cast h2)
      omega
    · exact (Int.zpow_le_iff_le_log (b := 2) (by norm_num) hx).mp (by exact_mod_cast h1)
  simp only [roundDouble, hx.ne', if_false, abs_of_pos hx, hlog, max_eq_left he]

theorem roundDouble_two : roundDouble 2 = 2 := by
  rw [roundDouble_pos_eq 2 1 (by norm_num) (by norm_num) (by norm_num),
    roundHalfEven_of_lt_half _ 4503599627370496 (by norm_num) (by norm_num)]
  norm_num

/-- The number 2^(-7) + 2^(-61) lies less than half a unit in the last place above
2^(-7), and is rounded to it. -/
theorem roundDouble_above_tol : roundDouble (1 / 128 + 1 / 2 ^ 61) = 1 / 128 := by
  rw [roundDouble_pos_eq _ (-7) (by norm_num) (by norm_num) (by norm_num),
    roundHalfEven_of_lt_half _ 4503599627370496 (by norm_num) (by norm_num)]
  norm_num

/-- Rounding to a `double` does not pass the tolerance 1/128, which is a `double`. -/
theorem roundDouble_le_tol (x : ℚ) (h : x ≤ 1 / 128) : roundDouble x ≤ 1 / 128 := by
  by_cases h0 : x = 0
  · simp [roundDouble, h0]
  · simp only [roundDouble, h0, if_false]
    have hq : ∀ z : ℤ, (0 : ℚ) < 2 ^ z := fun z => by positivity
    rcases lt_or_gt_of_ne h0 with hneg | hpos
    · have hr : roundHalfEven (x / 2 ^ (max (Int.log 2 |x|) (-1022) - 52)) ≤ 0 := by
        apply roundHalfEven_le
        have := div_neg_of_neg_of_pos hneg (hq (max (Int.log 2 |x|) (-1022) - 52))
        push_cast
        linarith
      have h2 : ((roundHalfEven (x / 2 ^ (max (Int.log 2 |x|) (-1022) - 52)) : ℤ) : ℚ)
          ≤ 0 := by
        exact_mod_cast hr
      have := mul_nonpos_of_nonpos_of_nonneg h2 (hq (max (Int.log 2 |x|) (-1022) - 52)).le
      linarith
    · rw [abs_of_pos hpos]
      have hlog : Int.log 2 x ≤ -7 := by
        have hm := Int.log_mono_right (b := 2) hpos h
        have h7 : Int.log 2 ((1 : ℚ) / 128) = -7 := by
          have e7 : ((1 : ℚ) / 128) = ((2 : ℕ) : ℚ) ^ (-7 : ℤ) := by norm_num
          rw [e7, Int.log_zpow (by norm_num)]
        omega
      set e := max (Int.log 2 x) (-1022) with he
      have hemax : e ≤ -7 := max_le hlog (by norm_num)
      obtain ⟨k, hk⟩ : ∃ k : ℕ, (k : ℤ) = 45 - e := ⟨(45 - e).toNat, by omega⟩
      have hgrid : (1 : ℚ) / 128 = ((2 ^ k : ℤ) : ℚ) * 2 ^ (e - 52) := by
        push_cast
        rw [← zpow_natCast, hk, ← zpow_add₀ (by norm_num : (2 : ℚ) ≠ 0)]
        have e7 : 45 - e + (e - 52) = -7 := by ring
        rw [e7]; norm_num
      have hle : roundHalfEven (x / 2 ^ (e - 52)) ≤ 2 ^ k := by
        apply roundHalfEven_le
        rw [div_le_iff₀ (hq _), ← hgrid]
        exact h
      have hle' : ((roundHalfEven (x / 2 ^ (e - 52)) : ℤ) : ℚ) ≤ ((2 ^ k : ℤ) : ℚ) := by
        exact_mod_cast hle
      rw [hgrid]
      exact mul_le_mul_of_nonneg_right hle' (hq _).le

/-- Two `double`s whose exact difference is at most 1/128 have a `double` difference of
at most 1/128. -/
theorem doubleSub_le_tol (a b : ℚ) (h : a - b ≤ 1 / 128) : ¬ (doubleSub a b > 1 / 128) :=
  not_lt.mpr (roundDouble_le_tol _ h)

theorem doubleSub_101_99 : doubleSub 101 99 = 2 := by
  have h : (101 : ℚ) - 99 = 2 := by norm_num
  rw [doubleSub, h, roundDouble_two]

theorem wrapInt_of_range (x : ℤ) (h1 : -2147483648 ≤ x) (h2 : x < 2147483648) :
    wrapInt x = x := by
  unfold wrapInt
  omega

theorem wrapInt_succ (n : ℤ) : wrapInt (wrapInt n + 1) = wrapInt (n + 1) := by
  unfold wrapInt
  omega

/-- The truncating remainder by 2 vanishes exactly on the even integers. -/
theorem tmod_two_eq_zero_iff (c : ℤ) : Int.tmod c 2 = 0 ↔ c % 2 = 0 :=
  ⟨fun h => Int.emod_eq_zero_of_dvd (Int.dvd_of_tmod_eq_zero h),
    fun h => Int.tmod_eq_zero_of_dvd (Int.dvd_of_emod_eq_zero h)⟩

theorem tmod_wrapInt (k : ℕ) : Int.tmod (wrapInt k) 2 = 0 ↔ k % 2 = 0 := by
  rw [tmod_two_eq_zero_iff]
  unfold wrapInt
  omega

/-! ## The execution decision -/

namespace AlgoExecutionService

/-- C10: in a state whose spread tolerance is 1/128, for every book whose best offer price
minus best bid price is at most 1/128 (the value 1/128 itself included), `ExecuteOrder`
leaves the execution store and the counter unchanged and adds no notification. -/
theorem C10_ExecuteOrder_within_tolerance {T : Type} (s : AlgoExecutionService T)
    (data : OrderBook T) (htol : s.spread_tol = 1 / 128)
    (h : (bestOffer data.offerStack).price - (bestBid data.bidStack).price ≤ 1 / 128) :
    (ExecuteOrder s data).execution_orders = s.execution_orders ∧
    (ExecuteOrder s data).counter = s.counter ∧
    (ExecuteOrder s data).notified = s.notified := by
  have hn : ¬ (doubleSub (bestOffer data.offerStack).price (bestBid data.bidStack).price
      > s.spread_tol) := by
    rw [htol]
    exact doubleSub_le_tol _ _ h
  have he : ExecuteOrder s data = s := by
    simp [ExecuteOrder, hn]
  rw [he]
  exact ⟨rfl, rfl, rfl⟩

/-- C10 at a freshly constructed service and a book whose spread is exactly 1/128. -/
theorem C10_ExecuteOrder_within_tolerance_witness :
    (new : AlgoExecutionService Product).spread_tol = 1 / 128 ∧
    (bestOffer sampleBookTight.offerStack).price - (bestBid sampleBookTight.bidStack).price
      = 1 / 128 ∧
    (ExecuteOrder new sampleBookTight).execution_orders
      = (new : AlgoExecutionService Product).execution_orders ∧
    (ExecuteOrder new sampleBookTight).counter = (new : AlgoExecutionService Product).counter ∧
    (ExecuteOrder new sampleBookTight).notified
      = (new : AlgoExecutionService Product).notified :=
  ⟨rfl, by norm_num [sampleBookTight, bestOffer, bestBid, first],
    C10_ExecuteOrder_within_tolerance new sampleBookTight rfl
      (by norm_num [sampleBookTight, bestOffer, bestBid, first])⟩

end AlgoExecutionService

/-! ## The execution decision: what a call does -/

namespace AlgoExecutionService

theorem bestBid_cons (b : Order) (bs : List Order) :
    bestBid (b :: bs) = MarketDataService.scanBid (b :: bs) b := rfl

theorem bestOffer_cons (o : Order) (os : List Order) :
    bestOffer (o :: os) = MarketDataService.scanOffer (o :: os) o := rfl

theorem bestBid_nil : bestBid [] = ⟨0, 0, PricingSide.BID⟩ := rfl

theorem bestOffer_nil : bestOffer [] = ⟨0, 0, PricingSide.BID⟩ := rfl

theorem bestBid_mem (stack : List Order) (h : stack ≠ []) : bestBid stack ∈ stack := by
  obtain ⟨b, bs, rfl⟩ := List.exists_cons_of_ne_nil h
  rw [bestBid_cons]
  rcases MarketDataService.scanBid_mem (b :: bs) b with h1 | h1
  · rw [h1]; exact List.mem_cons_self _ _
  · exact h1

theorem bestBid_max (stack : List Order) :
    ∀ e ∈ stack, e.price ≤ (bestBid stack).price := by
  cases stack with
  | nil => intro e he; cases he
  | cons b bs =>
    rw [bestBid_cons]
    exact MarketDataService.scanBid_le (b :: bs) b

theorem bestOffer_mem (stack : List Order) (h : stack ≠ []) : bestOffer stack ∈ stack := by
  obtain ⟨o, os, rfl⟩ := List.exists_cons_of_ne_nil h
  rw [bestOffer_cons]
  rcases MarketDataService.scanOffer_mem (o :: os) o with h1 | h1
  · rw [h1]; exact List.mem_cons_self _ _
  · exact h1

theorem bestOffer_min (stack : List Order) :
    ∀ e ∈ stack, (bestOffer stack).price ≤ e.price := by
  cases stack with
  | nil => intro e he; cases he
  | cons o os =>
    rw [bestOffer_cons]
    exact MarketDataService.scanOffer_le (o :: os) o

/-- The call `ExecuteOrder(data)` when the test of line 100 passes. -/
theorem ExecuteOrder_of_test {T : Type} (s : AlgoExecutionService T) (data : OrderBook T)
    (hb : data.bidStack ≠ []) (ho : data.offerStack ≠ [])
    (h : doubleSub (bestOffer data.offerStack).price (bestBid data.bidStack).price
      > s.spread_tol) :
    ExecuteOrder s data =
      { execution_orders :=
          s.execution_orders.assign ("TRADEID_" ++ toString s.counter) (builtOrder s data)
        counter := wrapInt (s.counter + 1)
        spread_tol := s.spread_tol
        notified := s.notified ++
          [⟨builtOrder s data,
            s.execution_orders.assign ("TRADEID_" ++ toString s.counter)
              (builtOrder s data)⟩] } := by
  have hb1 : data.bidStack.isEmpty = false := by
    cases hbs : data.bidStack with
    | nil => exact absurd hbs hb
    | cons _ _ => rfl
  have ho1 : data.offerStack.isEmpty = false := by
    cases hos : data.offerStack with
    | nil => exact absurd hos ho
    | cons _ _ => rfl
  by_cases hc : Int.tmod s.counter 2 = 0
  · simp [ExecuteOrder, builtOrder, Service.Notify, hb1, ho1, h, hc]
  · simp [ExecuteOrder, builtOrder, Service.Notify, hb1, ho1, h, hc]

/-- The call `ExecuteOrder(data)` when the test of line 100 fails. -/
theorem ExecuteOrder_of_not_test {T : Type} (s : AlgoExecutionService T)
    (data : OrderBook T)
    (h : data.bidStack = [] ∨ data.offerStack = [] ∨
      ¬ (doubleSub (bestOffer data.offerStack).price (bestBid data.bidStack).price
        > s.spread_tol)) :
    ExecuteOrder s data = s := by
  rcases h with h | h | h
  · simp [ExecuteOrder, h]
  · simp [ExecuteOrder, h]
  · simp [ExecuteOrder, h]

/-- A call either changes nothing or stores and notifies the built order and increments
the counter. -/
theorem ExecuteOrder_cases {T : Type} (s : AlgoExecutionService T) (data : OrderBook T) :
    ExecuteOrder s data = s ∨
    ExecuteOrder s data =
      { execution_orders :=
          s.execution_orders.assign ("TRADEID_" ++ toString s.counter) (builtOrder s data)
        counter := wrapInt (s.counter + 1)
        spread_tol := s.spread_tol
        notified := s.notified ++
          [⟨builtOrder s data,
            s.execution_orders.assign ("TRADEID_" ++ toString s.counter)
              (builtOrder s data)⟩] } := by
  by_cases hb : data.bidStack = []
  · exact Or.inl (ExecuteOrder_of_not_test s data (Or.inl hb))
  · by_cases ho : data.offerStack = []
    · exact Or.inl (ExecuteOrder_of_not_test s data (Or.inr (Or.inl ho)))
    · by_cases h : doubleSub (bestOffer data.offerStack).price (bestBid data.bidStack).price
          > s.spread_tol
      · exact Or.inr (ExecuteOrder_of_test s data hb ho h)
      · exact Or.inl (ExecuteOrder_of_not_test s data (Or.inr (Or.inr h)))

theorem builtOrder_orderId {T : Type} (s : AlgoExecutionService T) (data : OrderBook T) :
    (builtOrder s data).orderId = "TRADEID_" ++ toString s.counter := by
  unfold builtOrder
  split <;> rfl

theorem builtOrder_side {T : Type} (s : AlgoExecutionService T) (data : OrderBook T) :
    (builtOrder s data).side
      = if s.counter % 2 = 0 then PricingSide.BID else PricingSide.OFFER := by
  unfold builtOrder
  by_cases hc : Int.tmod s.counter 2 = 0
  · rw [if_pos hc, if_pos ((tmod_two_eq_zero_iff _).mp hc)]
  · rw [if_neg hc, if_neg (fun h => hc ((tmod_two_eq_zero_iff _).mpr h))]

/-- The spread test passes for the scenario book, the sample book and the book with the
big quantity, whose best bid is priced 99 and whose best offer is priced 101. -/
theorem test_scenarioBook :
    doubleSub (bestOffer scenarioBook.offerStack).price (bestBid scenarioBook.bidStack).price
      > 1 / 128 := by
  have hb : (bestBid scenarioBook.bidStack).price = 99 := rfl
  have ho : (bestOffer scenarioBook.offerStack).price = 101 := rfl
  rw [hb, ho, doubleSub_101_99]
  norm_num

theorem test_sampleBook :
    doubleSub (bestOffer sampleBook.offerStack).price (bestBid sampleBook.bidStack).price
      > 1 / 128 := by
  have hb : (bestBid sampleBook.bidStack).price = 99 := by
    norm_num [sampleBook, bestBid, first]
  have ho : (bestOffer sampleBook.offerStack).price = 101 := by
    norm_num [sampleBook, bestOffer, first]
  rw [hb, ho, doubleSub_101_99]
  norm_num

theorem test_bigQuantityBook :
    doubleSub (bestOffer bigQuantityBook.offerStack).price
        (bestBid bigQuantityBook.bidStack).price
      > 1 / 128 := by
  have hb : (bestBid bigQuantityBook.bidStack).price = 99 := rfl
  have ho : (bestOffer bigQuantityBook.offerStack).price = 101 := rfl
  rw [hb, ho, doubleSub_101_99]
  norm_num

/-! ## The conversion of a quantity -/

theorem longToDouble_of_lt (n : ℤ) (h : n.natAbs < 2 ^ 53) : longToDouble n = (n : ℚ) := by
  have hs : Nat.size n.natAbs ≤ 53 := Nat.size_le.mpr h
  simp [longToDouble, hs]

theorem size_two_pow_53_succ : Nat.size 9007199254740993 = 54 := by
  apply le_antisymm
  · rw [Nat.size_le]; norm_num
  · have h : 53 < Nat.size 9007199254740993 := by rw [Nat.lt_size]; norm_num
    exact h

theorem longToDouble_two_pow_53_succ :
    longToDouble 9007199254740993 = 9007199254740992 := by
  have hn : (9007199254740993 : ℤ).natAbs = 9007199254740993 := rfl
  have hsg : Int.sign 9007199254740993 = 1 := rfl
  simp only [longToDouble, hn, size_two_pow_53_succ]
  norm_num [hsg]

end AlgoExecutionService

/-! ## The execution decision: the claims -/

namespace AlgoExecutionService

/-- C11, as stated, fails on two counts. On a freshly constructed service, the book whose
best bid is priced 3 * 2^(-61) and whose best offer is priced 2^(-7) + 2^(-59) has a
spread of 2^(-7) + 2^(-61), strictly greater than 1/128, but the difference of the two
`double`s is 1/128 and `ExecuteOrder` produces nothing. And in a state whose counter is
2147483647 the execution of the scenario book leaves the counter at -2147483648, not at
2147483648. -/
theorem C11_ExecuteOrder_executes_counterexample :
    (new : AlgoExecutionService Product).spread_tol = 1 / 128 ∧
    roundingBook.bidStack ≠ [] ∧ roundingBook.offerStack ≠ [] ∧
    (bestOffer roundingBook.offerStack).price - (bestBid roundingBook.bidStack).price
      > 1 / 128 ∧
    doubleSub (bestOffer roundingBook.offerStack).price
      (bestBid roundingBook.bidStack).price = 1 / 128 ∧
    (ExecuteOrder (new : AlgoExecutionService Product) roundingBook).notified = [] ∧
    (ExecuteOrder (new : AlgoExecutionService Product) roundingBook).counter = 0 ∧
    (ExecuteOrder (⟨StringMap.empty, 2147483647, 1 / 128, []⟩ : AlgoExecutionService Product)
      scenarioBook).counter = -2147483648 := by
  have hb : (bestBid roundingBook.bidStack).price = 3 / 2 ^ 61 := by
    simp [roundingBook, bestBid, first]
  have ho : (bestOffer roundingBook.offerStack).price = 1 / 128 + 1 / 2 ^ 59 := by
    simp [roundingBook, bestOffer, first]
  have hd : doubleSub (bestOffer roundingBook.offerStack).price
      (bestBid roundingBook.bidStack).price = 1 / 128 := by
    have hx : (1 / 128 + 1 / 2 ^ 59 - 3 / 2 ^ 61 : ℚ) = 1 / 128 + 1 / 2 ^ 61 := by norm_num
    rw [hb, ho, doubleSub, hx, roundDouble_above_tol]
  have he : ExecuteOrder (new : AlgoExecutionService Product) roundingBook = new :=
    ExecuteOrder_of_not_test new roundingBook (Or.inr (Or.inr (by
      rw [hd]
      exact lt_irrefl _)))
  refine ⟨rfl, by simp [roundingBook], by simp [roundingBook], ?_, hd, ?_, ?_, ?_⟩
  · rw [hb, ho]; norm_num
  · rw [he]; rfl
  · rw [he]; rfl
  · rw [ExecuteOrder_of_test _ scenarioBook (by simp [scenarioBook])
      (by simp [scenarioBook]) test_scenarioBook]
    show wrapInt (2147483647 + 1) = -2147483648
    unfold wrapInt
    norm_num

/-- C11, amended: in a state with counter `c` and tolerance 1/128, for every book with
non-empty bid and offer stacks whose best offer price minus best bid price, computed in
`double` arithmetic, is strictly greater than 1/128, `ExecuteOrder` produces exactly one
`ExecutionOrder`: one notification carrying it is added, it is stored under its order id
and no other key of the store changes, and the counter becomes `c + 1` in the arithmetic
of a 32-bit `int`, which is `c + 1` itself when `c` is an `int` below 2147483647. When `c`
is even the side of the order is `BID` and its price is the maximum price of the bid
stack; when `c` is odd its side is `OFFER` and its price is the minimum price of the
offer stack. -/
theorem C11_ExecuteOrder_executes_double {T : Type} (s : AlgoExecutionService T)
    (data : OrderBook T) (htol : s.spread_tol = 1 / 128)
    (hb : data.bidStack ≠ []) (ho : data.offerStack ≠ [])
    (h : doubleSub (bestOffer data.offerStack).price (bestBid data.bidStack).price
      > 1 / 128) :
    ∃ e : ExecutionOrder T,
      (ExecuteOrder s data).notified
        = s.notified ++ [⟨e, (ExecuteOrder s data).execution_orders⟩] ∧
      (ExecuteOrder s data).execution_orders e.orderId = some e ∧
      (∀ k : String, k ≠ e.orderId →
        (ExecuteOrder s data).execution_orders k = s.execution_orders k) ∧
      (ExecuteOrder s data).counter = wrapInt (s.counter + 1) ∧
      (-2147483648 ≤ s.counter → s.counter < 2147483647 →
        (ExecuteOrder s data).counter = s.counter + 1) ∧
      (s.counter % 2 = 0 →
        e.side = PricingSide.BID ∧ (∃ b ∈ data.bidStack, e.price = b.price) ∧
        ∀ b ∈ data.bidStack, b.price ≤ e.price) ∧
      (s.counter % 2 = 1 →
        e.side = PricingSide.OFFER ∧ (∃ o ∈ data.offerStack, e.price = o.price) ∧
        ∀ o ∈ data.offerStack, e.price ≤ o.price) := by
  have h1 : doubleSub (bestOffer data.offerStack).price (bestBid data.bidStack).price
      > s.spread_tol := by rw [htol]; exact h
  refine ⟨builtOrder s data, ?_, ?_, ?_, ?_, ?_, ?_, ?_⟩
  · rw [ExecuteOrder_of_test s data hb ho h1]
  · rw [ExecuteOrder_of_test s data hb ho h1, builtOrder_orderId]
    exact StringMap.assign_same _ _ _
  · intro k hk
    rw [builtOrder_orderId] at hk
    rw [ExecuteOrder_of_test s data hb ho h1]
    exact StringMap.assign_other _ _ _ _ hk
  · rw [ExecuteOrder_of_test s data hb ho h1]
  · intro hlo hhi
    rw [ExecuteOrder_of_test s data hb ho h1]
    exact wrapInt_of_range _ (by omega) (by omega)
  · intro hc
    have hc' : Int.tmod s.counter 2 = 0 := (tmod_two_eq_zero_iff _).mpr hc
    have he : builtOrder s data
        = ⟨data.product, PricingSide.BID, "TRADEID_" ++ toString s.counter,
            OrderType.MARKET, (bestBid data.bidStack).price,
            longToDouble (bestBid data.bidStack).quantity,
            2 * longToDouble (bestBid data.bidStack).quantity, "", false⟩ := by
      simp [builtOrder, hc']
    rw [he]
    exact ⟨rfl, ⟨bestBid data.bidStack, bestBid_mem data.bidStack hb, rfl⟩,
      bestBid_max data.bidStack⟩
  · intro hc
    have hc0 : ¬ Int.tmod s.counter 2 = 0 := by
      intro h0
      have := (tmod_two_eq_zero_iff _).mp h0
      omega
    have he : builtOrder s data
        = ⟨data.product, PricingSide.OFFER, "TRADEID_" ++ toString s.counter,
            OrderType.MARKET, (bestOffer data.offerStack).price,
            longToDouble (bestOffer data.offerStack).quantity,
            2 * longToDouble (bestOffer data.offerStack).quantity, "", false⟩ := by
      simp [builtOrder, hc0]
    rw [he]
    exact ⟨rfl, ⟨bestOffer data.offerStack, bestOffer_mem data.offerStack ho, rfl⟩,
      bestOffer_min data.offerStack⟩

/-- C11, amended, at a freshly constructed service and the sample book (best bid 99, best
offer 101, whose difference in `double` arithmetic is 2). -/
theorem C11_ExecuteOrder_executes_double_witness :
    (new : AlgoExecutionService Product).spread_tol = 1 / 128 ∧
    sampleBook.bidStack ≠ [] ∧ sampleBook.offerStack ≠ [] ∧
    doubleSub (bestOffer sampleBook.offerStack).price (bestBid sampleBook.bidStack).price
      > 1 / 128 ∧
    (ExecuteOrder new sampleBook).counter
      = (new : AlgoExecutionService Product).counter + 1 ∧
    ∃ e : ExecutionOrder Product,
      (ExecuteOrder new sampleBook).notified
        = (new : AlgoExecutionService Product).notified
          ++ [⟨e, (ExecuteOrder new sampleBook).execution_orders⟩] ∧
      (ExecuteOrder new sampleBook).execution_orders e.orderId = some e ∧
      (∀ k : String, k ≠ e.orderId →
        (ExecuteOrder new sampleBook).execution_orders k
          = (new : AlgoExecutionService Product).execution_orders k) ∧
      (ExecuteOrder new sampleBook).counter
        = wrapInt ((new : AlgoExecutionService Product).counter + 1) ∧
      (-2147483648 ≤ (new : AlgoExecutionService Product).counter →
        (new : AlgoExecutionService Product).counter < 2147483647 →
        (ExecuteOrder new sampleBook).counter
          = (new : AlgoExecutionService Product).counter + 1) ∧
      ((new : AlgoExecutionService Product).counter % 2 = 0 →
        e.side = PricingSide.BID ∧ (∃ b ∈ sampleBook.bidStack, e.price = b.price) ∧
        ∀ b ∈ sampleBook.bidStack, b.price ≤ e.price) ∧
      ((new : AlgoExecutionService Product).counter % 2 = 1 →
        e.side = PricingSide.OFFER ∧ (∃ o ∈ sampleBook.offerStack, e.price = o.price) ∧
        ∀ o ∈ sampleBook.offerStack, e.price ≤ o.price) :=
  ⟨rfl, by simp [sampleBook], by simp [sampleBook], test_sampleBook,
    (C11_ExecuteOrder_executes_double new sampleBook rfl (by simp [sampleBook])
      (by simp [sampleBook]) test_sampleBook).elim
      (fun e h => ⟨h.2.2.2.2.1 (by decide) (by decide), e, h⟩)⟩

/-- C12: the code does not do what the claim says. On a freshly constructed service and
the book whose best bid has the quantity 2^53 + 1 = 9007199254740993, the execution that
`ExecuteOrder` stores and notifies has the visible quantity 9007199254740992 and the
hidden quantity 18014398509481984: the quantity is rounded when it is held in the local
`double quantity`. -/
theorem C12_ExecuteOrder_quantity_rounded :
    (bestBid bigQuantityBook.bidStack).quantity = 9007199254740993 ∧
    (ExecuteOrder (new : AlgoExecutionService Product) bigQuantityBook).execution_orders
        "TRADEID_0"
      = some ⟨⟨"X", ProductType.BOND⟩, PricingSide.BID, "TRADEID_0", OrderType.MARKET, 99,
          9007199254740992, 18014398509481984, "", false⟩ ∧
    (ExecuteOrder (new : AlgoExecutionService Product) bigQuantityBook).notified.map
        Notification.payload
      = [⟨⟨"X", ProductType.BOND⟩, PricingSide.BID, "TRADEID_0", OrderType.MARKET, 99,
          9007199254740992, 18014398509481984, "", false⟩] := by
  have hq : (bestBid bigQuantityBook.bidStack).quantity = 9007199254740993 := rfl
  have hp : (bestBid bigQuantityBook.bidStack).price = 99 := rfl
  have hbo : builtOrder (new : AlgoExecutionService Product) bigQuantityBook
      = ⟨⟨"X", ProductType.BOND⟩, PricingSide.BID, "TRADEID_0", OrderType.MARKET, 99,
          9007199254740992, 18014398509481984, "", false⟩ := by
    have hc : Int.tmod (new : AlgoExecutionService Product).counter 2 = 0 := rfl
    have hid : "TRADEID_" ++ toString (new : AlgoExecutionService Product).counter
        = "TRADEID_0" := by decide
    have hprod : bigQuantityBook.product = ⟨"X", ProductType.BOND⟩ := rfl
    simp only [builtOrder, hc, if_true, hq, hp, hid, hprod, longToDouble_two_pow_53_succ]
    norm_num
  have hid : "TRADEID_" ++ toString (new : AlgoExecutionService Product).counter
      = "TRADEID_0" := by decide
  have hx := ExecuteOrder_of_test (new : AlgoExecutionService Product) bigQuantityBook
    (by simp [bigQuantityBook]) (by simp [bigQuantityBook]) test_bigQuantityBook
  rw [hbo, hid] at hx
  refine ⟨hq, ?_, ?_⟩
  · rw [hx]
    dsimp only
    exact StringMap.assign_same _ _ _
  · rw [hx]
    simp [new]

/-- C13: every execution that `ExecuteOrder` produces in a state with counter `c` has the
order id "TRADEID_" followed by the decimal representation of `c` (for a counter that is
the natural number `n`, the digits of `n`), the order type `MARKET`, an empty parent order
id, `isChildOrder = false`, and the product of the input book. -/
theorem C13_ExecuteOrder_identity {T : Type} (s : AlgoExecutionService T)
    (data : OrderBook T) (e : ExecutionOrder T) (store : StringMap (ExecutionOrder T))
    (h : (ExecuteOrder s data).notified = s.notified ++ [⟨e, store⟩]) :
    e.orderId = "TRADEID_" ++ toString s.counter ∧ e.orderType = OrderType.MARKET ∧
    e.parentOrderId = "" ∧ e.isChildOrder = false ∧ e.product = data.product ∧
    (∀ n : ℕ, s.counter = (n : ℤ) → e.orderId = "TRADEID_" ++ Nat.repr n) := by
  rcases ExecuteOrder_cases s data with hx | hx
  · rw [hx] at h
    have hl := congrArg List.length h
    simp at hl
  · rw [hx] at h
    have h2 := List.append_cancel_left h
    simp only [List.cons.injEq, and_true] at h2
    have he : builtOrder s data = e := congrArg Notification.payload h2
    rw [← he]
    refine ⟨builtOrder_orderId s data, ?_, ?_, ?_, ?_, ?_⟩
    · unfold builtOrder
      split <;> rfl
    · unfold builtOrder
      split <;> rfl
    · unfold builtOrder
      split <;> rfl
    · unfold builtOrder
      split <;> rfl
    · intro n hn
      rw [builtOrder_orderId, hn]
      rfl

/-- C13 at a freshly constructed service and the scenario book. -/
theorem C13_ExecuteOrder_identity_witness :
    (ExecuteOrder (new : AlgoExecutionService Product) scenarioBook).notified
      = (new : AlgoExecutionService Product).notified
        ++ [⟨builtOrder new scenarioBook,
            (ExecuteOrder (new : AlgoExecutionService Product) scenarioBook).execution_orders⟩] ∧
    (builtOrder (new : AlgoExecutionService Product) scenarioBook).orderId
      = "TRADEID_" ++ toString (new : AlgoExecutionService Product).counter ∧
    "TRADEID_" ++ toString (new : AlgoExecutionService Product).counter = "TRADEID_0" ∧
    (builtOrder (new : AlgoExecutionService Product) scenarioBook).orderType
      = OrderType.MARKET ∧
    (builtOrder (new : AlgoExecutionService Product) scenarioBook).parentOrderId = "" ∧
    (builtOrder (new : AlgoExecutionService Product) scenarioBook).isChildOrder = false ∧
    (builtOrder (new : AlgoExecutionService Product) scenarioBook).product
      = scenarioBook.product ∧
    (builtOrder (new : AlgoExecutionService Product) scenarioBook).orderId
      = "TRADEID_" ++ Nat.repr 0 :=
  have hx : (ExecuteOrder (new : AlgoExecutionService Product) scenarioBook).notified
      = (new : AlgoExecutionService Product).notified
        ++ [⟨builtOrder new scenarioBook,
            (ExecuteOrder (new : AlgoExecutionService Product) scenarioBook).execution_orders⟩] := by
    rw [ExecuteOrder_of_test (new : AlgoExecutionService Product) scenarioBook
      (by simp [scenarioBook]) (by simp [scenarioBook]) test_scenarioBook]
  have hc := C13_ExecuteOrder_identity (new : AlgoExecutionService Product) scenarioBook
    (builtOrder new scenarioBook) _ hx
  ⟨hx, hc.1, by decide, hc.2.1, hc.2.2.1, hc.2.2.2.1, hc.2.2.2.2.1, hc.2.2.2.2.2 0 rfl⟩

end AlgoExecutionService

/-! ## The execution decision: sequences of calls -/

namespace AlgoExecutionService

/-- The numbering of the executions notified so far: the counter is their number in the
arithmetic of a 32-bit `int`, and the one at position `k` is named after `k` reduced in
the same way, with the side given by the parity of `k`. -/
theorem numbered_step {T : Type} (s : AlgoExecutionService T) (data : OrderBook T)
    (hlen : s.counter = wrapInt s.notified.length)
    (hall : ∀ (k : ℕ) (e : ExecutionOrder T),
      (s.notified.map Notification.payload)[k]? = some e →
      e.orderId = "TRADEID_" ++ toString (wrapInt k) ∧
      e.side = if k % 2 = 0 then PricingSide.BID else PricingSide.OFFER) :
    (ExecuteOrder s data).counter = wrapInt (ExecuteOrder s data).notified.length ∧
    ∀ (k : ℕ) (e : ExecutionOrder T),
      ((ExecuteOrder s data).notified.map Notification.payload)[k]? = some e →
      e.orderId = "TRADEID_" ++ toString (wrapInt k) ∧
      e.side = if k % 2 = 0 then PricingSide.BID else PricingSide.OFFER := by
  rcases ExecuteOrder_cases s data with hx | hx
  · rw [hx]; exact ⟨hlen, hall⟩
  · rw [hx]
    refine ⟨?_, ?_⟩
    · dsimp only
      rw [hlen, wrapInt_succ, List.length_append, List.length_singleton, Nat.cast_add,
        Nat.cast_one]
    intro k e hk
    simp only [List.map_append, List.map_cons, List.map_nil] at hk
    rcases lt_or_ge k (s.notified.map Notification.payload).length with hlt | hge
    · rw [List.getElem?_append_left hlt] at hk
      exact hall k e hk
    · rw [List.getElem?_append_right hge] at hk
      have hk0 : k - (s.notified.map Notification.payload).length = 0 := by
        by_contra hne
        obtain ⟨m, hm⟩ := Nat.exists_eq_succ_of_ne_zero hne
        rw [hm] at hk
        simp at hk
      rw [hk0] at hk
      simp only [List.getElem?_cons_zero, Option.some.injEq] at hk
      have hkc : k = s.notified.length := by
        rw [List.length_map] at hk0 hge
        omega
      rw [← hk, hkc, builtOrder_orderId, builtOrder_side, hlen]
      refine ⟨rfl, ?_⟩
      by_cases hp : s.notified.length % 2 = 0
      · rw [if_pos hp, if_pos ((tmod_two_eq_zero_iff _).mp ((tmod_wrapInt _).mpr hp))]
      · rw [if_neg hp, if_neg (fun h =>
          hp ((tmod_wrapInt _).mp ((tmod_two_eq_zero_iff _).mpr h)))]

theorem new_counter {T : Type} :
    (new : AlgoExecutionService T).counter
      = wrapInt (new : AlgoExecutionService T).notified.length := by
  show (0 : ℤ) = wrapInt ((0 : ℕ) : ℤ)
  unfold wrapInt
  norm_num

theorem numbered_run {T : Type} (books : List (OrderBook T)) :
    ∀ s : AlgoExecutionService T,
      s.counter = wrapInt s.notified.length →
      (∀ (k : ℕ) (e : ExecutionOrder T),
        (s.notified.map Notification.payload)[k]? = some e →
        e.orderId = "TRADEID_" ++ toString (wrapInt k) ∧
        e.side = if k % 2 = 0 then PricingSide.BID else PricingSide.OFFER) →
      (run s books).counter = wrapInt (run s books).notified.length ∧
      ∀ (k : ℕ) (e : ExecutionOrder T),
        ((run s books).notified.map Notification.payload)[k]? = some e →
        e.orderId = "TRADEID_" ++ toString (wrapInt k) ∧
        e.side = if k % 2 = 0 then PricingSide.BID else PricingSide.OFFER := by
  induction books with
  | nil => intro s hlen hall; exact ⟨hlen, hall⟩
  | cons b books ih =>
    intro s hlen hall
    have hstep := numbered_step s b hlen hall
    exact ih (ExecuteOrder s b) hstep.1 hstep.2

/-- From a freshly constructed service the counter is the number of executions notified
so far, in the arithmetic of a 32-bit `int`. -/
theorem counter_run_new {T : Type} (books : List (OrderBook T)) :
    (run (new : AlgoExecutionService T) books).counter
      = wrapInt (run (new : AlgoExecutionService T) books).notified.length :=
  (numbered_run books new new_counter (by intro k e hk; simp [new] at hk)).1

/-- The name of an execution numbered below 2^31. -/
theorem tradeId_of_lt (k : ℕ) (h : k < 2147483648) :
    "TRADEID_" ++ toString (wrapInt k) = "TRADEID_" ++ Nat.repr k := by
  rw [wrapInt_of_range k (by omega) (by omega)]
  rfl

theorem run_append {T : Type} (s : AlgoExecutionService T) (l1 l2 : List (OrderBook T)) :
    run s (l1 ++ l2) = run (run s l1) l2 :=
  List.foldl_append _ _ _ _

/-- Every call on the scenario book executes: `n` calls add `n` notifications and keep
the tolerance. -/
theorem run_replicate_scenarioBook (n : ℕ) :
    ∀ s : AlgoExecutionService Product, s.spread_tol = 1 / 128 →
      (run s (List.replicate n scenarioBook)).notified.length = s.notified.length + n ∧
      (run s (List.replicate n scenarioBook)).spread_tol = 1 / 128 := by
  induction n with
  | zero => intro s hs; exact ⟨rfl, hs⟩
  | succ n ih =>
    intro s hs
    have hx := ExecuteOrder_of_test s scenarioBook (by simp [scenarioBook])
      (by simp [scenarioBook]) (by rw [hs]; exact test_scenarioBook)
    have hr : run s (List.replicate (n + 1) scenarioBook)
        = run (ExecuteOrder s scenarioBook) (List.replicate n scenarioBook) := rfl
    have ht : (ExecuteOrder s scenarioBook).spread_tol = 1 / 128 := by rw [hx]; exact hs
    have hl : (ExecuteOrder s scenarioBook).notified.length = s.notified.length + 1 := by
      rw [hx]; simp
    obtain ⟨h1, h2⟩ := ih (ExecuteOrder s scenarioBook) ht
    rw [hr]
    exact ⟨by rw [h1, hl]; omega, h2⟩

/-- C14, as stated, fails: after 2147483649 calls on the scenario book, each of which
executes, the execution at position 2147483648 has the order id "TRADEID_-2147483648",
not "TRADEID_2147483648". -/
theorem C14_run_numbering_counterexample :
    ∃ e : ExecutionOrder Product,
      ((run (new : AlgoExecutionService Product)
        (List.replicate 2147483649 scenarioBook)).notified.map
          Notification.payload)[2147483648]? = some e ∧
      e.orderId = "TRADEID_-2147483648" ∧
      e.orderId ≠ "TRADEID_" ++ Nat.repr 2147483648 := by
  have hlen := (run_replicate_scenarioBook 2147483649 new rfl).1
  have hnum := (numbered_run (List.replicate 2147483649 scenarioBook)
    (new : AlgoExecutionService Product) new_counter
    (by intro k e hk; simp [new] at hk)).2
  have hw : wrapInt ((2147483648 : ℕ) : ℤ) = -2147483648 := by
    unfold wrapInt
    norm_num
  have hid : "TRADEID_" ++ toString (-2147483648 : ℤ) = "TRADEID_-2147483648" := by
    decide
  cases hget : ((run (new : AlgoExecutionService Product)
      (List.replicate 2147483649 scenarioBook)).notified.map
        Notification.payload)[2147483648]? with
  | none =>
    have hle := List.getElem?_eq_none_iff.mp hget
    rw [List.length_map, hlen] at hle
    have h0 : (new : AlgoExecutionService Product).notified.length = 0 := rfl
    omega
  | some e =>
    have h := (hnum 2147483648 e hget).1
    rw [hw, hid] at h
    refine ⟨e, rfl, h, ?_⟩
    rw [h]
    decide

/-- C14, amended: starting from a freshly constructed service, for every finite sequence
of books passed to `ExecuteOrder`, the execution emitted at position `k` (counting from 0)
has the side `BID` when `k` is even and `OFFER` when `k` is odd, and the order id
"TRADEID_" followed by the decimal representation of `k` reduced to the range of a
32-bit `int`, which is "TRADEID_k" for every `k` below 2^31. -/
theorem C14_run_numbering_int {T : Type} (books : List (OrderBook T)) (k : ℕ)
    (e : ExecutionOrder T)
    (h : ((run (new : AlgoExecutionService T) books).notified.map
      Notification.payload)[k]? = some e) :
    (e.side = if k % 2 = 0 then PricingSide.BID else PricingSide.OFFER) ∧
    e.orderId = "TRADEID_" ++ toString (wrapInt k) ∧
    (k < 2147483648 → e.orderId = "TRADEID_" ++ Nat.repr k) := by
  have hn := (numbered_run books (new : AlgoExecutionService T) new_counter
    (by intro k e hk; simp [new] at hk)).2 k e h
  refine ⟨hn.2, hn.1, ?_⟩
  intro hk
  rw [hn.1, tradeId_of_lt k hk]

/-- C14, amended, at a sequence of five books, two of which do not execute: the
execution at position 1 comes from the fourth book, has the side `OFFER` and the order id
"TRADEID_1". -/
theorem C14_run_numbering_int_witness :
    ((run (new : AlgoExecutionService Product)
        [scenarioBook, sampleBookTight, sampleBookNoBids, scenarioBook,
          sampleBook]).notified.map Notification.payload)[1]?
      = some (builtOrder (run (new : AlgoExecutionService Product)
          [scenarioBook, sampleBookTight, sampleBookNoBids]) scenarioBook) ∧
    (builtOrder (run (new : AlgoExecutionService Product)
        [scenarioBook, sampleBookTight, sampleBookNoBids]) scenarioBook).side
      = PricingSide.OFFER ∧
    (builtOrder (run (new : AlgoExecutionService Product)
        [scenarioBook, sampleBookTight, sampleBookNoBids]) scenarioBook).orderId
      = "TRADEID_" ++ toString (wrapInt (1 : ℕ)) ∧
    (builtOrder (run (new : AlgoExecutionService Product)
        [scenarioBook, sampleBookTight, sampleBookNoBids]) scenarioBook).orderId
      = "TRADEID_1" :=
  have h1 : ExecuteOrder (new : AlgoExecutionService Product) scenarioBook = _ :=
    ExecuteOrder_of_test (new : AlgoExecutionService Product) scenarioBook
      (by simp [scenarioBook]) (by simp [scenarioBook]) test_scenarioBook
  have h2 : ∀ s : AlgoExecutionService Product, s.spread_tol = 1 / 128 →
      ExecuteOrder s sampleBookTight = s := fun s hs =>
    ExecuteOrder_of_not_test s sampleBookTight (Or.inr (Or.inr
      (by
        rw [hs]
        exact doubleSub_le_tol _ _
          (by norm_num [sampleBookTight, bestOffer, bestBid, first]))))
  have h3 : ∀ s : AlgoExecutionService Product, ExecuteOrder s sampleBookNoBids = s :=
    fun s => ExecuteOrder_of_not_test s sampleBookNoBids (Or.inl rfl)
  have h4 : ∀ s : AlgoExecutionService Product, s.spread_tol = 1 / 128 →
      ExecuteOrder s scenarioBook = _ := fun s hs =>
    ExecuteOrder_of_test s scenarioBook (by simp [scenarioBook]) (by simp [scenarioBook])
      (by rw [hs]; exact test_scenarioBook)
  have h5 : ∀ s : AlgoExecutionService Product, s.spread_tol = 1 / 128 →
      ExecuteOrder s sampleBook = _ := fun s hs =>
    ExecuteOrder_of_test s sampleBook (by simp [sampleBook]) (by simp [sampleBook])
      (by rw [hs]; exact test_sampleBook)
  have hk : ((run (new : AlgoExecutionService Product)
        [scenarioBook, sampleBookTight, sampleBookNoBids, scenarioBook,
          sampleBook]).notified.map Notification.payload)[1]?
      = some (builtOrder (run (new : AlgoExecutionService Product)
          [scenarioBook, sampleBookTight, sampleBookNoBids]) scenarioBook) := by
    simp only [run, List.foldl_cons, List.foldl_nil]
    rw [h1, h2 _ rfl, h3, h4 _ rfl, h5 _ rfl]
    simp [new]
  have hc := C14_run_numbering_int
    [scenarioBook, sampleBookTight, sampleBookNoBids, scenarioBook, sampleBook] 1 _ hk
  ⟨hk, hc.1, hc.2.1, hc.2.2 (by norm_num)⟩

/-- C15: for every state and every book whose bid stack is empty or whose offer stack is
empty, `ExecuteOrder` returns, leaves the execution store and the counter unchanged and
adds no notification, whatever the prices on the other side; the best of a missing side
is the zero-valued `Order`, with price 0. -/
theorem C15_ExecuteOrder_empty_side {T : Type} (s : AlgoExecutionService T)
    (data : OrderBook T) (h : data.bidStack = [] ∨ data.offerStack = []) :
    (ExecuteOrder s data).execution_orders = s.execution_orders ∧
    (ExecuteOrder s data).counter = s.counter ∧
    (ExecuteOrder s data).notified = s.notified ∧
    (data.bidStack = [] → bestBid data.bidStack = ⟨0, 0, PricingSide.BID⟩) ∧
    (data.offerStack = [] → bestOffer data.offerStack = ⟨0, 0, PricingSide.BID⟩) := by
  have he : ExecuteOrder s data = s := by
    rcases h with h | h
    · exact ExecuteOrder_of_not_test s data (Or.inl h)
    · exact ExecuteOrder_of_not_test s data (Or.inr (Or.inl h))
  rw [he]
  refine ⟨rfl, rfl, rfl, ?_, ?_⟩
  · intro hb; rw [hb]; rfl
  · intro ho; rw [ho]; rfl

/-- C15 at a freshly constructed service and the book without bids, whose best offer (101)
lies more than 1/128 above the price 0 of the missing best bid. -/
theorem C15_ExecuteOrder_empty_side_witness :
    (sampleBookNoBids.bidStack = [] ∨ sampleBookNoBids.offerStack = []) ∧
    (bestOffer sampleBookNoBids.offerStack).price
        - (bestBid sampleBookNoBids.bidStack).price > 1 / 128 ∧
    (ExecuteOrder (new : AlgoExecutionService Product) sampleBookNoBids).execution_orders
      = (new : AlgoExecutionService Product).execution_orders ∧
    (ExecuteOrder (new : AlgoExecutionService Product) sampleBookNoBids).counter
      = (new : AlgoExecutionService Product).counter ∧
    (ExecuteOrder (new : AlgoExecutionService Product) sampleBookNoBids).notified
      = (new : AlgoExecutionService Product).notified ∧
    (sampleBookNoBids.bidStack = [] →
      bestBid sampleBookNoBids.bidStack = ⟨0, 0, PricingSide.BID⟩) ∧
    (sampleBookNoBids.offerStack = [] →
      bestOffer sampleBookNoBids.offerStack = ⟨0, 0, PricingSide.BID⟩) :=
  ⟨Or.inl rfl,
    by
      have hb : bestBid sampleBookNoBids.bidStack = ⟨0, 0, PricingSide.BID⟩ := rfl
      have ho : bestOffer sampleBookNoBids.offerStack = ⟨101, 100, PricingSide.OFFER⟩ := by
        simp [sampleBookNoBids, bestOffer, first]
      rw [hb, ho]
      norm_num,
    C15_ExecuteOrder_empty_side new sampleBookNoBids (Or.inl rfl)⟩

/-- C16: on a freshly constructed service (counter 0, tolerance 1/128), `ExecuteOrder` on
the book for product "X" with the bid stack [(99, 100)] and the offer stack [(101, 100)]
emits exactly one `ExecutionOrder` and stores it as the only entry of the store: price 99,
side `BID`, order id "TRADEID_0", visible quantity 100, hidden quantity 200. -/
theorem C16_scenario :
    (new : AlgoExecutionService Product).counter = 0 ∧
    (new : AlgoExecutionService Product).spread_tol = 1 / 128 ∧
    scenarioBook
      = ⟨⟨"X", ProductType.BOND⟩, [⟨99, 100, PricingSide.BID⟩],
          [⟨101, 100, PricingSide.OFFER⟩]⟩ ∧
    (ExecuteOrder (new : AlgoExecutionService Product) scenarioBook).notified.map
        Notification.payload
      = [⟨⟨"X", ProductType.BOND⟩, PricingSide.BID, "TRADEID_0", OrderType.MARKET, 99,
          100, 200, "", false⟩] ∧
    (ExecuteOrder (new : AlgoExecutionService Product) scenarioBook).execution_orders
        "TRADEID_0"
      = some ⟨⟨"X", ProductType.BOND⟩, PricingSide.BID, "TRADEID_0", OrderType.MARKET, 99,
          100, 200, "", false⟩ ∧
    (∀ k : String, k ≠ "TRADEID_0" →
      (ExecuteOrder (new : AlgoExecutionService Product) scenarioBook).execution_orders k
        = none) ∧
    (ExecuteOrder (new : AlgoExecutionService Product) scenarioBook).counter = 1 := by
  have hbo : builtOrder (new : AlgoExecutionService Product) scenarioBook
      = ⟨⟨"X", ProductType.BOND⟩, PricingSide.BID, "TRADEID_0", OrderType.MARKET, 99,
          100, 200, "", false⟩ := by
    have hc : Int.tmod (new : AlgoExecutionService Product).counter 2 = 0 := rfl
    have hid : "TRADEID_" ++ toString (new : AlgoExecutionService Product).counter
        = "TRADEID_0" := by decide
    have hq : (bestBid scenarioBook.bidStack).quantity = 100 := rfl
    have hp : (bestBid scenarioBook.bidStack).price = 99 := rfl
    have hprod : scenarioBook.product = ⟨"X", ProductType.BOND⟩ := rfl
    have hl : longToDouble 100 = 100 := by
      rw [longToDouble_of_lt 100 (by norm_num)]; norm_num
    simp only [builtOrder, hc, if_true, hq, hp, hid, hprod, hl]
    norm_num
  have hid : "TRADEID_" ++ toString (new : AlgoExecutionService Product).counter
      = "TRADEID_0" := by decide
  have hx := ExecuteOrder_of_test (new : AlgoExecutionService Product) scenarioBook
    (by simp [scenarioBook]) (by simp [scenarioBook]) test_scenarioBook
  rw [hbo, hid] at hx
  refine ⟨rfl, rfl, rfl, ?_, ?_, ?_, ?_⟩
  · rw [hx]
    simp [new]
  · rw [hx]
    dsimp only
    exact StringMap.assign_same _ _ _
  · intro k hk
    rw [hx]
    dsimp only
    rw [StringMap.assign_other _ _ _ _ hk]
    rfl
  · rw [hx]
    rfl

end AlgoExecutionService

/-! ## Quote construction -/

theorem PriceStreamOrder.ctor_eq_storage (storage : PriceStreamOrder) (price : ℚ)
    (visibleQuantity hiddenQuantity : ℤ) (side : PricingSide) :
    PriceStreamOrder.ctor storage price visibleQuantity hiddenQuantity side = storage := rfl

namespace AlgoStreamingService

/-- What `PublishPrice` leaves in the service. -/
theorem PublishPrice_eq {V : Type} [HasProductId V] (s : AlgoStreamingService V)
    (data : Price V) (draw : Draw) (bidStorage askStorage : PriceStreamOrder) :
    PublishPrice s data draw bidStorage askStorage =
      { pricestreams :=
          s.pricestreams.assign (HasProductId.GetProductId data.product)
            ⟨data.product, bidStorage, askStorage⟩
        notified := s.notified ++
          [⟨⟨data.product, bidStorage, askStorage⟩,
            s.pricestreams.assign (HasProductId.GetProductId data.product)
              ⟨data.product, bidStorage, askStorage⟩⟩] } := rfl

/-- C17: the code does not do what the claim says. The constructor of `PriceStreamOrder`
writes none of its members, so the bid and offer orders of the stream that `PublishPrice`
stores carry the price and the side that their storage held before, whatever the mid and
the spread. For mid 100, spread 2 and storage holding price 42 and side `BID`, the stored
quote reads bid price 42 and ask price 42 instead of 99 and 101, and the side of its
offer order is `BID`. -/
theorem C17_PublishPrice_prices_not_set :
    (∀ (s : AlgoStreamingService Product) (data : Price Product) (draw : Draw)
        (bidStorage askStorage : PriceStreamOrder),
      ∃ ps : PriceStream Product,
        (PublishPrice s data draw bidStorage askStorage).pricestreams
          (HasProductId.GetProductId data.product) = some ps ∧
        ps.GetBidOrder.GetPrice = bidStorage.price ∧
        ps.GetOfferOrder.GetPrice = askStorage.price ∧
        ps.GetBidOrder.GetSide = bidStorage.side ∧
        ps.GetOfferOrder.GetSide = askStorage.side) ∧
    samplePrice.mid - samplePrice.bidOfferSpread / 2 = 99 ∧
    samplePrice.mid + samplePrice.bidOfferSpread / 2 = 101 ∧
    ∃ ps : PriceStream Product,
      (PublishPrice new samplePrice sampleDraw staleStorage staleStorage).pricestreams "X"
        = some ps ∧
      ps.GetBidOrder.GetPrice = 42 ∧ ps.GetOfferOrder.GetPrice = 42 ∧
      ps.GetOfferOrder.GetSide = PricingSide.BID := by
  refine ⟨?_, by norm_num [samplePrice], by norm_num [samplePrice], ?_⟩
  · intro s data draw bidStorage askStorage
    refine ⟨⟨data.product, bidStorage, askStorage⟩, ?_, rfl, rfl, rfl, rfl⟩
    rw [PublishPrice_eq]
    exact StringMap.assign_same _ _ _
  · refine ⟨⟨samplePrice.product, staleStorage, staleStorage⟩, ?_, rfl, rfl, rfl⟩
    rw [PublishPrice_eq]
    exact StringMap.assign_same new.pricestreams "X" _

/-- C18: the code does not do what the claim says. The constructor of `PriceStreamOrder`
writes none of its members, so the two orders of the stream that `PublishPrice` stores
carry the quantities that their storage held before, whatever value is drawn. For the
drawn value 1500000 and storage holding visible quantity 7 and hidden quantity 5, both
orders have the visible quantity 7, outside the range of the draw, and the hidden
quantity 5, which is not twice 7. -/
theorem C18_PublishPrice_quantities_not_set :
    (∀ (s : AlgoStreamingService Product) (data : Price Product) (draw : Draw)
        (bidStorage askStorage : PriceStreamOrder),
      ∃ ps : PriceStream Product,
        (PublishPrice s data draw bidStorage askStorage).pricestreams
          (HasProductId.GetProductId data.product) = some ps ∧
        ps.GetBidOrder.GetVisibleQuantity = bidStorage.visibleQuantity ∧
        ps.GetBidOrder.GetHiddenQuantity = bidStorage.hiddenQuantity ∧
        ps.GetOfferOrder.GetVisibleQuantity = askStorage.visibleQuantity ∧
        ps.GetOfferOrder.GetHiddenQuantity = askStorage.hiddenQuantity) ∧
    sampleDraw.value = 1500000 ∧
    ∃ ps : PriceStream Product,
      (PublishPrice new samplePrice sampleDraw staleStorage staleStorage).pricestreams "X"
        = some ps ∧
      ps.GetBidOrder.GetVisibleQuantity = 7 ∧ ps.GetOfferOrder.GetVisibleQuantity = 7 ∧
      ps.GetBidOrder.GetVisibleQuantity ≠ sampleDraw.value ∧
      ¬ (1000000 ≤ ps.GetBidOrder.GetVisibleQuantity) ∧
      ps.GetBidOrder.GetHiddenQuantity = 5 ∧ ps.GetOfferOrder.GetHiddenQuantity = 5 ∧
      ps.GetBidOrder.GetHiddenQuantity ≠ 2 * ps.GetBidOrder.GetVisibleQuantity := by
  refine ⟨?_, rfl, ?_⟩
  · intro s data draw bidStorage askStorage
    refine ⟨⟨data.product, bidStorage, askStorage⟩, ?_, rfl, rfl, rfl, rfl⟩
    rw [PublishPrice_eq]
    exact StringMap.assign_same _ _ _
  · refine ⟨⟨samplePrice.product, staleStorage, staleStorage⟩, ?_, rfl, rfl, ?_, ?_, rfl,
      rfl, ?_⟩
    · rw [PublishPrice_eq]
      exact StringMap.assign_same new.pricestreams "X" _
    · decide
    · decide
    · decide

/-- C19: for every state and every price for the product id `k`, after `PublishPrice` the
store maps `k` to the newly built `PriceStream`, the entries of all other product ids are
unchanged, and exactly one notification has been added, whose payload is the stored
`PriceStream`. -/
theorem C19_PublishPrice_store_and_notify {V : Type} [HasProductId V]
    (s : AlgoStreamingService V) (data : Price V) (draw : Draw)
    (bidStorage askStorage : PriceStreamOrder) :
    ∃ ps : PriceStream V,
      ps = ⟨data.product,
        PriceStreamOrder.ctor bidStorage (data.mid - data.bidOfferSpread / 2) draw.value
          (2 * draw.value) PricingSide.BID,
        PriceStreamOrder.ctor askStorage (data.mid + data.bidOfferSpread / 2) draw.value
          (2 * draw.value) PricingSide.OFFER⟩ ∧
      (PublishPrice s data draw bidStorage askStorage).pricestreams
        (HasProductId.GetProductId data.product) = some ps ∧
      (∀ k : String, k ≠ HasProductId.GetProductId data.product →
        (PublishPrice s data draw bidStorage askStorage).pricestreams k
          = s.pricestreams k) ∧
      (PublishPrice s data draw bidStorage askStorage).notified
        = s.notified ++
          [⟨ps, (PublishPrice s data draw bidStorage askStorage).pricestreams⟩] := by
  refine ⟨_, rfl, ?_, ?_, rfl⟩
  · exact StringMap.assign_same _ _ _
  · intro k hk
    exact StringMap.assign_other _ _ _ _ hk

/-- C19 at a service that already holds a quote for "X" and one for "Y", publishing the
sample price for "X". -/
theorem C19_PublishPrice_store_and_notify_witness :
    ∃ ps : PriceStream Product,
      (PublishPrice
        ((new.OnMessage ⟨⟨"X", ProductType.BOND⟩, default, default⟩).OnMessage
          ⟨⟨"Y", ProductType.BOND⟩, default, default⟩)
        samplePrice sampleDraw staleStorage staleStorage).pricestreams "X" = some ps ∧
      (PublishPrice
        ((new.OnMessage ⟨⟨"X", ProductType.BOND⟩, default, default⟩).OnMessage
          ⟨⟨"Y", ProductType.BOND⟩, default, default⟩)
        samplePrice sampleDraw staleStorage staleStorage).pricestreams "Y"
        = ((new.OnMessage ⟨⟨"X", ProductType.BOND⟩, default, default⟩).OnMessage
          ⟨⟨"Y", ProductType.BOND⟩, default, default⟩).pricestreams "Y" ∧
      (PublishPrice
        ((new.OnMessage ⟨⟨"X", ProductType.BOND⟩, default, default⟩).OnMessage
          ⟨⟨"Y", ProductType.BOND⟩, default, default⟩)
        samplePrice sampleDraw staleStorage staleStorage).notified
        = ((new.OnMessage ⟨⟨"X", ProductType.BOND⟩, default, default⟩).OnMessage
            ⟨⟨"Y", ProductType.BOND⟩, default, default⟩).notified ++
          [⟨ps, (PublishPrice
            ((new.OnMessage ⟨⟨"X", ProductType.BOND⟩, default, default⟩).OnMessage
              ⟨⟨"Y", ProductType.BOND⟩, default, default⟩)
            samplePrice sampleDraw staleStorage staleStorage).pricestreams⟩] :=
  (C19_PublishPrice_store_and_notify
    ((new.OnMessage ⟨⟨"X", ProductType.BOND⟩, default, default⟩).OnMessage
      ⟨⟨"Y", ProductType.BOND⟩, default, default⟩)
    samplePrice sampleDraw staleStorage staleStorage).elim
    (fun ps h => ⟨ps, h.2.1, h.2.2.1 "Y" (by decide), h.2.2.2⟩)

end AlgoStreamingService

/-! ## Inquiries -/

namespace InquiryService

/-- What `OnMessage` does with an inquiry in state `RECEIVED`. -/
theorem OnMessage_of_received {T : Type} [Inhabited T] (s : InquiryService T)
    (q : Inquiry T) (h : q.state = InquiryState.RECEIVED) :
    OnMessage s q =
      ({ inquiries := s.inquiries.assign q.inquiryId (q.SetPrice 100)
         notified := s.notified ++
           [⟨q, s.inquiries.assign q.inquiryId (q.SetPrice 100)⟩] }, q) := by
  have h1 : (s.inquiries.assign q.inquiryId q).index q.inquiryId
      = (s.inquiries.assign q.inquiryId q, q) :=
    StringMap.index_of_some _ _ _ (StringMap.assign_same _ _ _)
  have h2 : (s.inquiries.assign q.inquiryId q).assign q.inquiryId (q.SetPrice 100)
      = s.inquiries.assign q.inquiryId (q.SetPrice 100) := by
    funext k
    by_cases hk : k = q.inquiryId
    · simp [StringMap.assign, hk]
    · simp [StringMap.assign, hk]
  simp only [OnMessage, h, if_true, SendQuote, h1, h2, Service.Notify]

/-- C20, as stated, fails: after `OnMessage` of the sample inquiry, which is in state
`RECEIVED`, the inquiry stored under its id has the price 100 and is still in state
`RECEIVED`, not `QUOTED`. -/
theorem C20_OnMessage_received_counterexample :
    sampleInquiry.state = InquiryState.RECEIVED ∧
    ((OnMessage (new : InquiryService Product) sampleInquiry).1.inquiries "INQ1")
      = some ⟨"INQ1", ⟨"X", ProductType.BOND⟩, Side.BUY, 1000000, 100,
          InquiryState.RECEIVED⟩ ∧
    ((OnMessage (new : InquiryService Product) sampleInquiry).1.inquiries "INQ1").map
        Inquiry.state ≠ some InquiryState.QUOTED := by
  have h := OnMessage_of_received (new : InquiryService Product) sampleInquiry rfl
  have hs : ((OnMessage (new : InquiryService Product) sampleInquiry).1.inquiries "INQ1")
      = some ⟨"INQ1", ⟨"X", ProductType.BOND⟩, Side.BUY, 1000000, 100,
          InquiryState.RECEIVED⟩ := by
    rw [h]
    exact StringMap.assign_same new.inquiries "INQ1" _
  refine ⟨rfl, hs, ?_⟩
  rw [hs]
  decide

/-- C20, amended: for every state and every inquiry `q` in state `RECEIVED`, after
`OnMessage(q)` the inquiry stored under the inquiry id of `q` has the price 100 and the
state `RECEIVED`, with inquiry id, product, side and quantity equal to those of `q`. -/
theorem C20_OnMessage_received {T : Type} [Inhabited T] (s : InquiryService T)
    (q : Inquiry T) (h : q.state = InquiryState.RECEIVED) :
    ∃ stored : Inquiry T,
      (OnMessage s q).1.inquiries q.inquiryId = some stored ∧
      stored.state = InquiryState.RECEIVED ∧ stored.price = 100 ∧
      stored.inquiryId = q.inquiryId ∧ stored.product = q.product ∧
      stored.side = q.side ∧ stored.quantity = q.quantity := by
  refine ⟨q.SetPrice 100, ?_, h, rfl, rfl, rfl, rfl, rfl⟩
  rw [OnMessage_of_received s q h]
  exact StringMap.assign_same _ _ _

/-- C20, amended, at a freshly constructed service and the sample inquiry. -/
theorem C20_OnMessage_received_witness :
    sampleInquiry.state = InquiryState.RECEIVED ∧
    ∃ stored : Inquiry Product,
      (OnMessage (new : InquiryService Product) sampleInquiry).1.inquiries
        sampleInquiry.inquiryId = some stored ∧
      stored.state = InquiryState.RECEIVED ∧ stored.price = 100 ∧
      stored.inquiryId = sampleInquiry.inquiryId ∧ stored.product = sampleInquiry.product ∧
      stored.side = sampleInquiry.side ∧ stored.quantity = sampleInquiry.quantity :=
  ⟨rfl, C20_OnMessage_received new sampleInquiry rfl⟩

end InquiryService

/-! ## Inquiries: notification, completion, rejection -/

namespace InquiryService

/-- What `OnMessage` does with an inquiry in state `QUOTED`. -/
theorem OnMessage_of_quoted {T : Type} [Inhabited T] (s : InquiryService T)
    (q : Inquiry T) (h : q.state = InquiryState.QUOTED) :
    OnMessage s q =
      ({ inquiries := s.inquiries.assign q.inquiryId q
         notified := s.notified ++
           [⟨q.SetState InquiryState.DONE, s.inquiries.assign q.inquiryId q⟩] },
        q.SetState InquiryState.DONE) := by
  simp [OnMessage, h, Service.Notify]

/-- What `OnMessage` does with an inquiry in any other state. -/
theorem OnMessage_of_other {T : Type} [Inhabited T] (s : InquiryService T)
    (q : Inquiry T) (h1 : q.state ≠ InquiryState.RECEIVED)
    (h2 : q.state ≠ InquiryState.QUOTED) :
    OnMessage s q = ({ s with inquiries := s.inquiries.assign q.inquiryId q }, q) := by
  simp [OnMessage, h1, h2]

/-- After `OnMessage(q)` the inquiry stored under the id of `q` has the state of `q`. -/
theorem OnMessage_stored_state {T : Type} [Inhabited T] (s : InquiryService T)
    (q : Inquiry T) :
    ∃ stored : Inquiry T,
      (OnMessage s q).1.inquiries q.inquiryId = some stored ∧ stored.state = q.state := by
  by_cases h1 : q.state = InquiryState.RECEIVED
  · refine ⟨q.SetPrice 100, ?_, rfl⟩
    rw [OnMessage_of_received s q h1]
    exact StringMap.assign_same _ _ _
  · by_cases h2 : q.state = InquiryState.QUOTED
    · refine ⟨q, ?_, rfl⟩
      rw [OnMessage_of_quoted s q h2]
      exact StringMap.assign_same _ _ _
    · refine ⟨q, ?_, rfl⟩
      rw [OnMessage_of_other s q h1 h2]
      exact StringMap.assign_same _ _ _

/-- What `RejectInquiry` does on an id that is a key of the store. -/
theorem RejectInquiry_of_some {T : Type} [Inhabited T] (s : InquiryService T)
    (inquiryId : String) (q : Inquiry T) (h : s.inquiries inquiryId = some q) :
    RejectInquiry s inquiryId =
      { s with
        inquiries := s.inquiries.assign inquiryId (q.SetState InquiryState.REJECTED) } := by
  simp [RejectInquiry, StringMap.index_of_some _ _ _ h]

/-- C21: for every inquiry `q` in state `RECEIVED`, `OnMessage(q)` adds exactly one
notification, whose payload is `q` as it was passed in: its state is `RECEIVED`, its price
is the original price of `q`, and all other fields are those of `q`; the quote price 100
is written to the stored copy only. -/
theorem C21_OnMessage_received_notifies_snapshot {T : Type} [Inhabited T]
    (s : InquiryService T) (q : Inquiry T) (h : q.state = InquiryState.RECEIVED) :
    ∃ payload : Inquiry T,
      (OnMessage s q).1.notified
        = s.notified ++ [⟨payload, (OnMessage s q).1.inquiries⟩] ∧
      payload.state = InquiryState.RECEIVED ∧ payload.price = q.price ∧
      payload.inquiryId = q.inquiryId ∧ payload.product = q.product ∧
      payload.side = q.side ∧ payload.quantity = q.quantity ∧
      (OnMessage s q).1.inquiries q.inquiryId = some (q.SetPrice 100) := by
  refine ⟨q, ?_, h, rfl, rfl, rfl, rfl, rfl, ?_⟩
  · rw [OnMessage_of_received s q h]
  · rw [OnMessage_of_received s q h]
    exact StringMap.assign_same _ _ _

/-- C21 at a freshly constructed service and the sample inquiry, which arrives with the
price 0. -/
theorem C21_OnMessage_received_notifies_snapshot_witness :
    sampleInquiry.state = InquiryState.RECEIVED ∧ sampleInquiry.price = 0 ∧
    ∃ payload : Inquiry Product,
      (OnMessage (new : InquiryService Product) sampleInquiry).1.notified
        = (new : InquiryService Product).notified
          ++ [⟨payload, (OnMessage (new : InquiryService Product) sampleInquiry).1.inquiries⟩] ∧
      payload.state = InquiryState.RECEIVED ∧ payload.price = sampleInquiry.price ∧
      payload.inquiryId = sampleInquiry.inquiryId ∧
      payload.product = sampleInquiry.product ∧
      payload.side = sampleInquiry.side ∧ payload.quantity = sampleInquiry.quantity ∧
      (OnMessage (new : InquiryService Product) sampleInquiry).1.inquiries
        sampleInquiry.inquiryId = some (sampleInquiry.SetPrice 100) :=
  ⟨rfl, rfl, C21_OnMessage_received_notifies_snapshot new sampleInquiry rfl⟩

/-- C22: the code does not do what the claim says. For an inquiry `q` in state `QUOTED`,
`OnMessage(q)` stores `q` first and sets the state `DONE` on its argument afterwards: the
inquiry stored under the id of `q`, which `GetData` returns, is `q` itself, in state
`QUOTED`, not `DONE`. -/
theorem C22_OnMessage_quoted_stored_state {T : Type} [Inhabited T]
    (s : InquiryService T) (q : Inquiry T) (h : q.state = InquiryState.QUOTED) :
    (OnMessage s q).1.inquiries q.inquiryId = some q ∧
    (GetData (OnMessage s q).1 q.inquiryId).2 = q ∧
    (GetData (OnMessage s q).1 q.inquiryId).2.state = InquiryState.QUOTED ∧
    (GetData (OnMessage s q).1 q.inquiryId).2.state ≠ InquiryState.DONE := by
  have h1 : (OnMessage s q).1.inquiries q.inquiryId = some q := by
    rw [OnMessage_of_quoted s q h]
    exact StringMap.assign_same _ _ _
  have h2 : (GetData (OnMessage s q).1 q.inquiryId).2 = q := by
    simp [GetData, StringMap.index_of_some _ _ _ h1]
  refine ⟨h1, h2, ?_, ?_⟩
  · rw [h2]; exact h
  · rw [h2, h]; decide

/-- C22 at a freshly constructed service and the sample inquiry in state `QUOTED`. -/
theorem C22_OnMessage_quoted_stored_state_witness :
    sampleQuotedInquiry.state = InquiryState.QUOTED ∧
    (OnMessage (new : InquiryService Product) sampleQuotedInquiry).1.inquiries "INQ2"
      = some sampleQuotedInquiry ∧
    (GetData (OnMessage (new : InquiryService Product) sampleQuotedInquiry).1 "INQ2").2
      = sampleQuotedInquiry ∧
    (GetData (OnMessage (new : InquiryService Product) sampleQuotedInquiry).1 "INQ2").2.state
      = InquiryState.QUOTED ∧
    (GetData (OnMessage (new : InquiryService Product) sampleQuotedInquiry).1 "INQ2").2.state
      ≠ InquiryState.DONE :=
  ⟨rfl, C22_OnMessage_quoted_stored_state new sampleQuotedInquiry rfl⟩

/-- C23: for every inquiry `q` in state `QUOTED`, `OnMessage(q)` adds exactly one
notification, whose payload has the state `DONE` and the inquiry id, product, side,
quantity and price of `q`. -/
theorem C23_OnMessage_quoted_notifies_done {T : Type} [Inhabited T]
    (s : InquiryService T) (q : Inquiry T) (h : q.state = InquiryState.QUOTED) :
    ∃ payload : Inquiry T,
      (OnMessage s q).1.notified
        = s.notified ++ [⟨payload, (OnMessage s q).1.inquiries⟩] ∧
      payload.state = InquiryState.DONE ∧ payload.inquiryId = q.inquiryId ∧
      payload.product = q.product ∧ payload.side = q.side ∧
      payload.quantity = q.quantity ∧ payload.price = q.price := by
  refine ⟨q.SetState InquiryState.DONE, ?_, rfl, rfl, rfl, rfl, rfl, rfl⟩
  rw [OnMessage_of_quoted s q h]

/-- C23 at a freshly constructed service and the sample inquiry in state `QUOTED`. -/
theorem C23_OnMessage_quoted_notifies_done_witness :
    sampleQuotedInquiry.state = InquiryState.QUOTED ∧
    ∃ payload : Inquiry Product,
      (OnMessage (new : InquiryService Product) sampleQuotedInquiry).1.notified
        = (new : InquiryService Product).notified
          ++ [⟨payload,
              (OnMessage (new : InquiryService Product) sampleQuotedInquiry).1.inquiries⟩] ∧
      payload.state = InquiryState.DONE ∧
      payload.inquiryId = sampleQuotedInquiry.inquiryId ∧
      payload.product = sampleQuotedInquiry.product ∧
      payload.side = sampleQuotedInquiry.side ∧
      payload.quantity = sampleQuotedInquiry.quantity ∧
      payload.price = sampleQuotedInquiry.price :=
  ⟨rfl, C23_OnMessage_quoted_notifies_done new sampleQuotedInquiry rfl⟩

/-- C24: for every state and every inquiry id present in the store, whatever the state of
the stored inquiry, after `RejectInquiry(id)` the stored inquiry has the state `REJECTED`,
its inquiry id, product, side, quantity and price are unchanged, every other stored
inquiry is unchanged, and no notification is added. -/
theorem C24_RejectInquiry {T : Type} [Inhabited T] (s : InquiryService T)
    (inquiryId : String) (q : Inquiry T) (h : s.inquiries inquiryId = some q) :
    ∃ stored : Inquiry T,
      (RejectInquiry s inquiryId).inquiries inquiryId = some stored ∧
      stored.state = InquiryState.REJECTED ∧ stored.inquiryId = q.inquiryId ∧
      stored.product = q.product ∧ stored.side = q.side ∧
      stored.quantity = q.quantity ∧ stored.price = q.price ∧
      (∀ k : String, k ≠ inquiryId →
        (RejectInquiry s inquiryId).inquiries k = s.inquiries k) ∧
      (RejectInquiry s inquiryId).notified = s.notified := by
  refine ⟨q.SetState InquiryState.REJECTED, ?_, rfl, rfl, rfl, rfl, rfl, rfl, ?_, ?_⟩
  · rw [RejectInquiry_of_some s inquiryId q h]
    exact StringMap.assign_same _ _ _
  · intro k hk
    rw [RejectInquiry_of_some s inquiryId q h]
    exact StringMap.assign_other _ _ _ _ hk
  · rw [RejectInquiry_of_some s inquiryId q h]

/-- C24 at the service that ingested the inquiry "INQ1" in state `DONE` and then the
inquiry "INQ2" in state `QUOTED`, rejecting "INQ1". -/
theorem C24_RejectInquiry_witness :
    (OnMessage (OnMessage (new : InquiryService Product) sampleDoneInquiry).1
        sampleQuotedInquiry).1.inquiries "INQ1" = some sampleDoneInquiry ∧
    ∃ stored : Inquiry Product,
      (RejectInquiry (OnMessage (OnMessage (new : InquiryService Product)
        sampleDoneInquiry).1 sampleQuotedInquiry).1 "INQ1").inquiries "INQ1"
        = some stored ∧
      stored.state = InquiryState.REJECTED ∧
      stored.inquiryId = sampleDoneInquiry.inquiryId ∧
      stored.product = sampleDoneInquiry.product ∧ stored.side = sampleDoneInquiry.side ∧
      stored.quantity = sampleDoneInquiry.quantity ∧
      stored.price = sampleDoneInquiry.price ∧
      (RejectInquiry (OnMessage (OnMessage (new : InquiryService Product)
        sampleDoneInquiry).1 sampleQuotedInquiry).1 "INQ1").inquiries "INQ2"
        = (OnMessage (OnMessage (new : InquiryService Product) sampleDoneInquiry).1
            sampleQuotedInquiry).1.inquiries "INQ2" ∧
      (RejectInquiry (OnMessage (OnMessage (new : InquiryService Product)
        sampleDoneInquiry).1 sampleQuotedInquiry).1 "INQ1").notified
        = (OnMessage (OnMessage (new : InquiryService Product) sampleDoneInquiry).1
            sampleQuotedInquiry).1.notified :=
  have hs : (OnMessage (OnMessage (new : InquiryService Product) sampleDoneInquiry).1
      sampleQuotedInquiry).1.inquiries "INQ1" = some sampleDoneInquiry := by
    rw [OnMessage_of_quoted _ sampleQuotedInquiry rfl,
      OnMessage_of_other _ sampleDoneInquiry (by decide) (by decide)]
    simp [StringMap.assign, sampleQuotedInquiry, sampleDoneInquiry]
  (C24_RejectInquiry _ "INQ1" sampleDoneInquiry hs).elim
    (fun stored h => ⟨hs, stored, h.1, h.2.1, h.2.2.1, h.2.2.2.1, h.2.2.2.2.1,
      h.2.2.2.2.2.1, h.2.2.2.2.2.2.1, h.2.2.2.2.2.2.2.1 "INQ2" (by decide),
      h.2.2.2.2.2.2.2.2⟩)

/-- C25, as stated, fails: in the service that stores the inquiry "INQ1" in state `DONE`,
`OnMessage` of an inquiry with the same id in state `RECEIVED` replaces the stored
inquiry, which is then in state `RECEIVED`. -/
theorem C25_terminal_state_overwritten_counterexample :
    (OnMessage (new : InquiryService Product) sampleDoneInquiry).1.inquiries "INQ1"
      = some sampleDoneInquiry ∧
    sampleDoneInquiry.state = InquiryState.DONE ∧
    sampleInquiry.inquiryId = "INQ1" ∧
    (OnMessage (OnMessage (new : InquiryService Product) sampleDoneInquiry).1
        sampleInquiry).1.inquiries "INQ1"
      = some ⟨"INQ1", ⟨"X", ProductType.BOND⟩, Side.BUY, 1000000, 100,
          InquiryState.RECEIVED⟩ := by
  refine ⟨?_, rfl, rfl, ?_⟩
  · rw [OnMessage_of_other _ sampleDoneInquiry (by decide) (by decide)]
    exact StringMap.assign_same new.inquiries "INQ1" _
  · rw [OnMessage_of_received _ sampleInquiry rfl]
    exact StringMap.assign_same
      (OnMessage (new : InquiryService Product) sampleDoneInquiry).1.inquiries "INQ1" _

/-- C25, amended: ingestion replaces the stored inquiry. For every state in which the
inquiry stored under the id `k` has the state `DONE`, `REJECTED` or `CUSTOMER_REJECTED`, and
for every inquiry `q` with the inquiry id `k` in a state other than `QUOTED`, after
`OnMessage(q)` the inquiry stored under `k` has the state of `q`; it has the former
terminal state exactly when `q` carries that state. -/
theorem C25_terminal_state_replaced {T : Type} [Inhabited T] (s : InquiryService T)
    (k : String) (old q : Inquiry T) (hold : s.inquiries k = some old)
    (_hterm : old.state = InquiryState.DONE ∨ old.state = InquiryState.REJECTED ∨
      old.state = InquiryState.CUSTOMER_REJECTED)
    (hk : q.inquiryId = k) (hq : q.state ≠ InquiryState.QUOTED) :
    ∃ stored : Inquiry T,
      (OnMessage s q).1.inquiries k = some stored ∧ stored.state = q.state ∧
      (stored.state = old.state ↔ q.state = old.state) := by
  have _ := hold
  by_cases h1 : q.state = InquiryState.RECEIVED
  · refine ⟨q.SetPrice 100, ?_, rfl, Iff.rfl⟩
    rw [OnMessage_of_received s q h1, ← hk]
    exact StringMap.assign_same _ _ _
  · refine ⟨q, ?_, rfl, Iff.rfl⟩
    rw [OnMessage_of_other s q h1 hq, ← hk]
    exact StringMap.assign_same _ _ _

/-- C25, amended, at the service that stores the inquiry "INQ1" in state `DONE`,
ingesting the sample inquiry "INQ1" in state `RECEIVED`. -/
theorem C25_terminal_state_replaced_witness :
    (OnMessage (new : InquiryService Product) sampleDoneInquiry).1.inquiries "INQ1"
      = some sampleDoneInquiry ∧
    (sampleDoneInquiry.state = InquiryState.DONE ∨
      sampleDoneInquiry.state = InquiryState.REJECTED ∨
      sampleDoneInquiry.state = InquiryState.CUSTOMER_REJECTED) ∧
    sampleInquiry.inquiryId = "INQ1" ∧ sampleInquiry.state ≠ InquiryState.QUOTED ∧
    ∃ stored : Inquiry Product,
      (OnMessage (OnMessage (new : InquiryService Product) sampleDoneInquiry).1
        sampleInquiry).1.inquiries "INQ1" = some stored ∧
      stored.state = sampleInquiry.state ∧
      (stored.state = sampleDoneInquiry.state ↔
        sampleInquiry.state = sampleDoneInquiry.state) :=
  have hs : (OnMessage (new : InquiryService Product) sampleDoneInquiry).1.inquiries "INQ1"
      = some sampleDoneInquiry := by
    rw [OnMessage_of_other _ sampleDoneInquiry (by decide) (by decide)]
    exact StringMap.assign_same new.inquiries "INQ1" _
  ⟨hs, Or.inl rfl, rfl, by decide,
    C25_terminal_state_replaced _ "INQ1" sampleDoneInquiry sampleInquiry hs (Or.inl rfl)
      rfl (by decide)⟩

end InquiryService

/-! ## The constructor of `PriceStreamOrder` -/

/-- C29: the code does not do what the claim says. The constructor assigns each parameter
to itself and writes no member, so the getters of the object built by
`PriceStreamOrder(p, v, h, s)` return what the storage of the object held before, whatever
`p`, `v`, `h` and `s` are. Built with price 99, visible quantity 1000000, hidden quantity
2000000 and side `OFFER` on storage holding 42, 7, 5 and `BID`, the object returns 42, 7,
5 and `BID`. -/
theorem C29_PriceStreamOrder_ctor_writes_nothing :
    (∀ (storage : PriceStreamOrder) (p : ℚ) (v h : ℤ) (s : PricingSide),
      (PriceStreamOrder.ctor storage p v h s).GetPrice = storage.price ∧
      (PriceStreamOrder.ctor storage p v h s).GetVisibleQuantity = storage.visibleQuantity ∧
      (PriceStreamOrder.ctor storage p v h s).GetHiddenQuantity = storage.hiddenQuantity ∧
      (PriceStreamOrder.ctor storage p v h s).GetSide = storage.side) ∧
    (PriceStreamOrder.ctor staleStorage 99 1000000 2000000 PricingSide.OFFER).GetPrice = 42 ∧
    (PriceStreamOrder.ctor staleStorage 99 1000000 2000000
      PricingSide.OFFER).GetVisibleQuantity = 7 ∧
    (PriceStreamOrder.ctor staleStorage 99 1000000 2000000
      PricingSide.OFFER).GetHiddenQuantity = 5 ∧
    (PriceStreamOrder.ctor staleStorage 99 1000000 2000000 PricingSide.OFFER).GetSide
      = PricingSide.BID :=
  ⟨fun _ _ _ _ _ => ⟨rfl, rfl, rfl, rfl⟩, rfl, rfl, rfl, rfl⟩

/-! ## Which operations write to the market data store -/

namespace MarketDataService

theorem GetData_of_some {T : Type} [Inhabited T] (s : MarketDataService T) (key : String)
    (book : OrderBook T) (h : s.orderbooks key = some book) :
    GetData s key = (s, book) := by
  simp [GetData, StringMap.index_of_some _ _ _ h]

theorem GetData_of_none {T : Type} [Inhabited T] (s : MarketDataService T) (key : String)
    (h : s.orderbooks key = none) :
    GetData s key = ({ s with orderbooks := s.orderbooks.assign key default }, default) := by
  simp [GetData, StringMap.index_of_none _ _ h]

theorem GetBestBidOffer_state_of_some {T : Type} [Inhabited T] (s : MarketDataService T)
    (productId : String) (book : OrderBook T) (h : s.orderbooks productId = some book) :
    (GetBestBidOffer s productId).1 = s := by
  unfold GetBestBidOffer
  simp only [StringMap.index_of_some _ _ _ h]
  split
  · rfl
  · split
    · rfl
    · split
      · rfl
      · split <;> rfl

/-- C30, as stated, fails: on a freshly constructed service, in which "X" is not a key,
`GetData("X")` makes "X" a key of the store, holding a default book; so does
`GetBestBidOffer("X")`. -/
theorem C30_queries_write_counterexample :
    (new : MarketDataService Product).orderbooks "X" = none ∧
    (GetData (new : MarketDataService Product) "X").1.orderbooks "X"
      = some ⟨⟨"", ProductType.IRSWAP⟩, [], []⟩ ∧
    (GetBestBidOffer (new : MarketDataService Product) "X").1.orderbooks "X"
      = some ⟨⟨"", ProductType.IRSWAP⟩, [], []⟩ := by
  refine ⟨rfl, ?_, ?_⟩
  · rw [GetData_of_none _ _ rfl]
    exact StringMap.assign_same new.orderbooks "X" _
  · rw [GetBestBidOffer_of_none _ _ rfl]
    exact StringMap.assign_same new.orderbooks "X" _

/-- C30, amended: `AggregateDepth` leaves the service unchanged for every product id,
whether it returns or fails; `GetData` and `GetBestBidOffer` leave it unchanged for every
product id that is a key of the store; for a product id that is not a key, `GetData`
registers the id with a default book, with empty stacks, and leaves the books stored under
all other ids unchanged. -/
theorem C30_queries_frame {T : Type} [Inhabited T] (order : BucketOrder)
    (s : MarketDataService T) (productId : String) :
    (AggregateDepth order s productId).1 = s ∧
    (∀ book : OrderBook T, s.orderbooks productId = some book →
      (GetData s productId).1 = s ∧ (GetBestBidOffer s productId).1 = s) ∧
    (s.orderbooks productId = none →
      (GetData s productId).1.orderbooks productId = some ⟨default, [], []⟩ ∧
      ∀ k : String, k ≠ productId →
        (GetData s productId).1.orderbooks k = s.orderbooks k) := by
  refine ⟨?_, ?_, ?_⟩
  · cases h : s.orderbooks productId with
    | none => rw [AggregateDepth_of_none order s productId h]
    | some book => rw [AggregateDepth_of_some order s productId book h]
  · intro book h
    exact ⟨by rw [GetData_of_some s productId book h],
      GetBestBidOffer_state_of_some s productId book h⟩
  · intro h
    rw [GetData_of_none s productId h]
    refine ⟨StringMap.assign_same _ _ _, ?_⟩
    intro k hk
    exact StringMap.assign_other _ _ _ _ hk

/-- C30, amended, at the sample service: "X" is a key, "Z" is not. -/
theorem C30_queries_frame_witness :
    sampleService.orderbooks "X" = some sampleBook ∧
    (AggregateDepth BucketOrder.insertion sampleService "X").1 = sampleService ∧
    (GetData sampleService "X").1 = sampleService ∧
    (GetBestBidOffer sampleService "X").1 = sampleService ∧
    sampleService.orderbooks "Z" = none ∧
    (AggregateDepth BucketOrder.insertion sampleService "Z").1 = sampleService ∧
    (GetData sampleService "Z").1.orderbooks "Z" = some ⟨default, [], []⟩ ∧
    (GetData sampleService "Z").1.orderbooks "X" = sampleService.orderbooks "X" :=
  ⟨sampleService_X,
    (C30_queries_frame BucketOrder.insertion sampleService "X").1,
    ((C30_queries_frame BucketOrder.insertion sampleService "X").2.1 sampleBook
      sampleService_X).1,
    ((C30_queries_frame BucketOrder.insertion sampleService "X").2.1 sampleBook
      sampleService_X).2,
    sampleService_Z,
    (C30_queries_frame BucketOrder.insertion sampleService "Z").1,
    ((C30_queries_frame BucketOrder.insertion sampleService "Z").2.2 sampleService_Z).1,
    ((C30_queries_frame BucketOrder.insertion sampleService "Z").2.2 sampleService_Z).2 "X"
      (by decide)⟩

end MarketDataService

/-! ## The product services of `HW2/Problem2&3` -/

namespace HW2

theorem EntryMap.find_place {V : Type} (m : EntryMap V) (k : String) (v : V)
    (h : m.find k = none) : (EntryMap.place m k v).find k = some v := by
  induction m with
  | nil => simp [EntryMap.place, EntryMap.find]
  | cons x m ih =>
    obtain ⟨k', v'⟩ := x
    have hk : k' ≠ k := by
      intro hkk
      simp [EntryMap.find, List.find?_cons, hkk] at h
    have hm : EntryMap.find m k = none := by
      simpa [EntryMap.find, List.find?_cons, hk] using h
    by_cases hlt : k < k'
    · simp [EntryMap.place, hlt, EntryMap.find, List.find?_cons]
    · have ih' := ih hm
      simp only [EntryMap.find] at ih'
      simp [EntryMap.place, hlt, EntryMap.find, List.find?_cons, hk, ih']

theorem EntryMap.insert_of_none {V : Type} (m : EntryMap V) (k : String) (v : V)
    (h : m.find k = none) : (m.insert k v).index k = Outcome.returned v := by
  simp [EntryMap.insert, h, EntryMap.index, EntryMap.find_place m k v h]

theorem EntryMap.insert_of_some {V : Type} (m : EntryMap V) (k : String) (v old : V)
    (h : m.find k = some old) : m.insert k v = m := by
  simp [EntryMap.insert, h]

theorem EntryMap.foldl_select {V : Type} (test : V → Bool) (m : EntryMap V) :
    ∀ acc : List V,
      m.foldl (fun result pair => if test pair.2 then result ++ [pair.2] else result) acc
        = acc ++ (m.map Prod.snd).filter test := by
  induction m with
  | nil => intro acc; simp
  | cons x m ih =>
    intro acc
    by_cases hx : test x.2
    · simp [List.foldl_cons, hx, ih, List.filter_cons]
    · simp [List.foldl_cons, hx, ih, List.filter_cons]

theorem EntryMap.select_eq_filter {V : Type} (m : EntryMap V) (test : V → Bool) :
    m.select test = (m.map Prod.snd).filter test := by
  simpa [EntryMap.select] using EntryMap.foldl_select test m []

theorem exactlyThose_filter {V : Type} [DecidableEq V] (stored : List V) (p : V → Prop)
    [DecidablePred p] : ExactlyThose stored (stored.filter (fun x => decide (p x))) p := by
  constructor
  · intro x hx
    simpa using (List.mem_filter.mp hx).2
  · intro x hx
    rw [List.count_filter]
    simpa using hx

/-- C26, as stated, fails: in a `BondProductService` that already holds a bond under the
identifier "912828M56", `Add` of the 10Y note with that identifier changes nothing, and
`GetData("912828M56")` returns the bond held before, whose coupon is 3/4 and not 9/4. -/
theorem C26_Add_GetData_counterexample :
    treasuryBond.toProduct.GetProductId = "912828M56" ∧
    ((BondProductService.new.Add otherBond).Add treasuryBond).GetData "912828M56"
      = (BondProductService.new.Add otherBond, Outcome.returned otherBond) ∧
    otherBond ≠ treasuryBond := by
  refine ⟨rfl, ?_, ?_⟩
  swap
  · intro h
    have hc := congrArg Bond.coupon h
    norm_num [otherBond, treasuryBond, Bond.ctor] at hc
  have h1 : (BondProductService.new.Add otherBond).bondMap.find "912828M56"
      = some otherBond := by
    simp [BondProductService.Add, BondProductService.new, EntryMap.insert, EntryMap.find,
      EntryMap.place, otherBond, Bond.ctor, Product.GetProductId]
  have h2 : (BondProductService.new.Add otherBond).Add treasuryBond
      = BondProductService.new.Add otherBond := by
    have hid : treasuryBond.toProduct.GetProductId = "912828M56" := rfl
    simp only [BondProductService.Add, hid] at h1 ⊢
    rw [EntryMap.insert_of_some _ _ treasuryBond otherBond h1]
  rw [h2]
  simp [BondProductService.GetData, EntryMap.index, h1]

/-- C26, amended: for every `BondProductService` state in which the product id of a bond
`b` is not a key, after `Add(b)` the call `GetData(b.GetProductId())` returns `b`; likewise
for `IRSwapProductService::Add`, `FutureProductService::add`,
`EDFutureProductService::add` and `BondFutureProductService::add` with their `GetData`. -/
theorem C26_Add_GetData_round_trip :
    (∀ (s : BondProductService) (b : Bond),
      s.bondMap.find b.toProduct.GetProductId = none →
      ((s.Add b).GetData b.toProduct.GetProductId).2 = Outcome.returned b) ∧
    (∀ (s : IRSwapProductService) (x : IRSwap),
      s.swapMap.find x.toProduct.GetProductId = none →
      ((s.Add x).GetData x.toProduct.GetProductId).2 = Outcome.returned x) ∧
    (∀ (s : FutureProductService) (f : Future),
      s.futureMap.find f.toProduct.GetProductId = none →
      ((s.add f).GetData f.toProduct.GetProductId).2 = Outcome.returned f) ∧
    (∀ (s : EDFutureProductService) (f : EuroDollarFuture),
      s.edFutureMap.find f.toProduct.GetProductId = none →
      ((s.add f).GetData f.toProduct.GetProductId).2 = Outcome.returned f) ∧
    (∀ (s : BondFutureProductService) (f : BondFuture),
      s.bondFutureMap.find f.toProduct.GetProductId = none →
      ((s.add f).GetData f.toProduct.GetProductId).2 = Outcome.returned f) := by
  refine ⟨?_, ?_, ?_, ?_, ?_⟩
  · intro s b h
    exact EntryMap.insert_of_none s.bondMap _ b h
  · intro s x h
    exact EntryMap.insert_of_none s.swapMap _ x h
  · intro s f h
    exact EntryMap.insert_of_none s.futureMap _ f h
  · intro s f h
    exact EntryMap.insert_of_none s.edFutureMap _ f h
  · intro s f h
    exact EntryMap.insert_of_none s.bondFutureMap _ f h

/-- C26, amended, at the objects of the test program, each added to an empty service. -/
theorem C26_Add_GetData_round_trip_witness :
    ((BondProductService.new.Add treasuryBond).GetData "912828M56").2
      = Outcome.returned treasuryBond ∧
    ((IRSwapProductService.new.Add outright10YSwap).GetData "Spot-Outright-10Y").2
      = Outcome.returned outright10YSwap ∧
    ((FutureProductService.new.add sampleFuture).GetData "FUT001").2
      = Outcome.returned sampleFuture ∧
    ((EDFutureProductService.new.add sampleEuroDollarFuture).GetData "EDF001").2
      = Outcome.returned sampleEuroDollarFuture ∧
    ((BondFutureProductService.new.add sampleBondFuture).GetData "BF001").2
      = Outcome.returned sampleBondFuture :=
  ⟨C26_Add_GetData_round_trip.1 BondProductService.new treasuryBond rfl,
    C26_Add_GetData_round_trip.2.1 IRSwapProductService.new outright10YSwap rfl,
    C26_Add_GetData_round_trip.2.2.1 FutureProductService.new sampleFuture rfl,
    C26_Add_GetData_round_trip.2.2.2.1 EDFutureProductService.new sampleEuroDollarFuture rfl,
    C26_Add_GetData_round_trip.2.2.2.2 BondFutureProductService.new sampleBondFuture rfl⟩

end HW2

/-! ## The filters of `IRSwapProductService` -/

namespace HW2

namespace IRSwapProductService

theorem select_exactly (s : IRSwapProductService) (p : IRSwap → Prop) [DecidablePred p] :
    s.swapMap.select (fun x => decide (p x)) = s.stored.filter (fun x => decide (p x)) ∧
    ExactlyThose s.stored (s.swapMap.select (fun x => decide (p x))) p := by
  have h := EntryMap.select_eq_filter s.swapMap (fun x => decide (p x))
  refine ⟨h, ?_⟩
  rw [h]
  exact exactlyThose_filter s.stored p

/-- C27: for every state and each of the five equality filters, the call leaves the
service unchanged and returns the stored swaps, in the order of traversal, whose fixed-leg
day count convention, fixed-leg payment frequency, floating index, swap type or swap leg
type equals the argument: every returned swap has the attribute, and every swap that has
it is returned as often as it is stored. -/
theorem C27_GetSwaps_equality_filters (s : IRSwapProductService) :
    (∀ a : DayCountConvention,
      (s.GetSwaps_DayCountConvention a).1 = s ∧
      (s.GetSwaps_DayCountConvention a).2
        = s.stored.filter (fun x => decide (x.GetFixedLegDayCountConvention = a)) ∧
      ExactlyThose s.stored (s.GetSwaps_DayCountConvention a).2
        (fun x => x.GetFixedLegDayCountConvention = a)) ∧
    (∀ a : PaymentFrequency,
      (s.GetSwaps_PaymentFrequency a).1 = s ∧
      (s.GetSwaps_PaymentFrequency a).2
        = s.stored.filter (fun x => decide (x.GetFixedLegPaymentFrequency = a)) ∧
      ExactlyThose s.stored (s.GetSwaps_PaymentFrequency a).2
        (fun x => x.GetFixedLegPaymentFrequency = a)) ∧
    (∀ a : FloatingIndex,
      (s.GetSwaps_FloatingIndex a).1 = s ∧
      (s.GetSwaps_FloatingIndex a).2
        = s.stored.filter (fun x => decide (x.GetFloatingIndex = a)) ∧
      ExactlyThose s.stored (s.GetSwaps_FloatingIndex a).2
        (fun x => x.GetFloatingIndex = a)) ∧
    (∀ a : SwapType,
      (s.GetSwaps_SwapType a).1 = s ∧
      (s.GetSwaps_SwapType a).2 = s.stored.filter (fun x => decide (x.GetSwapType = a)) ∧
      ExactlyThose s.stored (s.GetSwaps_SwapType a).2 (fun x => x.GetSwapType = a)) ∧
    (∀ a : SwapLegType,
      (s.GetSwaps_SwapLegType a).1 = s ∧
      (s.GetSwaps_SwapLegType a).2
        = s.stored.filter (fun x => decide (x.GetSwapLegType = a)) ∧
      ExactlyThose s.stored (s.GetSwaps_SwapLegType a).2
        (fun x => x.GetSwapLegType = a)) := by
  refine ⟨?_, ?_, ?_, ?_, ?_⟩
  · intro a
    exact ⟨rfl, (select_exactly s (fun x => x.GetFixedLegDayCountConvention = a)).1,
      (select_exactly s (fun x => x.GetFixedLegDayCountConvention = a)).2⟩
  · intro a
    exact ⟨rfl, (select_exactly s (fun x => x.GetFixedLegPaymentFrequency = a)).1,
      (select_exactly s (fun x => x.GetFixedLegPaymentFrequency = a)).2⟩
  · intro a
    exact ⟨rfl, (select_exactly s (fun x => x.GetFloatingIndex = a)).1,
      (select_exactly s (fun x => x.GetFloatingIndex = a)).2⟩
  · intro a
    exact ⟨rfl, (select_exactly s (fun x => x.GetSwapType = a)).1,
      (select_exactly s (fun x => x.GetSwapType = a)).2⟩
  · intro a
    exact ⟨rfl, (select_exactly s (fun x => x.GetSwapLegType = a)).1,
      (select_exactly s (fun x => x.GetSwapLegType = a)).2⟩

/-- C28: for every state and integer `n`, `GetSwapsGreaterThan(n)` returns exactly the
stored swaps whose term in years is greater than `n` and `GetSwapsLessThan(n)` exactly
those whose term is less than `n`, both leaving the service unchanged; a swap with the term
`n` is in neither result, no swap is in both, and every stored swap with a term different
from `n` is in exactly one of them. -/
theorem C28_GetSwaps_term_filters (s : IRSwapProductService) (n : ℤ) :
    (s.GetSwapsGreaterThan n).1 = s ∧ (s.GetSwapsLessThan n).1 = s ∧
    (s.GetSwapsGreaterThan n).2 = s.stored.filter (fun x => decide (x.GetTermYears > n)) ∧
    (s.GetSwapsLessThan n).2 = s.stored.filter (fun x => decide (x.GetTermYears < n)) ∧
    ExactlyThose s.stored (s.GetSwapsGreaterThan n).2 (fun x => x.GetTermYears > n) ∧
    ExactlyThose s.stored (s.GetSwapsLessThan n).2 (fun x => x.GetTermYears < n) ∧
    (∀ x : IRSwap, x.GetTermYears = n →
      x ∉ (s.GetSwapsGreaterThan n).2 ∧ x ∉ (s.GetSwapsLessThan n).2) ∧
    (∀ x : IRSwap, ¬ (x ∈ (s.GetSwapsGreaterThan n).2 ∧ x ∈ (s.GetSwapsLessThan n).2)) ∧
    (∀ x ∈ s.stored, x.GetTermYears ≠ n →
      (x ∈ (s.GetSwapsGreaterThan n).2 ∧ x ∉ (s.GetSwapsLessThan n).2) ∨
      (x ∉ (s.GetSwapsGreaterThan n).2 ∧ x ∈ (s.GetSwapsLessThan n).2)) := by
  have hg := select_exactly s (fun x => x.GetTermYears > n)
  have hl := select_exactly s (fun x => x.GetTermYears < n)
  have mg : ∀ x : IRSwap,
      x ∈ (s.GetSwapsGreaterThan n).2 ↔ x ∈ s.stored ∧ x.GetTermYears > n := by
    intro x
    have : (s.GetSwapsGreaterThan n).2
        = s.stored.filter (fun x => decide (x.GetTermYears > n)) := hg.1
    rw [this, List.mem_filter]
    simp
  have ml : ∀ x : IRSwap,
      x ∈ (s.GetSwapsLessThan n).2 ↔ x ∈ s.stored ∧ x.GetTermYears < n := by
    intro x
    have : (s.GetSwapsLessThan n).2
        = s.stored.filter (fun x => decide (x.GetTermYears < n)) := hl.1
    rw [this, List.mem_filter]
    simp
  refine ⟨rfl, rfl, hg.1, hl.1, hg.2, hl.2, ?_, ?_, ?_⟩
  · intro x hx
    rw [mg, ml]
    constructor
    · rintro ⟨_, h⟩; omega
    · rintro ⟨_, h⟩; omega
  · intro x
    rw [mg, ml]
    rintro ⟨⟨_, h1⟩, ⟨_, h2⟩⟩
    omega
  · intro x hx hne
    rw [mg, ml]
    rcases lt_or_gt_of_ne hne with h | h
    · right
      exact ⟨fun h' => by have := h'.2; omega, hx, h⟩
    · left
      exact ⟨⟨hx, h⟩, fun h' => by have := h'.2; omega⟩

/-- C28 at the swap service of the test program, which holds a swap of 10 years and one
of 2 years: with `n = 5` the first is in the greater-than result only and the second in
the less-than result only; with `n = 2` the second is in neither. -/
theorem C28_GetSwaps_term_filters_witness :
    sampleSwapService.stored = [imm2YSwap, outright10YSwap] ∧
    (sampleSwapService.GetSwapsGreaterThan 5).2 = [outright10YSwap] ∧
    (sampleSwapService.GetSwapsLessThan 5).2 = [imm2YSwap] ∧
    (imm2YSwap ∉ (sampleSwapService.GetSwapsGreaterThan 2).2 ∧
      imm2YSwap ∉ (sampleSwapService.GetSwapsLessThan 2).2) ∧
    ((outright10YSwap ∈ (sampleSwapService.GetSwapsGreaterThan 5).2 ∧
        outright10YSwap ∉ (sampleSwapService.GetSwapsLessThan 5).2) ∨
      (outright10YSwap ∉ (sampleSwapService.GetSwapsGreaterThan 5).2 ∧
        outright10YSwap ∈ (sampleSwapService.GetSwapsLessThan 5).2)) :=
  have hst : sampleSwapService.stored = [imm2YSwap, outright10YSwap] := by
    have hlt : "IMM-Outright-2Y" < "Spot-Outright-10Y" := by
      rw [String.lt_iff_toList_lt]; decide
    have hid1 : outright10YSwap.toProduct.GetProductId = "Spot-Outright-10Y" := rfl
    have hid2 : imm2YSwap.toProduct.GetProductId = "IMM-Outright-2Y" := rfl
    simp only [sampleSwapService, IRSwapProductService.Add, IRSwapProductService.new,
      IRSwapProductService.stored, hid1, hid2]
    simp [EntryMap.insert, EntryMap.find, EntryMap.place, hlt]
  have h10 : outright10YSwap.GetTermYears = 10 := rfl
  have h2 : imm2YSwap.GetTermYears = 2 := rfl
  ⟨hst,
    by
      rw [(C28_GetSwaps_term_filters sampleSwapService 5).2.2.1, hst]
      simp [List.filter_cons, h10, h2],
    by
      rw [(C28_GetSwaps_term_filters sampleSwapService 5).2.2.2.1, hst]
      simp [List.filter_cons, h10, h2],
    (C28_GetSwaps_term_filters sampleSwapService 2).2.2.2.2.2.2.1 imm2YSwap rfl,
    (C28_GetSwaps_term_filters sampleSwapService 5).2.2.2.2.2.2.2.2 outright10YSwap
      (by rw [hst]; simp) (by rw [h10]; decide)⟩

end IRSwapProductService

end HW2

/-! ## Best bid and offer: ties and order of the input -/

namespace MarketDataService

/-- The scan for the best bid returns the first order, of the running best followed by
the scanned orders, that attains the maximum price. -/
theorem scanBid_first (l : List Order) :
    ∀ b : Order, ∃ pre post : List Order,
      b :: l = pre ++ scanBid l b :: post ∧
      (∀ e ∈ pre, e.price < (scanBid l b).price) ∧
      (∀ e ∈ post, e.price ≤ (scanBid l b).price) := by
  induction l with
  | nil =>
    intro b
    exact ⟨[], [], rfl, fun e he => absurd he (List.not_mem_nil e),
      fun e he => absurd he (List.not_mem_nil e)⟩
  | cons x l ih =>
    intro b
    have hs : scanBid (x :: l) b = scanBid l (if x.price > b.price then x else b) := rfl
    by_cases hc : x.price > b.price
    · have hs1 : scanBid (x :: l) b = scanBid l x := by rw [hs]; simp [hc]
      obtain ⟨pre, post, h1, h2, h3⟩ := ih x
      rw [hs1]
      refine ⟨b :: pre, post, by rw [h1]; rfl, ?_, h3⟩
      intro e he
      rcases List.mem_cons.mp he with rfl | he
      · exact lt_of_lt_of_le hc (scanBid_init_le l x)
      · exact h2 e he
    · have hs1 : scanBid (x :: l) b = scanBid l b := by rw [hs]; simp [hc]
      obtain ⟨pre, post, h1, h2, h3⟩ := ih b
      rw [hs1]
      cases pre with
      | nil =>
        simp only [List.nil_append, List.cons.injEq] at h1
        refine ⟨[], x :: l, by rw [← h1.1]; rfl,
          fun e he => absurd he (List.not_mem_nil e), ?_⟩
        intro e he
        rcases List.mem_cons.mp he with rfl | he
        · rw [← h1.1]; exact not_lt.mp hc
        · rw [h1.2] at he
          exact h3 e he
      | cons p pre =>
        simp only [List.cons_append, List.cons.injEq] at h1
        obtain ⟨hp, hl⟩ := h1
        subst hp
        refine ⟨b :: x :: pre, post, congrArg (fun t => b :: x :: t) hl, ?_, h3⟩
        intro e he
        have hb : b.price < (scanBid l b).price := h2 b (List.mem_cons_self _ _)
        rcases List.mem_cons.mp he with rfl | he
        · exact hb
        · rcases List.mem_cons.mp he with rfl | he
          · exact lt_of_le_of_lt (not_lt.mp hc) hb
          · exact h2 e (List.mem_cons_of_mem _ he)

/-- The scan for the best offer returns the first order, of the running best followed by
the scanned orders, that attains the minimum price. -/
theorem scanOffer_first (l : List Order) :
    ∀ b : Order, ∃ pre post : List Order,
      b :: l = pre ++ scanOffer l b :: post ∧
      (∀ e ∈ pre, (scanOffer l b).price < e.price) ∧
      (∀ e ∈ post, (scanOffer l b).price ≤ e.price) := by
  induction l with
  | nil =>
    intro b
    exact ⟨[], [], rfl, fun e he => absurd he (List.not_mem_nil e),
      fun e he => absurd he (List.not_mem_nil e)⟩
  | cons x l ih =>
    intro b
    have hs : scanOffer (x :: l) b = scanOffer l (if x.price < b.price then x else b) := rfl
    by_cases hc : x.price < b.price
    · have hs1 : scanOffer (x :: l) b = scanOffer l x := by rw [hs]; simp [hc]
      obtain ⟨pre, post, h1, h2, h3⟩ := ih x
      rw [hs1]
      refine ⟨b :: pre, post, by rw [h1]; rfl, ?_, h3⟩
      intro e he
      rcases List.mem_cons.mp he with rfl | he
      · exact lt_of_le_of_lt (scanOffer_le_init l x) hc
      · exact h2 e he
    · have hs1 : scanOffer (x :: l) b = scanOffer l b := by rw [hs]; simp [hc]
      obtain ⟨pre, post, h1, h2, h3⟩ := ih b
      rw [hs1]
      cases pre with
      | nil =>
        simp only [List.nil_append, List.cons.injEq] at h1
        refine ⟨[], x :: l, by rw [← h1.1]; rfl,
          fun e he => absurd he (List.not_mem_nil e), ?_⟩
        intro e he
        rcases List.mem_cons.mp he with rfl | he
        · rw [← h1.1]; exact not_lt.mp hc
        · rw [h1.2] at he
          exact h3 e he
      | cons p pre =>
        simp only [List.cons_append, List.cons.injEq] at h1
        obtain ⟨hp, hl⟩ := h1
        subst hp
        refine ⟨b :: x :: pre, post, congrArg (fun t => b :: x :: t) hl, ?_, h3⟩
        intro e he
        have hb : (scanOffer l b).price < b.price := h2 b (List.mem_cons_self _ _)
        rcases List.mem_cons.mp he with rfl | he
        · exact hb
        · rcases List.mem_cons.mp he with rfl | he
          · exact lt_of_lt_of_le hb (not_lt.mp hc)
          · exact h2 e (List.mem_cons_of_mem _ he)

/-- Scanning a stack from its own first element: the first step keeps that element. -/
theorem scanBid_self (b : Order) (bs : List Order) : scanBid (b :: bs) b = scanBid bs b := by
  have hs : scanBid (b :: bs) b = scanBid bs (if b.price > b.price then b else b) := rfl
  rw [hs]; simp

theorem scanOffer_self (o : Order) (os : List Order) :
    scanOffer (o :: os) o = scanOffer os o := by
  have hs : scanOffer (o :: os) o = scanOffer os (if o.price < o.price then o else o) := rfl
  rw [hs]; simp

/-- C31: the code does not do what the claim says. For every stored book with non-empty
stacks, the `BidOffer` that `GetBestBidOffer` builds holds the first element of the bid
stack that attains the maximum bid price (every bid before it is priced strictly lower,
every bid after it at most as high) and the first element of the offer stack that attains
the minimum offer price, quantities included; but the call hands back a reference to that
object after it has been destroyed, so no bid and no offer can be read from the result. -/
theorem C31_GetBestBidOffer_first_of_ties_dangling {T : Type} [Inhabited T]
    (s : MarketDataService T) (productId : String) (book : OrderBook T)
    (hs : s.orderbooks productId = some book) (hb : book.bidStack ≠ [])
    (ho : book.offerStack ≠ []) :
    ∃ (r : BidOffer) (bidsBefore bidsAfter offersBefore offersAfter : List Order),
      (GetBestBidOffer s productId).2 = Outcome.returned (Reference.dangling r) ∧
      (Reference.dangling r).read = Outcome.undefined ∧
      book.bidStack = bidsBefore ++ r.bidOrder :: bidsAfter ∧
      (∀ e ∈ bidsBefore, e.price < r.bidOrder.price) ∧
      (∀ e ∈ bidsAfter, e.price ≤ r.bidOrder.price) ∧
      book.offerStack = offersBefore ++ r.offerOrder :: offersAfter ∧
      (∀ e ∈ offersBefore, r.offerOrder.price < e.price) ∧
      (∀ e ∈ offersAfter, r.offerOrder.price ≤ e.price) := by
  obtain ⟨b, bs, hbs⟩ := List.exists_cons_of_ne_nil hb
  obtain ⟨o, os, hos⟩ := List.exists_cons_of_ne_nil ho
  obtain ⟨pre1, post1, h1, h2, h3⟩ := scanBid_first bs b
  obtain ⟨pre2, post2, k1, k2, k3⟩ := scanOffer_first os o
  refine ⟨⟨scanBid (b :: bs) b, scanOffer (o :: os) o⟩, pre1, post1, pre2, post2, ?_, rfl,
    ?_, ?_, ?_, ?_, ?_, ?_⟩
  · rw [GetBestBidOffer_of_cons s productId book b bs o os hs hbs hos]
  · rw [hbs, scanBid_self]; exact h1
  · rw [scanBid_self]; exact h2
  · rw [scanBid_self]; exact h3
  · rw [hos, scanOffer_self]; exact k1
  · rw [scanOffer_self]; exact k2
  · rw [scanOffer_self]; exact k3

/-- C31 at the sample service and product "X", whose book has two bids at the best price
99, with the quantities 100 (first) and 7. -/
theorem C31_GetBestBidOffer_first_of_ties_dangling_witness :
    sampleService.orderbooks "X" = some sampleBook ∧
    sampleBook.bidStack ≠ [] ∧ sampleBook.offerStack ≠ [] ∧
    (GetBestBidOffer sampleService "X").2
      = Outcome.returned (Reference.dangling
          ⟨⟨99, 100, PricingSide.BID⟩, ⟨101, 100, PricingSide.OFFER⟩⟩) ∧
    ∃ (r : BidOffer) (bidsBefore bidsAfter offersBefore offersAfter : List Order),
      (GetBestBidOffer sampleService "X").2 = Outcome.returned (Reference.dangling r) ∧
      (Reference.dangling r).read = Outcome.undefined ∧
      sampleBook.bidStack = bidsBefore ++ r.bidOrder :: bidsAfter ∧
      (∀ e ∈ bidsBefore, e.price < r.bidOrder.price) ∧
      (∀ e ∈ bidsAfter, e.price ≤ r.bidOrder.price) ∧
      sampleBook.offerStack = offersBefore ++ r.offerOrder :: offersAfter ∧
      (∀ e ∈ offersBefore, r.offerOrder.price < e.price) ∧
      (∀ e ∈ offersAfter, r.offerOrder.price ≤ e.price) :=
  ⟨sampleService_X, by simp [sampleBook], by simp [sampleBook],
    by
      rw [GetBestBidOffer_of_cons sampleService "X" sampleBook _ _ _ _ sampleService_X rfl
        rfl]
      norm_num [scanBid, scanOffer],
    C31_GetBestBidOffer_first_of_ties_dangling sampleService "X" sampleBook sampleService_X
      (by simp [sampleBook]) (by simp [sampleBook])⟩

end MarketDataService

/-! ## Best bid and offer: independence of the order of the stacks -/

theorem attainingMax_perm (l1 l2 : List Order) (h : l1.Perm l2) :
    (attainingMax l1).Perm (attainingMax l2) := by
  have hp : (fun e : Order => l1.all (fun e' => decide (e'.price ≤ e.price)))
      = (fun e : Order => l2.all (fun e' => decide (e'.price ≤ e.price))) := by
    funext e
    rw [Bool.eq_iff_iff]
    simp only [List.all_eq_true, decide_eq_true_eq]
    exact ⟨fun hx x hm => hx x (h.mem_iff.mpr hm), fun hx x hm => hx x (h.mem_iff.mp hm)⟩
  unfold attainingMax
  rw [hp]
  exact h.filter _

theorem attainingMin_perm (l1 l2 : List Order) (h : l1.Perm l2) :
    (attainingMin l1).Perm (attainingMin l2) := by
  have hp : (fun e : Order => l1.all (fun e' => decide (e.price ≤ e'.price)))
      = (fun e : Order => l2.all (fun e' => decide (e.price ≤ e'.price))) := by
    funext e
    rw [Bool.eq_iff_iff]
    simp only [List.all_eq_true, decide_eq_true_eq]
    exact ⟨fun hx x hm => hx x (h.mem_iff.mpr hm), fun hx x hm => hx x (h.mem_iff.mp hm)⟩
  unfold attainingMin
  rw [hp]
  exact h.filter _

theorem scanBid_mem_attainingMax (b : Order) (bs : List Order) :
    MarketDataService.scanBid (b :: bs) b ∈ attainingMax (b :: bs) := by
  unfold attainingMax
  rw [List.mem_filter]
  refine ⟨?_, ?_⟩
  · rcases MarketDataService.scanBid_mem (b :: bs) b with h | h
    · rw [h]; exact List.mem_cons_self _ _
    · exact h
  · rw [List.all_eq_true]
    intro x hx
    simpa using MarketDataService.scanBid_le (b :: bs) b x hx

theorem scanOffer_mem_attainingMin (o : Order) (os : List Order) :
    MarketDataService.scanOffer (o :: os) o ∈ attainingMin (o :: os) := by
  unfold attainingMin
  rw [List.mem_filter]
  refine ⟨?_, ?_⟩
  · rcases MarketDataService.scanOffer_mem (o :: os) o with h | h
    · rw [h]; exact List.mem_cons_self _ _
    · exact h
  · rw [List.all_eq_true]
    intro x hx
    simpa using MarketDataService.scanOffer_le (o :: os) o x hx

theorem eq_of_mem_of_length_one {α : Type} (l : List α) (h : l.length = 1) (x y : α)
    (hx : x ∈ l) (hy : y ∈ l) : x = y := by
  obtain ⟨a, rfl⟩ := List.length_eq_one.mp h
  rw [List.mem_singleton] at hx hy
  rw [hx, hy]

namespace MarketDataService

/-- C32: the code does not do what the claim says. For every two stored books for the
same product whose bid stacks are permutations of each other and whose offer stacks are
permutations of each other, if exactly one bid attains the maximum bid price and exactly
one offer attains the minimum offer price, then the two calls of `GetBestBidOffer` build
the same `BidOffer`; but each call hands back a reference to its object after that object
has been destroyed, so neither result can be read and no bid or offer is returned for
either book. -/
theorem C32_GetBestBidOffer_order_independent_dangling {T : Type} [Inhabited T]
    (s1 s2 : MarketDataService T) (id1 id2 : String) (b1 b2 : OrderBook T)
    (h1 : s1.orderbooks id1 = some b1) (h2 : s2.orderbooks id2 = some b2)
    (_hprod : b1.product = b2.product)
    (hbid : b1.bidStack.Perm b2.bidStack) (hoff : b1.offerStack.Perm b2.offerStack)
    (hmax : (attainingMax b1.bidStack).length = 1)
    (hmin : (attainingMin b1.offerStack).length = 1) :
    ∃ r : BidOffer,
      (GetBestBidOffer s1 id1).2 = Outcome.returned (Reference.dangling r) ∧
      (GetBestBidOffer s2 id2).2 = Outcome.returned (Reference.dangling r) ∧
      (Reference.dangling r).read = Outcome.undefined := by
  have hb1 : b1.bidStack ≠ [] := by
    intro h; rw [h] at hmax; simp [attainingMax] at hmax
  have ho1 : b1.offerStack ≠ [] := by
    intro h; rw [h] at hmin; simp [attainingMin] at hmin
  have hb2 : b2.bidStack ≠ [] := by
    intro h; rw [h] at hbid; exact hb1 hbid.eq_nil
  have ho2 : b2.offerStack ≠ [] := by
    intro h; rw [h] at hoff; exact ho1 hoff.eq_nil
  obtain ⟨x1, xs1, hx1⟩ := List.exists_cons_of_ne_nil hb1
  obtain ⟨y1, ys1, hy1⟩ := List.exists_cons_of_ne_nil ho1
  obtain ⟨x2, xs2, hx2⟩ := List.exists_cons_of_ne_nil hb2
  obtain ⟨y2, ys2, hy2⟩ := List.exists_cons_of_ne_nil ho2
  have hmax2 : (attainingMax b2.bidStack).length = 1 := by
    rw [← (attainingMax_perm _ _ hbid).length_eq]; exact hmax
  have hmin2 : (attainingMin b2.offerStack).length = 1 := by
    rw [← (attainingMin_perm _ _ hoff).length_eq]; exact hmin
  have eb : scanBid (x1 :: xs1) x1 = scanBid (x2 :: xs2) x2 := by
    apply eq_of_mem_of_length_one (attainingMax b2.bidStack) hmax2
    · apply (attainingMax_perm _ _ hbid).mem_iff.mp
      rw [hx1]; exact scanBid_mem_attainingMax x1 xs1
    · rw [hx2]; exact scanBid_mem_attainingMax x2 xs2
  have eo : scanOffer (y1 :: ys1) y1 = scanOffer (y2 :: ys2) y2 := by
    apply eq_of_mem_of_length_one (attainingMin b2.offerStack) hmin2
    · apply (attainingMin_perm _ _ hoff).mem_iff.mp
      rw [hy1]; exact scanOffer_mem_attainingMin y1 ys1
    · rw [hy2]; exact scanOffer_mem_attainingMin y2 ys2
  refine ⟨⟨scanBid (x1 :: xs1) x1, scanOffer (y1 :: ys1) y1⟩, ?_, ?_, rfl⟩
  · rw [GetBestBidOffer_of_cons s1 id1 b1 x1 xs1 y1 ys1 h1 hx1 hy1]
  · rw [GetBestBidOffer_of_cons s2 id2 b2 x2 xs2 y2 ys2 h2 hx2 hy2, eb, eo]

/-- C32 at two services that ingested the same bids and offers for "X" in two orders. -/
theorem C32_GetBestBidOffer_order_independent_dangling_witness :
    (new.OnMessage sampleBookUnique).orderbooks "X" = some sampleBookUnique ∧
    (new.OnMessage sampleBookShuffled).orderbooks "X" = some sampleBookShuffled ∧
    sampleBookUnique.product = sampleBookShuffled.product ∧
    sampleBookUnique.bidStack.Perm sampleBookShuffled.bidStack ∧
    sampleBookUnique.offerStack.Perm sampleBookShuffled.offerStack ∧
    (attainingMax sampleBookUnique.bidStack).length = 1 ∧
    (attainingMin sampleBookUnique.offerStack).length = 1 ∧
    ∃ r : BidOffer,
      (GetBestBidOffer (new.OnMessage sampleBookUnique) "X").2
        = Outcome.returned (Reference.dangling r) ∧
      (GetBestBidOffer (new.OnMessage sampleBookShuffled) "X").2
        = Outcome.returned (Reference.dangling r) ∧
      (Reference.dangling r).read = Outcome.undefined :=
  have k1 : (new.OnMessage sampleBookUnique).orderbooks "X" = some sampleBookUnique :=
    StringMap.assign_same new.orderbooks "X" sampleBookUnique
  have k2 : (new.OnMessage sampleBookShuffled).orderbooks "X" = some sampleBookShuffled :=
    StringMap.assign_same new.orderbooks "X" sampleBookShuffled
  have p1 : sampleBookUnique.bidStack.Perm sampleBookShuffled.bidStack :=
    List.Perm.swap _ _ _
  have p2 : sampleBookUnique.offerStack.Perm sampleBookShuffled.offerStack :=
    List.Perm.swap _ _ _
  have m1 : (attainingMax sampleBookUnique.bidStack).length = 1 := by
    norm_num [attainingMax, sampleBookUnique, List.filter_cons]
  have m2 : (attainingMin sampleBookUnique.offerStack).length = 1 := by
    norm_num [attainingMin, sampleBookUnique, List.filter_cons]
  ⟨k1, k2, rfl, p1, p2, m1, m2,
    C32_GetBestBidOffer_order_independent_dangling _ _ "X" "X" sampleBookUnique sampleBookShuffled
      k1 k2 rfl p1 p2 m1 m2⟩

end MarketDataService

/-! ## The two computations of the best bid and offer -/

/-- On a stored book with non-empty stacks, the object `GetBestBidOffer` builds holds the
best bid and the best offer that `ExecuteOrder` computes from the book; the reference it
hands back to that object dangles. -/
theorem GetBestBidOffer_eq_bestBid_bestOffer {T : Type} [Inhabited T]
    (s : MarketDataService T) (productId : String) (book : OrderBook T)
    (hs : s.orderbooks productId = some book) (hb : book.bidStack ≠ [])
    (ho : book.offerStack ≠ []) :
    (MarketDataService.GetBestBidOffer s productId).2
      = Outcome.returned (Reference.dangling ⟨AlgoExecutionService.bestBid book.bidStack,
          AlgoExecutionService.bestOffer book.offerStack⟩) := by
  obtain ⟨b, bs, hbs⟩ := List.exists_cons_of_ne_nil hb
  obtain ⟨o, os, hos⟩ := List.exists_cons_of_ne_nil ho
  rw [MarketDataService.GetBestBidOffer_of_cons s productId book b bs o os hs hbs hos, hbs,
    hos, AlgoExecutionService.bestBid_cons, AlgoExecutionService.bestOffer_cons]

/-- The execution that a freshly constructed service notifies for `bigQuantityBook`. -/
theorem ExecuteOrder_bigQuantityBook :
    (AlgoExecutionService.ExecuteOrder (AlgoExecutionService.new : AlgoExecutionService Product)
        bigQuantityBook).notified.map Notification.payload
      = [⟨⟨"X", ProductType.BOND⟩, PricingSide.BID, "TRADEID_0", OrderType.MARKET, 99,
          9007199254740992, 18014398509481984, "", false⟩] := by
  have hq : (AlgoExecutionService.bestBid bigQuantityBook.bidStack).quantity
      = 9007199254740993 := rfl
  have hp : (AlgoExecutionService.bestBid bigQuantityBook.bidStack).price = 99 := rfl
  have hc : Int.tmod (AlgoExecutionService.new : AlgoExecutionService Product).counter 2
      = 0 := rfl
  have hid : "TRADEID_"
      ++ toString (AlgoExecutionService.new : AlgoExecutionService Product).counter
      = "TRADEID_0" := by decide
  have hprod : bigQuantityBook.product = ⟨"X", ProductType.BOND⟩ := rfl
  have hbo : AlgoExecutionService.builtOrder
      (AlgoExecutionService.new : AlgoExecutionService Product) bigQuantityBook
      = ⟨⟨"X", ProductType.BOND⟩, PricingSide.BID, "TRADEID_0", OrderType.MARKET, 99,
          9007199254740992, 18014398509481984, "", false⟩ := by
    simp only [AlgoExecutionService.builtOrder, hc, if_true, hq, hp, hid, hprod,
      AlgoExecutionService.longToDouble_two_pow_53_succ]
    norm_num
  have hx := AlgoExecutionService.ExecuteOrder_of_test
    (AlgoExecutionService.new : AlgoExecutionService Product) bigQuantityBook
    (by simp [bigQuantityBook]) (by simp [bigQuantityBook])
    AlgoExecutionService.test_bigQuantityBook
  rw [hbo, hid] at hx
  rw [hx]
  simp [AlgoExecutionService.new]

/-- C33: the code does not do what the claim says. For every book with non-empty stacks,
once the book has been ingested the object that `GetBestBidOffer` builds holds the best bid
and the best offer that `ExecuteOrder` computes from it; but `GetBestBidOffer` hands back
a reference to that object after it has been destroyed, so it returns no bid and no offer
that an execution could be compared with. Moreover the visible quantity of an execution
is the quantity of the best order after its passage through the local `double quantity`:
for the book whose best bid has the quantity 9007199254740993 the execution carries the
visible quantity 9007199254740992. -/
theorem C33_best_bid_offer_dangling_and_quantity_rounded :
    (∀ (s : MarketDataService Product) (book : OrderBook Product),
      book.bidStack ≠ [] → book.offerStack ≠ [] →
      (MarketDataService.GetBestBidOffer (s.OnMessage book)
          (HasProductId.GetProductId book.product)).2
        = Outcome.returned (Reference.dangling ⟨AlgoExecutionService.bestBid book.bidStack,
            AlgoExecutionService.bestOffer book.offerStack⟩)) ∧
    (∀ r : BidOffer, (Reference.dangling r).read = Outcome.undefined) ∧
    (AlgoExecutionService.bestBid bigQuantityBook.bidStack).quantity = 9007199254740993 ∧
    (AlgoExecutionService.ExecuteOrder (AlgoExecutionService.new : AlgoExecutionService Product)
        bigQuantityBook).notified.map Notification.payload
      = [⟨⟨"X", ProductType.BOND⟩, PricingSide.BID, "TRADEID_0", OrderType.MARKET, 99,
          9007199254740992, 18014398509481984, "", false⟩] := by
  refine ⟨?_, fun _ => rfl, rfl, ExecuteOrder_bigQuantityBook⟩
  intro s book hb ho
  exact GetBestBidOffer_eq_bestBid_bestOffer (s.OnMessage book) _ book
    (StringMap.assign_same _ _ _) hb ho

/-! ## The inquiry store keeps its keys -/

theorem StringMap.assign_keeps {V : Type} (m : StringMap V) (k k' : String) (v : V)
    (h : (m k).isSome) : ((m.assign k' v) k).isSome := by
  by_cases hk : k = k'
  · simp [StringMap.assign, hk]
  · simpa [StringMap.assign, hk] using h

theorem StringMap.index_keeps {V : Type} [Inhabited V] (m : StringMap V) (k k' : String)
    (h : (m k).isSome) : (((m.index k').1) k).isSome := by
  cases hm : m k' with
  | none =>
    rw [StringMap.index_of_none m k' hm]
    exact StringMap.assign_keeps m k k' default h
  | some v =>
    rw [StringMap.index_of_some m k' v hm]
    exact h

namespace InquiryService

/-- The store after `OnMessage(q)`: `q` is stored under its id, with the price 100 when
`q` is in state `RECEIVED`. -/
theorem OnMessage_inquiries {T : Type} [Inhabited T] (s : InquiryService T)
    (q : Inquiry T) :
    (OnMessage s q).1.inquiries
      = s.inquiries.assign q.inquiryId
          (if q.state = InquiryState.RECEIVED then q.SetPrice 100 else q) := by
  by_cases h1 : q.state = InquiryState.RECEIVED
  · rw [OnMessage_of_received s q h1]; simp [h1]
  · by_cases h2 : q.state = InquiryState.QUOTED
    · rw [OnMessage_of_quoted s q h2]; simp [h1]
    · rw [OnMessage_of_other s q h1 h2]; simp [h1]

/-- C34: for every state, every inquiry id that is a key of the store is still a key after
`OnMessage`, `SendQuote`, `RejectInquiry` and `GetData`, whatever their arguments; and
after ingesting two inquiries with distinct inquiry ids that reference the same product,
`GetData` returns each of them under its own id (with the quote price 100 if it was
ingested in state `RECEIVED`). -/
theorem C34_inquiry_keys_kept {T : Type} [Inhabited T] (s : InquiryService T) :
    (∀ k : String, (s.inquiries k).isSome →
      (∀ q : Inquiry T, ((OnMessage s q).1.inquiries k).isSome) ∧
      (∀ (inquiryId : String) (price : ℚ),
        ((SendQuote s inquiryId price).inquiries k).isSome) ∧
      (∀ inquiryId : String, ((RejectInquiry s inquiryId).inquiries k).isSome) ∧
      (∀ key : String, ((GetData s key).1.inquiries k).isSome)) ∧
    (∀ q1 q2 : Inquiry T, q1.inquiryId ≠ q2.inquiryId → q1.product = q2.product →
      (GetData (OnMessage (OnMessage s q1).1 q2).1 q1.inquiryId).2
        = (if q1.state = InquiryState.RECEIVED then q1.SetPrice 100 else q1) ∧
      (GetData (OnMessage (OnMessage s q1).1 q2).1 q2.inquiryId).2
        = (if q2.state = InquiryState.RECEIVED then q2.SetPrice 100 else q2)) := by
  constructor
  · intro k hk
    refine ⟨?_, ?_, ?_, ?_⟩
    · intro q
      rw [OnMessage_inquiries]
      exact StringMap.assign_keeps _ _ _ _ hk
    · intro inquiryId price
      exact StringMap.assign_keeps _ _ _ _ (StringMap.index_keeps _ _ _ hk)
    · intro inquiryId
      exact StringMap.assign_keeps _ _ _ _ (StringMap.index_keeps _ _ _ hk)
    · intro key
      exact StringMap.index_keeps _ _ _ hk
  · intro q1 q2 hne _
    have e2 : (OnMessage (OnMessage s q1).1 q2).1.inquiries q2.inquiryId
        = some (if q2.state = InquiryState.RECEIVED then q2.SetPrice 100 else q2) := by
      rw [OnMessage_inquiries]
      exact StringMap.assign_same _ _ _
    have e1 : (OnMessage (OnMessage s q1).1 q2).1.inquiries q1.inquiryId
        = some (if q1.state = InquiryState.RECEIVED then q1.SetPrice 100 else q1) := by
      rw [OnMessage_inquiries, StringMap.assign_other _ _ _ _ hne, OnMessage_inquiries]
      exact StringMap.assign_same _ _ _
    constructor
    · simp [GetData, StringMap.index_of_some _ _ _ e1]
    · simp [GetData, StringMap.index_of_some _ _ _ e2]

/-- C34 at the service that stores the inquiry "INQ1" in state `DONE`: "INQ1" stays a key
under the four operations, and the inquiries "INQ1" (state `RECEIVED`) and "INQ3", both
for product "X", are each returned under their own id. -/
theorem C34_inquiry_keys_kept_witness :
    ((OnMessage (new : InquiryService Product) sampleDoneInquiry).1.inquiries "INQ1").isSome ∧
    ((OnMessage (OnMessage (new : InquiryService Product) sampleDoneInquiry).1
      sampleOtherInquiry).1.inquiries "INQ1").isSome ∧
    ((SendQuote (OnMessage (new : InquiryService Product) sampleDoneInquiry).1 "INQ9"
      98).inquiries "INQ1").isSome ∧
    ((RejectInquiry (OnMessage (new : InquiryService Product) sampleDoneInquiry).1
      "INQ9").inquiries "INQ1").isSome ∧
    ((GetData (OnMessage (new : InquiryService Product) sampleDoneInquiry).1
      "INQ9").1.inquiries "INQ1").isSome ∧
    sampleInquiry.inquiryId ≠ sampleOtherInquiry.inquiryId ∧
    sampleInquiry.product = sampleOtherInquiry.product ∧
    (GetData (OnMessage (OnMessage (new : InquiryService Product) sampleInquiry).1
        sampleOtherInquiry).1 "INQ1").2
      = ⟨"INQ1", ⟨"X", ProductType.BOND⟩, Side.BUY, 1000000, 100, InquiryState.RECEIVED⟩ ∧
    (GetData (OnMessage (OnMessage (new : InquiryService Product) sampleInquiry).1
        sampleOtherInquiry).1 "INQ3").2 = sampleOtherInquiry :=
  have hk : ((OnMessage (new : InquiryService Product) sampleDoneInquiry).1.inquiries
      "INQ1").isSome := by
    have e : sampleDoneInquiry.inquiryId = "INQ1" := rfl
    rw [OnMessage_inquiries, e, StringMap.assign_same]
    rfl
  have hne : sampleInquiry.inquiryId ≠ sampleOtherInquiry.inquiryId := by decide
  have h := C34_inquiry_keys_kept (OnMessage (new : InquiryService Product)
    sampleDoneInquiry).1
  have h' := (C34_inquiry_keys_kept (new : InquiryService Product)).2 sampleInquiry
    sampleOtherInquiry hne rfl
  ⟨hk, (h.1 "INQ1" hk).1 sampleOtherInquiry, (h.1 "INQ1" hk).2.1 "INQ9" 98,
    (h.1 "INQ1" hk).2.2.1 "INQ9", (h.1 "INQ1" hk).2.2.2 "INQ9", hne, rfl, h'.1, h'.2⟩

end InquiryService

/-! ## Product type tags and string helpers of `HW2/Problem2&3` -/

namespace HW2

/-- C35, as stated, fails: the future and the eurodollar future of the test program are
built by the constructors of two different variants and `GetProductType()` returns the
same tag `FUTURE` for both, and so it does for the bond future. -/
theorem C35_product_type_tags_counterexample :
    sampleFuture.toProduct.GetProductType = ProductType.FUTURE ∧
    sampleEuroDollarFuture.toFuture.toProduct.GetProductType = ProductType.FUTURE ∧
    sampleBondFuture.toFuture.toProduct.GetProductType = ProductType.FUTURE ∧
    sampleFuture.toProduct.GetProductType
      = sampleEuroDollarFuture.toFuture.toProduct.GetProductType :=
  ⟨rfl, rfl, rfl, rfl⟩

/-- C35, amended: every product built by the constructor of `Bond` carries the tag `BOND`,
every product built by the constructor of `IRSwap` the tag `IRSWAP`, and every product
built by the constructor of `Future`, `EuroDollarFuture` or `BondFuture` the tag `FUTURE`;
the three tags are different, so `GetProductType()` returns different tags for products of
two different variants unless both variants are among the three kinds of future. -/
theorem C35_product_type_tags :
    (∀ (productId : String) (bondIdType : BondIdType) (ticker : String) (coupon : ℚ)
        (maturityDate : Date),
      (Bond.ctor productId bondIdType ticker coupon maturityDate).toProduct.GetProductType
        = ProductType.BOND) ∧
    (∀ (productId : String) (fixedDayCount floatingDayCount : DayCountConvention)
        (frequency : PaymentFrequency) (index : FloatingIndex) (tenor : FloatingIndexTenor)
        (effectiveDate terminationDate : Date) (currency : Currency) (termYears : ℤ)
        (swapType : SwapType) (swapLegType : SwapLegType),
      (IRSwap.ctor productId fixedDayCount floatingDayCount frequency index tenor
        effectiveDate terminationDate currency termYears swapType
        swapLegType).toProduct.GetProductType = ProductType.IRSWAP) ∧
    (∀ (productId underlying : String) (contractSize : ℚ) (expirationDate : Date)
        (deliveryMethod : String) (price : ℚ) (currency : Currency),
      (Future.ctor productId underlying contractSize expirationDate deliveryMethod price
        currency).toProduct.GetProductType = ProductType.FUTURE) ∧
    (∀ (productId underlying : String) (contractSize : ℚ) (expirationDate : Date)
        (deliveryMethod : String) (price : ℚ) (currency : Currency)
        (tenor : FloatingIndexTenor) (index : FloatingIndex),
      (EuroDollarFuture.ctor productId underlying contractSize expirationDate deliveryMethod
        price currency tenor index).toFuture.toProduct.GetProductType
        = ProductType.FUTURE) ∧
    (∀ (productId underlying : String) (contractSize : ℚ) (expirationDate : Date)
        (deliveryMethod : String) (price : ℚ) (currency : Currency) (bondTicker : String)
        (bondIdType : BondIdType) (coupon : ℚ) (maturityDate : Date),
      (BondFuture.ctor productId underlying contractSize expirationDate deliveryMethod price
        currency bondTicker bondIdType coupon maturityDate).toFuture.toProduct.GetProductType
        = ProductType.FUTURE) ∧
    ProductType.BOND ≠ ProductType.IRSWAP ∧ ProductType.BOND ≠ ProductType.FUTURE ∧
    ProductType.IRSWAP ≠ ProductType.FUTURE := by
  refine ⟨?_, ?_, ?_, ?_, ?_, by decide, by decide, by decide⟩
  · intros; rfl
  · intros; rfl
  · intros; rfl
  · intros; rfl
  · intros; rfl

/-- C39: for every `BondProductService` state in which the product id of a bond `b` is
already a key, `Add(b)` leaves the whole store unchanged and `GetData` of that id still
returns the bond stored before; the same holds for the `Add` and `add` operations of the
`IRSwap`, `Future`, `EuroDollarFuture` and `BondFuture` product services. -/
theorem C39_first_write_wins :
    (∀ (s : BondProductService) (b old : Bond),
      s.bondMap.find b.toProduct.GetProductId = some old →
      s.Add b = s ∧
      ((s.Add b).GetData b.toProduct.GetProductId).2 = Outcome.returned old) ∧
    (∀ (s : IRSwapProductService) (x old : IRSwap),
      s.swapMap.find x.toProduct.GetProductId = some old →
      s.Add x = s ∧
      ((s.Add x).GetData x.toProduct.GetProductId).2 = Outcome.returned old) ∧
    (∀ (s : FutureProductService) (f old : Future),
      s.futureMap.find f.toProduct.GetProductId = some old →
      s.add f = s ∧
      ((s.add f).GetData f.toProduct.GetProductId).2 = Outcome.returned old) ∧
    (∀ (s : EDFutureProductService) (f old : EuroDollarFuture),
      s.edFutureMap.find f.toProduct.GetProductId = some old →
      s.add f = s ∧
      ((s.add f).GetData f.toProduct.GetProductId).2 = Outcome.returned old) ∧
    (∀ (s : BondFutureProductService) (f old : BondFuture),
      s.bondFutureMap.find f.toProduct.GetProductId = some old →
      s.add f = s ∧
      ((s.add f).GetData f.toProduct.GetProductId).2 = Outcome.returned old) := by
  refine ⟨?_, ?_, ?_, ?_, ?_⟩
  · intro s b old h
    have hs : s.Add b = s := by
      simp only [BondProductService.Add]
      rw [EntryMap.insert_of_some _ _ b old h]
    exact ⟨hs, by rw [hs]; simp [BondProductService.GetData, EntryMap.index, h]⟩
  · intro s x old h
    have hs : s.Add x = s := by
      simp only [IRSwapProductService.Add]
      rw [EntryMap.insert_of_some _ _ x old h]
    exact ⟨hs, by rw [hs]; simp [IRSwapProductService.GetData, EntryMap.index, h]⟩
  · intro s f old h
    have hs : s.add f = s := by
      simp only [FutureProductService.add]
      rw [EntryMap.insert_of_some _ _ f old h]
    exact ⟨hs, by rw [hs]; simp [FutureProductService.GetData, EntryMap.index, h]⟩
  · intro s f old h
    have hs : s.add f = s := by
      simp only [EDFutureProductService.add]
      rw [EntryMap.insert_of_some _ _ f old h]
    exact ⟨hs, by rw [hs]; simp [EDFutureProductService.GetData, EntryMap.index, h]⟩
  · intro s f old h
    have hs : s.add f = s := by
      simp only [BondFutureProductService.add]
      rw [EntryMap.insert_of_some _ _ f old h]
    exact ⟨hs, by rw [hs]; simp [BondFutureProductService.GetData, EntryMap.index, h]⟩

/-- C40: the code does not do what the claim says. `IRSwap::ToString(DayCountConvention)`
has no `case` for `ACT_THREE_SIXTY_FIVE` and returns the empty string for it, through its
`default` label. Every other value of the seven enumerations is mapped to a non-empty
string, and each of the seven helpers maps distinct values to distinct strings. -/
theorem C40_ToString_day_count_empty :
    IRSwap.ToString_DayCountConvention DayCountConvention.ACT_THREE_SIXTY_FIVE = "" ∧
    (∀ a : DayCountConvention, a ≠ DayCountConvention.ACT_THREE_SIXTY_FIVE →
      IRSwap.ToString_DayCountConvention a ≠ "") ∧
    (∀ a : PaymentFrequency, IRSwap.ToString_PaymentFrequency a ≠ "") ∧
    (∀ a : FloatingIndex, IRSwap.ToString_FloatingIndex a ≠ "") ∧
    (∀ a : FloatingIndexTenor, IRSwap.ToString_FloatingIndexTenor a ≠ "") ∧
    (∀ a : Currency, IRSwap.ToString_Currency a ≠ "") ∧
    (∀ a : SwapType, IRSwap.ToString_SwapType a ≠ "") ∧
    (∀ a : SwapLegType, IRSwap.ToString_SwapLegType a ≠ "") ∧
    (∀ a b : DayCountConvention,
      IRSwap.ToString_DayCountConvention a = IRSwap.ToString_DayCountConvention b → a = b) ∧
    (∀ a b : PaymentFrequency,
      IRSwap.ToString_PaymentFrequency a = IRSwap.ToString_PaymentFrequency b → a = b) ∧
    (∀ a b : FloatingIndex,
      IRSwap.ToString_FloatingIndex a = IRSwap.ToString_FloatingIndex b → a = b) ∧
    (∀ a b : FloatingIndexTenor,
      IRSwap.ToString_FloatingIndexTenor a = IRSwap.ToString_FloatingIndexTenor b →
      a = b) ∧
    (∀ a b : Currency, IRSwap.ToString_Currency a = IRSwap.ToString_Currency b → a = b) ∧
    (∀ a b : SwapType, IRSwap.ToString_SwapType a = IRSwap.ToString_SwapType b → a = b) ∧
    (∀ a b : SwapLegType,
      IRSwap.ToString_SwapLegType a = IRSwap.ToString_SwapLegType b → a = b) := by
  refine ⟨rfl, ?_, ?_, ?_, ?_, ?_, ?_, ?_, ?_, ?_, ?_, ?_, ?_, ?_, ?_⟩
  · intro a; cases a <;> decide
  · intro a; cases a <;> decide
  · intro a; cases a <;> decide
  · intro a; cases a <;> decide
  · intro a; cases a <;> decide
  · intro a; cases a <;> decide
  · intro a; cases a <;> decide
  · intro a b; cases a <;> cases b <;> decide
  · intro a b; cases a <;> cases b <;> decide
  · intro a b; cases a <;> cases b <;> decide
  · intro a b; cases a <;> cases b <;> decide
  · intro a b; cases a <;> cases b <;> decide
  · intro a b; cases a <;> cases b <;> decide
  · intro a b; cases a <;> cases b <;> decide

end HW2

namespace HW2

/-- C39 at the bond service that already holds a bond under the identifier of the 10Y
note. -/
theorem C39_first_write_wins_witness :
    (BondProductService.new.Add otherBond).bondMap.find treasuryBond.toProduct.GetProductId
      = some otherBond ∧
    (BondProductService.new.Add otherBond).Add treasuryBond
      = BondProductService.new.Add otherBond ∧
    (((BondProductService.new.Add otherBond).Add treasuryBond).GetData
        treasuryBond.toProduct.GetProductId).2 = Outcome.returned otherBond :=
  have h1 : (BondProductService.new.Add otherBond).bondMap.find
      treasuryBond.toProduct.GetProductId = some otherBond := by
    simp [BondProductService.Add, BondProductService.new, EntryMap.insert, EntryMap.find,
      EntryMap.place, otherBond, treasuryBond, Bond.ctor, Product.GetProductId]
  ⟨h1, C39_first_write_wins.1 (BondProductService.new.Add otherBond) treasuryBond otherBond
    h1⟩

end HW2

/-! ## Lookup of an unknown product id, and aggregation twice -/

theorem PriceMap.addAt_of_not_mem (m : PriceMap) (k : ℚ) (q : ℤ)
    (h : k ∉ m.map Prod.fst) : PriceMap.addAt m k q = m ++ [(k, wrapLong q)] := by
  induction m with
  | nil => simp [PriceMap.addAt]
  | cons x m ih =>
    obtain ⟨k', v⟩ := x
    have hk : k' ≠ k := by
      intro hkk; apply h; simp [hkk]
    have hm : k ∉ m.map Prod.fst := by
      intro hh; apply h; simp only [List.map_cons, List.mem_cons]; exact Or.inr hh
    simp [PriceMap.addAt, hk, ih hm]

theorem foldl_addAt_of_nodup (side : PricingSide) (l : PriceMap) :
    ∀ acc : PriceMap, ((acc ++ l).map Prod.fst).Nodup →
      (∀ x ∈ l, wrapLong x.2 = x.2) →
      (l.map (fun e => (⟨e.1, e.2, side⟩ : Order))).foldl
          (fun m e => PriceMap.addAt m e.price e.quantity) acc
        = acc ++ l := by
  induction l with
  | nil => intro acc _ _; simp
  | cons x l ih =>
    intro acc hnd hr
    have hx : x.1 ∉ acc.map Prod.fst := by
      intro hmem
      rw [List.map_append, List.nodup_append] at hnd
      exact hnd.2.2 hmem (by simp)
    have hnd' : (((acc ++ [x]) ++ l).map Prod.fst).Nodup := by
      simpa [List.append_assoc] using hnd
    simp only [List.map_cons, List.foldl_cons]
    rw [PriceMap.addAt_of_not_mem acc x.1 x.2 hx, hr x (List.mem_cons_self _ _),
      ih (acc ++ [x]) hnd' (fun y hy => hr y (List.mem_cons_of_mem _ hy))]
    simp [List.append_assoc]

namespace MarketDataService

/-- Accumulating an aggregated stack gives back the entries it was built from, when their
quantities lie in the range of `long`. -/
theorem accumulate_collect (order : BucketOrder) (m : PriceMap) (side : PricingSide)
    (h : (m.map Prod.fst).Nodup) (hr : ∀ x ∈ m, wrapLong x.2 = x.2) :
    accumulate (collect order m side) = order.visit m := by
  have hv : ((order.visit m).map Prod.fst).Nodup :=
    ((order.perm m).map Prod.fst).nodup_iff.mpr h
  have hr' : ∀ x ∈ order.visit m, wrapLong x.2 = x.2 := fun x hx =>
    hr x ((order.perm m).mem_iff.mp hx)
  have := foldl_addAt_of_nodup side (order.visit m) [] (by simpa using hv) hr'
  simpa [accumulate, collect] using this

/-- Aggregating an aggregated stack gives a rearrangement of it. -/
theorem collect_accumulate_collect (order1 order2 : BucketOrder) (stack : List Order)
    (side : PricingSide) :
    (collect order2 (accumulate (collect order1 (accumulate stack) side)) side).Perm
      (collect order1 (accumulate stack) side) := by
  rw [accumulate_collect order1 (accumulate stack) side (accumulate_nodup stack)
    (accumulate_in_range stack)]
  exact (order2.perm _).map _

/-- C37: for every state and product id `k` that is not a key, `GetData(k)` returns a
default book, with empty bid and offer stacks, and makes `k` a key of the store; a
subsequent `AggregateDepth(k)` does not fail with "Product ID not found in orderbooks" and
returns a book with empty bid and offer stacks. -/
theorem C37_GetData_registers {T : Type} [Inhabited T] (order : BucketOrder)
    (s : MarketDataService T) (k : String) (h : s.orderbooks k = none) :
    (GetData s k).2 = ⟨default, [], []⟩ ∧
    ((GetData s k).1.orderbooks k).isSome ∧
    (AggregateDepth order (GetData s k).1 k).2 = Outcome.returned ⟨default, [], []⟩ ∧
    (AggregateDepth order (GetData s k).1 k).2
      ≠ Outcome.runtime_error "Product ID not found in orderbooks" := by
  have hk : (GetData s k).1.orderbooks k = some ⟨default, [], []⟩ := by
    rw [GetData_of_none s k h]
    exact StringMap.assign_same _ _ _
  have ha : (AggregateDepth order (GetData s k).1 k).2
      = Outcome.returned ⟨default, [], []⟩ := by
    rw [AggregateDepth_of_some order _ k _ hk]
    have hp := collect_prices order (accumulate []) PricingSide.BID
    have hq := collect_prices order (accumulate []) PricingSide.OFFER
    have e1 : collect order (accumulate []) PricingSide.BID = [] := by
      simpa [accumulate] using hp
    have e2 : collect order (accumulate []) PricingSide.OFFER = [] := by
      simpa [accumulate] using hq
    simp only [e1, e2]
  refine ⟨by rw [GetData_of_none s k h]; rfl, by rw [hk]; rfl, ha, ?_⟩
  rw [ha]
  intro h'; cases h'

/-- C37 at the sample service and the product id "Z", which is not a key. -/
theorem C37_GetData_registers_witness :
    sampleService.orderbooks "Z" = none ∧
    (GetData sampleService "Z").2 = ⟨default, [], []⟩ ∧
    ((GetData sampleService "Z").1.orderbooks "Z").isSome ∧
    (AggregateDepth BucketOrder.reversed (GetData sampleService "Z").1 "Z").2
      = Outcome.returned ⟨default, [], []⟩ ∧
    (AggregateDepth BucketOrder.reversed (GetData sampleService "Z").1 "Z").2
      ≠ Outcome.runtime_error "Product ID not found in orderbooks" :=
  ⟨sampleService_Z, C37_GetData_registers BucketOrder.reversed sampleService "Z"
    sampleService_Z⟩

/-- C38: for every stored book `b`, ingesting the book that `AggregateDepth` returns for
`b` and aggregating it again yields, on each side, a rearrangement of the orders of the
first aggregation, so the same set of orders (price, quantity and side); this holds
whatever the traversal orders of the two aggregations are. -/
theorem C38_AggregateDepth_idempotent {T : Type} [Inhabited T] [HasProductId T]
    (order1 order2 : BucketOrder) (s : MarketDataService T) (k : String) (b : OrderBook T)
    (hs : s.orderbooks k = some b) :
    ∃ agg1 agg2 : OrderBook T,
      (AggregateDepth order1 s k).2 = Outcome.returned agg1 ∧
      (AggregateDepth order2 (OnMessage s agg1)
          (HasProductId.GetProductId agg1.product)).2 = Outcome.returned agg2 ∧
      agg2.bidStack.Perm agg1.bidStack ∧ agg2.offerStack.Perm agg1.offerStack ∧
      (∀ e : Order, e ∈ agg2.bidStack ↔ e ∈ agg1.bidStack) ∧
      (∀ e : Order, e ∈ agg2.offerStack ↔ e ∈ agg1.offerStack) := by
  have hb := collect_accumulate_collect order1 order2 b.bidStack PricingSide.BID
  have ho := collect_accumulate_collect order1 order2 b.offerStack PricingSide.OFFER
  refine ⟨⟨b.product, collect order1 (accumulate b.bidStack) PricingSide.BID,
      collect order1 (accumulate b.offerStack) PricingSide.OFFER⟩,
    ⟨b.product,
      collect order2 (accumulate (collect order1 (accumulate b.bidStack) PricingSide.BID))
        PricingSide.BID,
      collect order2
        (accumulate (collect order1 (accumulate b.offerStack) PricingSide.OFFER))
        PricingSide.OFFER⟩,
    ?_, ?_, hb, ho, fun e => hb.mem_iff, fun e => ho.mem_iff⟩
  · rw [AggregateDepth_of_some order1 s k b hs]
  · rw [AggregateDepth_of_some order2 _ _ _ (StringMap.assign_same _ _ _)]

/-- C38 at the sample service and product "X", aggregated first in the order of insertion
and then in the reverse order. -/
theorem C38_AggregateDepth_idempotent_witness :
    sampleService.orderbooks "X" = some sampleBook ∧
    ∃ agg1 agg2 : OrderBook Product,
      (AggregateDepth BucketOrder.insertion sampleService "X").2 = Outcome.returned agg1 ∧
      (AggregateDepth BucketOrder.reversed (OnMessage sampleService agg1)
          (HasProductId.GetProductId agg1.product)).2 = Outcome.returned agg2 ∧
      agg2.bidStack.Perm agg1.bidStack ∧ agg2.offerStack.Perm agg1.offerStack ∧
      (∀ e : Order, e ∈ agg2.bidStack ↔ e ∈ agg1.bidStack) ∧
      (∀ e : Order, e ∈ agg2.offerStack ↔ e ∈ agg1.offerStack) :=
  ⟨sampleService_X,
    C38_AggregateDepth_idempotent BucketOrder.insertion BucketOrder.reversed sampleService
      "X" sampleBook sampleService_X⟩

end MarketDataService

/-! ## The decimal names of the executions -/

theorem digitChar_value (k : ℕ) (h : k < 10) : (Nat.digitChar k).toNat - 48 = k := by
  interval_cases k <;> rfl

theorem decodeDecimal_toDigitsCore (fuel : ℕ) :
    ∀ (n : ℕ) (ds : List Char), n < fuel →
      decodeDecimal (Nat.toDigitsCore 10 fuel n ds) 0 = decodeDecimal ds n := by
  induction fuel with
  | zero => intro n ds h; omega
  | succ fuel ih =>
    intro n ds h
    unfold Nat.toDigitsCore
    by_cases h0 : n / 10 = 0
    · have hn : n % 10 = n := Nat.mod_eq_of_lt (by omega)
      simp only [h0, if_true]
      simp only [decodeDecimal, List.foldl_cons]
      rw [digitChar_value (n % 10) (Nat.mod_lt _ (by decide)), hn]
      simp
    · simp only [h0, if_false]
      rw [ih (n / 10) _ (by omega)]
      simp only [decodeDecimal, List.foldl_cons]
      rw [digitChar_value (n % 10) (Nat.mod_lt _ (by decide)), Nat.div_add_mod]

theorem decodeDecimal_repr (n : ℕ) : decodeDecimal (Nat.repr n).data 0 = n := by
  have h := decodeDecimal_toDigitsCore (n + 1) n [] (Nat.lt_succ_self n)
  simpa [decodeDecimal, Nat.repr, Nat.toDigits, List.asString] using h

theorem repr_injective (i j : ℕ) (h : Nat.repr i = Nat.repr j) : i = j := by
  rw [← decodeDecimal_repr i, ← decodeDecimal_repr j, h]

theorem tradeId_injective (i j : ℕ)
    (h : "TRADEID_" ++ Nat.repr i = "TRADEID_" ++ Nat.repr j) : i = j := by
  apply repr_injective
  have hd := congrArg String.data h
  rw [String.data_append, String.data_append] at hd
  exact String.ext (List.append_cancel_left hd)

/-! ## The store and the counter of the execution service -/

namespace AlgoExecutionService

theorem length_le_ExecuteOrder {T : Type} (s : AlgoExecutionService T)
    (data : OrderBook T) : s.notified.length ≤ (ExecuteOrder s data).notified.length := by
  rcases ExecuteOrder_cases s data with h | h
  · rw [h]
  · rw [h]; simp

theorem length_le_run {T : Type} (books : List (OrderBook T)) :
    ∀ s : AlgoExecutionService T, s.notified.length ≤ (run s books).notified.length := by
  induction books with
  | nil => intro s; exact le_refl _
  | cons b books ih =>
    intro s
    exact le_trans (length_le_ExecuteOrder s b) (ih (ExecuteOrder s b))

/-- The keys of the store are the names of the executions notified so far. -/
theorem keys_step {T : Type} (s : AlgoExecutionService T) (data : OrderBook T)
    (hlen : s.counter = wrapInt s.notified.length)
    (h : ∀ k : String, (s.execution_orders k).isSome ↔
      ∃ i : ℕ, i < s.notified.length ∧ k = "TRADEID_" ++ toString (wrapInt i)) :
    ∀ k : String, ((ExecuteOrder s data).execution_orders k).isSome ↔
      ∃ i : ℕ, i < (ExecuteOrder s data).notified.length ∧
        k = "TRADEID_" ++ toString (wrapInt i) := by
  rcases ExecuteOrder_cases s data with hx | hx
  · rw [hx]; exact h
  · rw [hx]
    intro k
    dsimp only
    rw [hlen, List.length_append, List.length_singleton]
    by_cases hk : k = "TRADEID_" ++ toString (wrapInt s.notified.length)
    · constructor
      · intro _
        exact ⟨s.notified.length, Nat.lt_succ_self _, hk⟩
      · intro _
        rw [hk, StringMap.assign_same]
        rfl
    · rw [StringMap.assign_other _ _ _ _ hk, h k]
      constructor
      · rintro ⟨i, hi, hki⟩
        exact ⟨i, Nat.lt_succ_of_lt hi, hki⟩
      · rintro ⟨i, hi, hki⟩
        have hne : i ≠ s.notified.length := by
          intro hic; rw [hic] at hki; exact hk hki
        exact ⟨i, by omega, hki⟩

theorem keys_run {T : Type} (books : List (OrderBook T)) :
    ∀ s : AlgoExecutionService T,
      s.counter = wrapInt s.notified.length →
      (∀ (k : ℕ) (e : ExecutionOrder T),
        (s.notified.map Notification.payload)[k]? = some e →
        e.orderId = "TRADEID_" ++ toString (wrapInt k) ∧
        e.side = if k % 2 = 0 then PricingSide.BID else PricingSide.OFFER) →
      (∀ k : String, (s.execution_orders k).isSome ↔
        ∃ i : ℕ, i < s.notified.length ∧ k = "TRADEID_" ++ toString (wrapInt i)) →
      ∀ k : String, ((run s books).execution_orders k).isSome ↔
        ∃ i : ℕ, i < (run s books).notified.length ∧
          k = "TRADEID_" ++ toString (wrapInt i) := by
  induction books with
  | nil => intro s _ _ h; exact h
  | cons b books ih =>
    intro s hlen hall h
    have hstep := numbered_step s b hlen hall
    exact ih (ExecuteOrder s b) hstep.1 hstep.2 (keys_step s b hlen h)

/-- From a freshly constructed service the keys of the store are the names of the
executions notified so far. -/
theorem keys_run_new {T : Type} (books : List (OrderBook T)) :
    ∀ k : String, ((run (new : AlgoExecutionService T) books).execution_orders k).isSome ↔
      ∃ i : ℕ, i < (run (new : AlgoExecutionService T) books).notified.length ∧
        k = "TRADEID_" ++ toString (wrapInt i) :=
  keys_run books new new_counter (by intro k e hk; simp [new] at hk) (by
    intro k
    constructor
    · intro h; simp [new, StringMap.empty] at h
    · rintro ⟨i, hi, _⟩; simp [new] at hi)

/-- C36, as stated, fails: after 2147483647 calls on the scenario book, each of which
executes, the counter is 2147483647, and one more call on that book leaves it at
-2147483648, while the store still holds the key "TRADEID_0". -/
theorem C36_store_and_counter_counterexample :
    (run (new : AlgoExecutionService Product)
      (List.replicate 2147483647 scenarioBook)).counter = 2147483647 ∧
    (run (run (new : AlgoExecutionService Product)
      (List.replicate 2147483647 scenarioBook)) [scenarioBook]).counter = -2147483648 ∧
    ((run (run (new : AlgoExecutionService Product)
      (List.replicate 2147483647 scenarioBook)) [scenarioBook]).execution_orders
        "TRADEID_0").isSome := by
  have h0 : (new : AlgoExecutionService Product).notified.length = 0 := rfl
  have hr := run_replicate_scenarioBook 2147483647 new rfl
  have hr1 := run_replicate_scenarioBook 1
    (run (new : AlgoExecutionService Product) (List.replicate 2147483647 scenarioBook))
    hr.2
  have hl : (run (new : AlgoExecutionService Product)
      (List.replicate 2147483647 scenarioBook)).notified.length = 2147483647 := by
    rw [hr.1, h0]
  have hl1 : (run (run (new : AlgoExecutionService Product)
      (List.replicate 2147483647 scenarioBook)) [scenarioBook]).notified.length
      = 2147483648 := by
    have e1 : [scenarioBook] = List.replicate 1 scenarioBook := rfl
    rw [e1, hr1.1, hl]
  have ha : run (run (new : AlgoExecutionService Product)
      (List.replicate 2147483647 scenarioBook)) [scenarioBook]
      = run new (List.replicate 2147483647 scenarioBook ++ [scenarioBook]) :=
    (run_append _ _ _).symm
  refine ⟨?_, ?_, ?_⟩
  · rw [counter_run_new, hl]
    unfold wrapInt
    norm_num
  · rw [ha, counter_run_new, ← ha, hl1]
    unfold wrapInt
    norm_num
  · rw [ha, keys_run_new, ← ha, hl1]
    refine ⟨0, by norm_num, ?_⟩
    have hw : wrapInt ((0 : ℕ) : ℤ) = 0 := by
      unfold wrapInt
      norm_num
    rw [hw]
    decide

/-- C36, amended: in every state reached from a freshly constructed service by calls of
`ExecuteOrder` only in which fewer than 2^31 executions have been produced, with the
counter value `c`, the counter is the number of executions produced so far, the keys of
the execution store are exactly "TRADEID_0", ..., "TRADEID_(c-1)"; these names are pairwise
different, so the store holds exactly `c` executions and no generated id overwrites an
earlier one; and the counter does not decrease under further calls as long as fewer than
2^31 executions have been produced. -/
theorem C36_store_and_counter_bounded {T : Type} (books : List (OrderBook T))
    (hn : (run (new : AlgoExecutionService T) books).notified.length < 2147483648) :
    (run (new : AlgoExecutionService T) books).counter
      = ((run (new : AlgoExecutionService T) books).notified.length : ℤ) ∧
    (∀ k : String,
      ((run (new : AlgoExecutionService T) books).execution_orders k).isSome ↔
        ∃ i : ℕ, (i : ℤ) < (run (new : AlgoExecutionService T) books).counter ∧
          k = "TRADEID_" ++ Nat.repr i) ∧
    (∀ i j : ℕ, "TRADEID_" ++ Nat.repr i = "TRADEID_" ++ Nat.repr j → i = j) ∧
    (Set.ncard {k : String |
        ((run (new : AlgoExecutionService T) books).execution_orders k).isSome} : ℤ)
      = (run (new : AlgoExecutionService T) books).counter ∧
    (∀ more : List (OrderBook T),
      (run (run (new : AlgoExecutionService T) books) more).notified.length < 2147483648 →
      (run (new : AlgoExecutionService T) books).counter
        ≤ (run (run (new : AlgoExecutionService T) books) more).counter) := by
  have hc : (run (new : AlgoExecutionService T) books).counter
      = ((run (new : AlgoExecutionService T) books).notified.length : ℤ) := by
    rw [counter_run_new]
    exact wrapInt_of_range _ (by omega) (by omega)
  have hkeys : ∀ k : String,
      ((run (new : AlgoExecutionService T) books).execution_orders k).isSome ↔
        ∃ i : ℕ, i < (run (new : AlgoExecutionService T) books).notified.length ∧
          k = "TRADEID_" ++ Nat.repr i := by
    intro k
    rw [keys_run_new books k]
    constructor
    · rintro ⟨i, hi, hk⟩
      exact ⟨i, hi, by rw [hk, tradeId_of_lt i (by omega)]⟩
    · rintro ⟨i, hi, hk⟩
      exact ⟨i, hi, by rw [hk, tradeId_of_lt i (by omega)]⟩
  refine ⟨hc, ?_, tradeId_injective, ?_, ?_⟩
  · intro k
    rw [hkeys k, hc]
    constructor
    · rintro ⟨i, hi, hk⟩
      exact ⟨i, by exact_mod_cast hi, hk⟩
    · rintro ⟨i, hi, hk⟩
      exact ⟨i, by exact_mod_cast hi, hk⟩
  · have hset : {k : String |
        ((run (new : AlgoExecutionService T) books).execution_orders k).isSome}
        = ((Finset.range (run (new : AlgoExecutionService T) books).notified.length).image
            (fun i => "TRADEID_" ++ Nat.repr i) : Finset String) := by
      ext k
      simp only [Set.mem_setOf_eq, Finset.coe_image, Finset.coe_range, Set.mem_image,
        Set.mem_Iio]
      rw [hkeys k]
      constructor
      · rintro ⟨i, hi, hk⟩; exact ⟨i, hi, hk.symm⟩
      · rintro ⟨i, hi, hk⟩; exact ⟨i, hi, hk.symm⟩
    rw [hset, Set.ncard_coe_Finset,
      Finset.card_image_of_injective _ (fun i j h => tradeId_injective i j h),
      Finset.card_range, hc]
  · intro more hm
    have hle := length_le_run more (run (new : AlgoExecutionService T) books)
    have hc' : (run (run (new : AlgoExecutionService T) books) more).counter
        = ((run (run (new : AlgoExecutionService T) books) more).notified.length : ℤ) := by
      rw [← run_append] at hm ⊢
      rw [counter_run_new]
      exact wrapInt_of_range _ (by omega) (by omega)
    rw [hc, hc']
    exact_mod_cast hle

/-- C36, amended, at the state reached by the scenario book followed by the sample book,
which both execute: the counter is 2 and the store holds the two keys "TRADEID_0" and
"TRADEID_1". -/
theorem C36_store_and_counter_bounded_witness :
    (run (new : AlgoExecutionService Product) [scenarioBook, sampleBook]).notified.length
      < 2147483648 ∧
    (run (new : AlgoExecutionService Product) [scenarioBook, sampleBook]).counter = 2 ∧
    (run (new : AlgoExecutionService Product) [scenarioBook, sampleBook]).counter
      = ((run (new : AlgoExecutionService Product)
          [scenarioBook, sampleBook]).notified.length : ℤ) ∧
    (∀ k : String,
      ((run (new : AlgoExecutionService Product)
          [scenarioBook, sampleBook]).execution_orders k).isSome ↔
        ∃ i : ℕ, (i : ℤ) < (run (new : AlgoExecutionService Product)
            [scenarioBook, sampleBook]).counter ∧
          k = "TRADEID_" ++ Nat.repr i) ∧
    (∀ i j : ℕ, "TRADEID_" ++ Nat.repr i = "TRADEID_" ++ Nat.repr j → i = j) ∧
    (Set.ncard {k : String |
        ((run (new : AlgoExecutionService Product)
          [scenarioBook, sampleBook]).execution_orders k).isSome} : ℤ)
      = (run (new : AlgoExecutionService Product) [scenarioBook, sampleBook]).counter ∧
    (∀ more : List (OrderBook Product),
      (run (run (new : AlgoExecutionService Product) [scenarioBook, sampleBook])
        more).notified.length < 2147483648 →
      (run (new : AlgoExecutionService Product) [scenarioBook, sampleBook]).counter
        ≤ (run (run (new : AlgoExecutionService Product) [scenarioBook, sampleBook])
            more).counter) :=
  have h1 : ExecuteOrder (new : AlgoExecutionService Product) scenarioBook = _ :=
    ExecuteOrder_of_test (new : AlgoExecutionService Product) scenarioBook
      (by simp [scenarioBook]) (by simp [scenarioBook]) test_scenarioBook
  have h2 : ∀ s : AlgoExecutionService Product, s.spread_tol = 1 / 128 →
      ExecuteOrder s sampleBook = _ := fun s hs =>
    ExecuteOrder_of_test s sampleBook (by simp [sampleBook]) (by simp [sampleBook])
      (by rw [hs]; exact test_sampleBook)
  have hl : (run (new : AlgoExecutionService Product)
      [scenarioBook, sampleBook]).notified.length = 2 := by
    simp only [run, List.foldl_cons, List.foldl_nil]
    rw [h1, h2 _ rfl]
    simp [new]
  have hb : (run (new : AlgoExecutionService Product)
      [scenarioBook, sampleBook]).notified.length < 2147483648 := by
    rw [hl]; norm_num
  have hc := C36_store_and_counter_bounded [scenarioBook, sampleBook] hb
  ⟨hb, by rw [hc.1, hl]; rfl, hc⟩

end AlgoExecutionService

end MTH9815
